import Mathlib

/-!
Configuration set-up and the scheduled file sink of spdlog: a verification development.

Shallow embedding of

* `include/spdlog/details/conf_impl.h` (document merge, logger assembly), and
* `include/spdlog/sinks/scheduled_file_sink.h` (calendar-aligned rotating sink).

Exceptions (`spdlog_ex`) are modelled by `Except String`, the string being the
exception message.  Objects mutated through `shared_ptr` are modelled by explicit
state passing.  The count of clock ticks is a signed integer of 64 bits; the local time
of the host (`localtime`, `mktime`) is given by the surroundings of the sink.
-/

set_option autoImplicit false

namespace spdlog

/-! ## Document tree (cpptoml) -/

/-- A node of a parsed document (`cpptoml::base`): a string, boolean or integer value,
an array, a table, an array of tables, or any other value (float, date, ...). -/
inductive Value where
  | str (s : String)
  | bool (b : Bool)
  | int (i : Int)
  | array (xs : List Value)
  | table (kvs : List (String × Value))
  | tableArray (items : List (List (String × Value)))
  | other (tag : Nat)

/-- A `cpptoml::table`: a map from keys to nodes, kept as an association list.
`Table.get` reads the first binding of a key and `Table.insert` overwrites it, so a
list with unique keys (`Table.wf`) behaves as the `unordered_map` of the source. -/
abbrev Table := List (String × Value)

namespace Table

/-- The keys bound by a table. -/
def keys (t : Table) : List String := t.map Prod.fst

/-- The representation invariant of a map: no key is bound twice. -/
def wf (t : Table) : Prop := (keys t).Nodup

instance (t : Table) : Decidable (wf t) := by
  unfold wf
  infer_instance

/-- The lookup `map_.at(key)` of `cpptoml::table::get` (`none` when the key is absent). -/
def get : Table → String → Option Value
  | [], _ => none
  | (k, v) :: rest, key => if k = key then some v else get rest key

/-- The assignment `map_[key] = value` of `cpptoml::table::insert`: an existing binding
is overwritten, a new one is added. -/
def insert : Table → String → Value → Table
  | [], key, value => [(key, value)]
  | (k, v) :: rest, key, value =>
    if k = key then (k, value) :: rest else (k, v) :: insert rest key value

/-- `table::get_as<std::string>(key)`: the value when the key holds a string. -/
def get_as_string (t : Table) (key : String) : Option String :=
  match t.get key with
  | some (.str s) => some s
  | _ => none

/-- `table::get_as<bool>(key)`: the value when the key holds a boolean. -/
def get_as_bool (t : Table) (key : String) : Option Bool :=
  match t.get key with
  | some (.bool b) => some b
  | _ => none

/-- `table::get_table_array(key)`: the items when the key holds an array of tables,
a null pointer (`none`) otherwise. -/
def get_table_array (t : Table) (key : String) : Option (List Table) :=
  match t.get key with
  | some (.tableArray items) => some items
  | _ => none

/-- The element test of `get_array_of<std::string>`: `b->as<std::string>()`. -/
def as_string : Value → Option String
  | .str s => some s
  | _ => none

/-- The loop of `get_array_of<std::string>`: every element must be a string. -/
def all_strings : List Value → Option (List String)
  | [] => some []
  | v :: rest =>
    match as_string v with
    | none => none
    | some s =>
      match all_strings rest with
      | none => none
      | some ss => some (s :: ss)

/-- `table::get_array_of<std::string>(key)`: the strings when the key holds an array
all of whose elements are strings. -/
def get_array_of_string (t : Table) (key : String) : Option (List String) :=
  match t.get key with
  | some (.array xs) => all_strings xs
  | _ => none

/-- `table::get_qualified_as<bool>("outer.inner")`: walk into the table `outer`, then
read the boolean `inner`; any missing step gives the empty option. -/
def get_qualified_as_bool (t : Table) (outer inner : String) : Option Bool :=
  match t.get outer with
  | some (.table kvs) => get_as_bool kvs inner
  | _ => none

end Table

/-! ## Names of sections and fields (`namespace names`, conf_impl.h 108-138) -/

namespace names

def LOGGER_TABLE : String := "logger"
def PATTERN_TABLE : String := "pattern"
def SINK_TABLE : String := "sink"

def GLOBAL_PATTERN : String := "global_pattern"
def LEVEL : String := "level"
def NAME : String := "name"
def PATTERN : String := "pattern"
def SINKS : String := "sinks"

def IS_ASYNC : String := "is_async"
def ASYNC_IS_BLOCK_TABLE : String := "async"
def ASYNC_IS_BLOCK_KEY : String := "block"
def FLUSH_LEVEL : String := "flush_level"
def IS_DEFAULT : String := "is_default"

def BASE_FILENAME : String := "base_filename"
def CREATE_PARENT_DIR : String := "create_parent_dir"
def FILENAME : String := "filename"
def IDENT : String := "ident"
def MAX_FILES : String := "max_files"
def MAX_SIZE : String := "max_size"
def SYSLOG_FACILITY : String := "syslog_facility"
def SYSLOG_OPTION : String := "syslog_option"
def TRUNCATE : String := "truncate"
def TYPE : String := "type"
def VALUE : String := "value"
def SCHEDULED_TYPE : String := "scheduled_type"

end names

/-! ## Document merge (conf_impl.h 208-377) -/

/-- Source `find_item_iter_by_name`: the position of the first item whose `name` is the
string `name`; the length of the array (the end iterator) when there is none. -/
def find_item_iter_by_name : List Table → String → Nat
  | [], _ => 0
  | item :: rest, name =>
    if Table.get_as_string item names.NAME = some name then 0
    else find_item_iter_by_name rest name + 1

/-- Source `find_item_by_name`: the found item, given by its position in the array
(the source returns a pointer into the array), or `none` for the null pointer. -/
def find_item_by_name (items : List Table) (name : String) : Option Nat :=
  let item_it := find_item_iter_by_name items name
  if item_it = items.length then none else some item_it

/-- The inner loop of `merge_config_items` (328-331): every key/value pair of the
override item is inserted into the found base item. -/
def merge_item_fields : Table → List (String × Value) → Table
  | found_base_item, [] => found_base_item
  | found_base_item, kv :: rest =>
    merge_item_fields (Table.insert found_base_item kv.1 kv.2) rest

/-- In-place update of the array element a pointer refers to. -/
def update_item_at : List Table → Nat → (Table → Table) → List Table
  | [], _, _ => []
  | item :: rest, 0, f => f item :: rest
  | item :: rest, n + 1, f => item :: update_item_at rest n f

/-- One round of the outer loop of `merge_config_items` (310-336). -/
def merge_config_item (base_items : List Table) (ovr_item : Table) :
    Except String (List Table) :=
  match Table.get_as_string ovr_item names.NAME with
  | none => .error "One of the items in override does not have a name"
  | some ovr_name =>
    match find_item_by_name base_items ovr_name with
    | some found_base_item =>
      .ok (update_item_at base_items found_base_item
        (fun found_base_item_ref => merge_item_fields found_base_item_ref ovr_item))
    | none => .ok (base_items ++ [ovr_item])

/-- The outer loop of `merge_config_items` over the override items, in order. -/
def merge_config_items_loop : List Table → List Table → Except String (List Table)
  | base_items, [] => .ok base_items
  | base_items, ovr_item :: rest =>
    match merge_config_item base_items ovr_item with
    | .error e => .error e
    | .ok merged => merge_config_items_loop merged rest

/-- Source `merge_config_items`.  `base_items` points into `base_ref` at key
`section_key`, so the in-place merge is written back under that key; when base has no
array the override array is inserted under `names::LOGGER_TABLE` (line 338), whatever
section is being merged. -/
def merge_config_items (base_ref : Table) (section_key : String)
    (base_items ovr_items : Option (List Table)) : Except String Table :=
  match base_items, ovr_items with
  | some base_items_ref, some ovr_items_ref =>
    match merge_config_items_loop base_items_ref ovr_items_ref with
    | .error e => .error e
    | .ok merged => .ok (Table.insert base_ref section_key (.tableArray merged))
  | none, some ovr_items_ref =>
    .ok (Table.insert base_ref names.LOGGER_TABLE (.tableArray ovr_items_ref))
  | _, none => .ok base_ref

/-- Source `merge_config_root`: sinks, then patterns, then loggers.  A null document
pointer is `none`. -/
def merge_config_root (base ovr : Option Table) : Except String Table :=
  match base with
  | none => .error "Base config cannot be null for merging"
  | some base_ref =>
    match ovr with
    | none => .error "Override config cannot be null for merging"
    | some ovr_ref =>
      match merge_config_items base_ref names.SINK_TABLE
          (Table.get_table_array base_ref names.SINK_TABLE)
          (Table.get_table_array ovr_ref names.SINK_TABLE) with
      | .error e => .error e
      | .ok base_ref1 =>
        match merge_config_items base_ref1 names.PATTERN_TABLE
            (Table.get_table_array base_ref1 names.PATTERN_TABLE)
            (Table.get_table_array ovr_ref names.PATTERN_TABLE) with
        | .error e => .error e
        | .ok base_ref2 =>
          merge_config_items base_ref2 names.LOGGER_TABLE
            (Table.get_table_array base_ref2 names.LOGGER_TABLE)
            (Table.get_table_array ovr_ref names.LOGGER_TABLE)

/-! ## Maps, levels and exceptions (conf_impl.h 478-490, 611-637) -/

/-- A `std::unordered_map<std::string, T>`, kept as an association list; `Map.find`
reads the first binding of a key. -/
abbrev Map (β : Type) := List (String × β)

/-- The lookup `m.find(key)`; `none` is the end iterator. -/
def Map.find {β : Type} : Map β → String → Option β
  | [], _ => none
  | (k, v) :: rest, key => if k = key then some v else Map.find rest key

/-- Source `find_value_from_map`: the mapped value, or `spdlog_ex(err_msg)`. -/
def find_value_from_map {β : Type} (m : Map β) (key : String) (err_msg : String) :
    Except String β :=
  match Map.find m key with
  | none => .error err_msg
  | some v => .ok v

/-- The enumeration `spdlog::level::level_enum`. -/
inductive level_enum where
  | trace | debug | info | warn | err | critical | off
  deriving DecidableEq, Repr

/-- Source `level_from_str`. -/
def level_from_str (level : String) : Except String level_enum :=
  if level = "trace" then .ok .trace
  else if level = "debug" then .ok .debug
  else if level = "info" then .ok .info
  else if level = "warn" then .ok .warn
  else if level = "error" then .ok .err
  else if level = "critical" then .ok .critical
  else if level = "off" then .ok .off
  else .error ("Invalid level string '" ++ level ++ "' provided")

/-- Source `level_to_str`.  The final `else`, which throws for a value that is none of
the enumerators, has no counterpart here: `level_enum` has exactly the seven
enumerators. -/
def level_to_str : level_enum → Except String String
  | .trace => .ok "trace"
  | .debug => .ok "debug"
  | .info => .ok "info"
  | .warn => .ok "warn"
  | .err => .ok "error"
  | .critical => .ok "critical"
  | .off => .ok "off"

/-- Source `value_from_table<std::string>`. -/
def value_from_table_string (table : Table) (field : String) (err_msg : String) :
    Except String String :=
  match Table.get_as_string table field with
  | none => .error err_msg
  | some v => .ok v

/-- Source `value_from_table_opt<std::string>`. -/
def value_from_table_opt (table : Table) (field : String) : Option String :=
  Table.get_as_string table field

/-- Source `value_from_table_or<bool>`. -/
def value_from_table_or_bool (table : Table) (field : String) (alt_val : Bool) : Bool :=
  match Table.get_as_bool table field with
  | some v => v
  | none => alt_val

/-- Source `value_from_table_or<std::string>`. -/
def value_from_table_or_string (table : Table) (field : String) (alt_val : String) :
    String :=
  match Table.get_as_string table field with
  | some v => v
  | none => alt_val

/-- Source `value_from_table_qualified_or<bool>`, for a key of the form `outer.inner`. -/
def value_from_table_qualified_or_bool (table : Table) (outer inner : String)
    (alt_val : Bool) : Bool :=
  match Table.get_qualified_as_bool table outer inner with
  | some v => v
  | none => alt_val

/-- Source `array_from_table<std::string>`. -/
def array_from_table_string (table : Table) (field : String) (err_msg : String) :
    Except String (List String) :=
  match Table.get_array_of_string table field with
  | none => .error err_msg
  | some v => .ok v

/-! ## Sinks, loggers and the registry -/

/-- The enumeration `sink_type` (conf_impl.h 61-106). -/
inductive sink_type where
  | StdoutSinkSt | StdoutSinkMt | ColorStdoutSinkSt | ColorStdoutSinkMt
  | BasicFileSinkSt | BasicFileSinkMt | RotatingFileSinkSt | RotatingFileSinkMt
  | ScheduledFileSinkSt | ScheduledFileSinkMt | NullSinkSt | NullSinkMt | SyslogSink
  deriving DecidableEq, Repr

namespace sinks

/-- The enumeration `scheduled_type` (scheduled_file_sink.h 27-31). -/
inductive scheduled_type where
  | DAILY | HOURLY | MINUTELY
  deriving DecidableEq, Repr

end sinks

/-- A constructed sink object (`std::shared_ptr<sinks::sink>`): its variant, the file
name it was constructed on (empty for the variants without one) and the level set on
it (`none` while `set_level` has not been called), followed by the other arguments of
its constructor: the truncate flag of a file sink, the size and file count of a
rotating sink, and the identity, option and facility of a syslog sink.  For a scheduled
sink the fields are read from the object its constructor has built: `filename` is
`base_filename_`, `truncate` is `truncate_`, `scheduled` is `scheduled_type_`,
`open_filename` is the name of the file the object has open and `rotation_tp` is
`rotation_tp_`. -/
structure Sink where
  type : sink_type
  filename : String
  level : Option level_enum
  truncate : Bool := false
  max_size : Nat := 0
  max_files : Nat := 0
  scheduled : Option sinks.scheduled_type := none
  open_filename : String := ""
  rotation_tp : Option Int := none
  ident : String := ""
  syslog_option : Int := 0
  syslog_facility : Int := 0
  deriving DecidableEq, Repr

/-- The enumeration `async_overflow_policy` used by `setup_loggers_impl`. -/
inductive async_overflow_policy where
  | block | overrun_oldest
  deriving DecidableEq, Repr

/-- A `details::thread_pool`, by its constructor arguments. -/
structure thread_pool where
  q_max_items : Nat
  threads_n : Nat
  deriving DecidableEq, Repr

/-- The constant `details::default_async_q_size`, declared in `spdlog/async.h`. -/
def default_async_q_size : Nat := 8192

/-- A logger object as `setup_loggers_impl` builds it.  `async` is `none` for a
`spdlog::logger` and holds the thread pool and overflow policy of a
`spdlog::async_logger`; `level`, `pattern` and `flush_level` hold the argument of the
last `set_level`, `set_pattern` and `flush_on` call, `none` while there was no call. -/
structure Logger where
  name : String
  sinks : List Sink
  async : Option (thread_pool × async_overflow_policy)
  level : Option level_enum
  pattern : Option String
  flush_level : Option level_enum
  deriving DecidableEq, Repr

/-- Modelled from the spec: `details::registry` is not among the sources.  It is the
process-wide service holding the default logger, the loggers registered by name and the
shared thread pool of the async loggers. -/
structure Registry where
  default_logger : Option Logger
  loggers : Map Logger
  tp : Option thread_pool
  deriving DecidableEq, Repr

/-- Modelled from the spec: `set_default_logger` of the registry (not among the sources)
installs the logger as the process-wide default logger. -/
def set_default_logger (reg : Registry) (logger : Logger) : Registry :=
  { reg with default_logger := some logger }

/-- Modelled from the spec: `register_logger` of the registry (not among the sources)
inserts the logger into the named registry under its name; a name that is already
registered is the registry's concern, which rejects it. -/
def register_logger (reg : Registry) (logger : Logger) : Except String Registry :=
  match Map.find reg.loggers logger.name with
  | some _ => .error ("logger with name '" ++ logger.name ++ "' already exists")
  | none => .ok { reg with loggers := reg.loggers ++ [(logger.name, logger)] }

/-- The result of running a piece of set-up code on a state: it returned, or it threw
`spdlog_ex(what)`; in both cases `state` is the state it left behind. -/
inductive Outcome (σ : Type) where
  | returned (state : σ)
  | thrown (what : String) (state : σ)

/-- The state left behind. -/
def Outcome.state {σ : Type} : Outcome σ → σ
  | .returned s => s
  | .thrown _ s => s

/-! ## Logger assembly (conf_impl.h 1059-1205) -/

/-- The loop of `setup_loggers_impl` over the sink names of one logger (1116-1126). -/
def resolve_logger_sinks (sinks_map : Map Sink) (name : String) :
    List String → Except String (List Sink)
  | [] => .ok []
  | sink_name :: rest =>
    match find_value_from_map sinks_map sink_name
        ("Unable to find sink '" ++ sink_name ++ "' for logger '" ++ name ++ "'") with
    | .error e => .error e
    | .ok sink =>
      match resolve_logger_sinks sinks_map name rest with
      | .error e => .error e
      | .ok logger_sinks => .ok (sink :: logger_sinks)

/-- Lines 1128-1142: the logger object is created, synchronous or asynchronous; the
asynchronous one takes the registry's thread pool, created on first use. -/
def make_logger (reg : Registry) (logger_table : Table) (name : String)
    (logger_sinks : List Sink) : Logger × Registry :=
  let is_async := value_from_table_or_bool logger_table names.IS_ASYNC false
  if is_async then
    let is_overflow_block := value_from_table_qualified_or_bool logger_table
      names.ASYNC_IS_BLOCK_TABLE names.ASYNC_IS_BLOCK_KEY true
    let policy := if is_overflow_block then async_overflow_policy.block
      else async_overflow_policy.overrun_oldest
    match reg.tp with
    | none =>
      let tp : thread_pool := { q_max_items := default_async_q_size, threads_n := 1 }
      ({ name := name, sinks := logger_sinks, async := some (tp, policy),
         level := none, pattern := none, flush_level := none },
       { reg with tp := some tp })
    | some tp =>
      ({ name := name, sinks := logger_sinks, async := some (tp, policy),
         level := none, pattern := none, flush_level := none }, reg)
  else
    ({ name := name, sinks := logger_sinks, async := none,
       level := none, pattern := none, flush_level := none }, reg)

/-- Source `set_logger_level_if_present` inside its `add_msg_on_err` wrapper
(1145-1152). -/
def set_logger_level_if_present (logger_table : Table) (name : String) (logger : Logger) :
    Except String Logger :=
  match Table.get_as_string logger_table names.LEVEL with
  | none => .ok logger
  | some level =>
    match level_from_str level with
    | .error err_msg =>
      .error ("Logger '" ++ name ++ "' set level error:\n > " ++ err_msg)
    | .ok level_enum => .ok { logger with level := some level_enum }

/-- Lines 1154-1180: the pattern selected for a logger.  The logger's own named pattern
is looked up in the pattern map (and must be there), otherwise the global pattern
option is taken. -/
def select_pattern (patterns_map : Map String) (global_pattern_opt : Option String)
    (logger_table : Table) (name : String) : Except String (Option String) :=
  match value_from_table_opt logger_table names.PATTERN with
  | some pattern_name =>
    match find_value_from_map patterns_map pattern_name
        ("Pattern name '" ++ pattern_name ++ "' cannot be found for logger '" ++ name
          ++ "'") with
    | .error e => .error e
    | .ok pattern_value => .ok (some pattern_value)
  | none => .ok global_pattern_opt

/-- Lines 1182-1189: `set_pattern` is called when a pattern was selected (the call
itself is taken not to throw). -/
def apply_pattern (selected_pattern_opt : Option String) (logger : Logger) : Logger :=
  match selected_pattern_opt with
  | some pattern => { logger with pattern := some pattern }
  | none => logger

/-- Lines 1193-1203: the default logger is installed, any other is registered. -/
def install_logger (reg : Registry) (default_set : Bool) (logger_table : Table)
    (logger : Logger) : Outcome (Registry × Bool) :=
  let is_default := value_from_table_or_bool logger_table names.IS_DEFAULT false
  if is_default then
    if default_set then
      .thrown "Default logger mustn't set more than once" (reg, default_set)
    else .returned (set_default_logger reg logger, true)
  else
    match register_logger reg logger with
    | .error e => .thrown e (reg, default_set)
    | .ok reg1 => .returned (reg1, default_set)

/-- Lines 1100-1191: one logger descriptor is turned into a logger object, or an
exception is thrown.  The second component is the registry after the step (the thread
pool may have been created). -/
def build_logger (sinks_map : Map Sink) (patterns_map : Map String)
    (global_pattern_opt : Option String) (reg : Registry) (logger_table : Table) :
    Except String Logger × Registry :=
  match value_from_table_string logger_table names.NAME
      ("One of the loggers does not have a '" ++ names.NAME ++ "' field") with
  | .error e => (.error e, reg)
  | .ok name =>
    match array_from_table_string logger_table names.SINKS
        ("Logger '" ++ name ++ "' does not have a '" ++ names.SINKS
          ++ "' field of sink names") with
    | .error e => (.error e, reg)
    | .ok sinks =>
      match resolve_logger_sinks sinks_map name sinks with
      | .error e => (.error e, reg)
      | .ok logger_sinks =>
        match make_logger reg logger_table name logger_sinks with
        | (logger0, reg1) =>
          match set_logger_level_if_present logger_table name logger0 with
          | .error e => (.error e, reg1)
          | .ok logger1 =>
            match select_pattern patterns_map global_pattern_opt logger_table name with
            | .error e => (.error e, reg1)
            | .ok selected_pattern_opt =>
              let logger2 := apply_pattern selected_pattern_opt logger1
              match level_from_str
                  (value_from_table_or_string logger_table names.FLUSH_LEVEL "warn") with
              | .error e => (.error e, reg1)
              | .ok flush_level =>
                (.ok { logger2 with flush_level := some flush_level }, reg1)

/-- The body of the loop of `setup_loggers_impl` (1099-1204) for one descriptor. -/
def setup_logger (sinks_map : Map Sink) (patterns_map : Map String)
    (global_pattern_opt : Option String) (reg : Registry) (default_set : Bool)
    (logger_table : Table) : Outcome (Registry × Bool) :=
  match build_logger sinks_map patterns_map global_pattern_opt reg logger_table with
  | (.error e, reg1) => .thrown e (reg1, default_set)
  | (.ok logger, reg1) => install_logger reg1 default_set logger_table logger

/-- The loop of `setup_loggers_impl` over the logger descriptors, in document order. -/
def setup_loggers_loop (sinks_map : Map Sink) (patterns_map : Map String)
    (global_pattern_opt : Option String) :
    Registry → Bool → List Table → Outcome (Registry × Bool)
  | reg, default_set, [] => .returned (reg, default_set)
  | reg, default_set, logger_table :: rest =>
    match setup_logger sinks_map patterns_map global_pattern_opt reg default_set
        logger_table with
    | .thrown e st => .thrown e st
    | .returned (reg1, default_set1) =>
      setup_loggers_loop sinks_map patterns_map global_pattern_opt reg1 default_set1 rest

/-- Source `setup_loggers_impl`, run on the registry `reg`. -/
def setup_loggers_impl (config : Table) (sinks_map : Map Sink)
    (patterns_map : Map String) (reg : Registry) : Outcome Registry :=
  match Table.get_table_array config names.LOGGER_TABLE with
  | none => .thrown "No loggers configured for set-up" reg
  | some loggers =>
    let global_pattern_opt := value_from_table_opt config names.GLOBAL_PATTERN
    match setup_loggers_loop sinks_map patterns_map global_pattern_opt reg false
        loggers with
    | .thrown e st => .thrown e st.1
    | .returned st => .returned st.1

/-! ## Clock, calendar and formatting used by the scheduled sink -/

/-- A `log_clock::time_point`: the count of clock ticks (nanoseconds) since the epoch,
held in a signed integer of 64 bits. -/
abbrev time_point := Int

/-- The value a signed integer of 64 bits takes for a result that leaves its range: the
result modulo `2 ^ 64`, as the arithmetic of the machine gives it. -/
def wrap_int64 (x : Int) : Int := (x + 2 ^ 63) % 2 ^ 64 - 2 ^ 63

/-- The ticks of `log_clock` in one second. -/
def ticks_per_second : Int := 1000000000

/-- The value an `int` of 32 bits takes for a result that leaves its range. -/
def wrap_int32 (x : Int) : Int := (x + 2 ^ 31) % 2 ^ 32 - 2 ^ 31

/-- The conversion `log_clock::to_time_t`: a `duration_cast` to seconds, which
truncates towards zero. -/
def to_time_t (tp : time_point) : Int := Int.tdiv tp ticks_per_second

/-- The conversion `log_clock::from_time_t`: the seconds are multiplied into ticks of
the 64-bit count. -/
def from_time_t (t : Int) : time_point := wrap_int64 (t * ticks_per_second)

/-- The sum of a time point and a duration, taken in the 64-bit count of ticks. -/
def time_point_add (tp : time_point) (d : Int) : time_point := wrap_int64 (tp + d)

/-- The duration `std::chrono::hours(n)` in ticks. -/
def hours (n : Int) : Int := n * 3600 * ticks_per_second

/-- The duration `std::chrono::minutes(n)` in ticks. -/
def minutes (n : Int) : Int := n * 60 * ticks_per_second

/-- The fields of `struct tm` the sink reads and writes, each an `int` in the source. -/
structure tm where
  tm_sec : Int
  tm_min : Int
  tm_hour : Int
  tm_mday : Int
  tm_mon : Int
  tm_year : Int
  deriving DecidableEq, Repr

/-- The civil date (year, month 1..12, day 1..31) of a day number counted from
1970-01-01, in the proleptic Gregorian calendar. -/
def civil_from_days (days : Int) : Int × Int × Int :=
  let z := days + 719468
  let era := z / 146097
  let doe := z - era * 146097
  let yoe := (doe - doe / 1460 + doe / 36524 - doe / 146096) / 365
  let y := yoe + era * 400
  let doy := doe - (365 * yoe + yoe / 4 - yoe / 100)
  let mp := (5 * doy + 2) / 153
  let d := doy - (153 * mp + 2) / 5 + 1
  let m := if mp < 10 then mp + 3 else mp - 9
  (if m ≤ 2 then y + 1 else y, m, d)

/-- The day number, counted from 1970-01-01, of a civil date. -/
def days_from_civil (year month day : Int) : Int :=
  let y := if month ≤ 2 then year - 1 else year
  let era := y / 400
  let yoe := y - era * 400
  let doy := (153 * (if month > 2 then month - 3 else month + 9) + 2) / 5 + day - 1
  let doe := yoe * 365 + yoe / 4 - yoe / 100 + doy
  era * 146097 + doe - 719468

/-- What `localtime` returns on a host whose time zone stays at the fixed offset
`utc_offset` seconds east of UTC. -/
def localtime_at_offset (utc_offset : Int) (t : Int) : tm :=
  let loc := t + utc_offset
  let days := loc / 86400
  let secs := loc % 86400
  let ymd := civil_from_days days
  { tm_sec := secs % 60, tm_min := secs % 3600 / 60, tm_hour := secs / 3600,
    tm_mday := ymd.2.2, tm_mon := ymd.2.1 - 1, tm_year := ymd.1 - 1900 }

/-- What `mktime` returns on a host whose time zone stays at the fixed offset
`utc_offset` seconds east of UTC, on a `tm` whose month is in range. -/
def mktime_at_offset (utc_offset : Int) (x : tm) : Int :=
  days_from_civil (x.tm_year + 1900) (x.tm_mon + 1) x.tm_mday * 86400
    + x.tm_hour * 3600 + x.tm_min * 60 + x.tm_sec - utc_offset

/-- The position of the last occurrence of `c` at or after position `i`, `last` when
there is none: the scan behind `std::string::rfind(c)`. -/
def rfind_from : List Char → Char → Nat → Option Nat → Option Nat
  | [], _, _, last => last
  | x :: rest, c, i, last => rfind_from rest c (i + 1) (if x = c then some i else last)

/-- The call `fname.rfind(c)`; `none` is `npos`. -/
def rfind (fname : String) (c : Char) : Option Nat := rfind_from fname.data c 0 none

/-- Modelled from the spec: `details::file_helper::split_by_extenstion` is not among
the sources.  It splits a file name into stem and extension at the last dot, unless the
dot starts or ends the name or the last path component. -/
def split_by_extenstion (fname : String) : String × String :=
  match rfind fname '.' with
  | none => (fname, "")
  | some ext_index =>
    if ext_index = 0 ∨ ext_index = fname.length - 1 then (fname, "")
    else
      match rfind fname '/' with
      | some folder_index =>
        if folder_index ≥ ext_index - 1 then (fname, "")
        else (String.mk (fname.data.take ext_index), String.mk (fname.data.drop ext_index))
      | none => (String.mk (fname.data.take ext_index), String.mk (fname.data.drop ext_index))

/-- Modelled from the spec: the bundled fmt library is not among the sources.  This is
its rendering of an integer under the format `:0Nd`: the decimal digits, after the minus
sign of a negative number, with zeros put before the digits up to the width `N`. -/
def format_0d (width : Nat) (v : Int) : String :=
  let digits := Nat.toDigits 10 v.natAbs
  if v < 0 then
    String.mk ('-' :: (List.replicate (width - 1 - digits.length) '0' ++ digits))
  else String.mk (List.replicate (width - digits.length) '0' ++ digits)

/-! ## Scheduled file sink (scheduled_file_sink.h) -/

namespace sinks

/-- Source `scheduled_filename_calculator::calc_filename`.  The `default` case of the
switch is not reachable from the three enumerators.  The sums `tm_year + 1900` and
`tm_mon + 1` are those of the source as long as they stay within the range of `int`,
that is up to `tm_year = 2147481747`; beyond it the addition of the source overflows. -/
def calc_filename (filename : String) (now_tm : tm) (type : scheduled_type) : String :=
  let basename := (split_by_extenstion filename).1
  let ext := (split_by_extenstion filename).2
  match type with
  | .DAILY =>
    basename ++ "_" ++ format_0d 4 (now_tm.tm_year + 1900) ++ "-"
      ++ format_0d 2 (now_tm.tm_mon + 1) ++ "-" ++ format_0d 2 now_tm.tm_mday ++ ext
  | .HOURLY =>
    basename ++ "_" ++ format_0d 4 (now_tm.tm_year + 1900) ++ "-"
      ++ format_0d 2 (now_tm.tm_mon + 1) ++ "-" ++ format_0d 2 now_tm.tm_mday ++ "-"
      ++ format_0d 2 now_tm.tm_hour ++ ext
  | .MINUTELY =>
    basename ++ "_" ++ format_0d 4 (now_tm.tm_year + 1900) ++ "-"
      ++ format_0d 2 (now_tm.tm_mon + 1) ++ "-" ++ format_0d 2 now_tm.tm_mday ++ "-"
      ++ format_0d 2 now_tm.tm_hour ++ "-" ++ format_0d 2 now_tm.tm_min ++ ext

/-- A log record as the sink sees it (`details::log_msg`): its time stamp and text. -/
structure log_msg where
  time : time_point
  payload : String
  deriving DecidableEq, Repr

/-- What the sink is given by its surroundings: the local time of the host, the
formatter set on the sink, and which files can be opened.  `localtime` is
`details::os::localtime` and `mktime` is `std::mktime`, both answered by the time zone of
the host with its changes of the UTC offset.  `mktime t x` is the call on the struct
that `localtime` filled for the instant `t` and that the sink has changed to `x` since:
the fields the sink does not touch, such as `tm_isdst`, are still those of `t`. -/
structure Env where
  localtime : Int → tm
  mktime : Int → tm → Int
  formatter : log_msg → String
  can_open : String → Bool

/-- Modelled from the spec: `details::file_helper` is not among the sources.  It holds
the name of the open file; `files` gives the records each file holds. -/
structure file_helper where
  filename_ : String
  files : String → List String

/-- Modelled from the spec: `file_helper::open` (not among the sources) closes the open
file and opens `fname`, emptying it when `truncate` is set; it throws when the file
cannot be opened. -/
def file_helper.open (env : Env) (fh : file_helper) (fname : String) (truncate : Bool) :
    Except String file_helper :=
  if env.can_open fname then
    .ok { filename_ := fname,
          files := if truncate then (fun f => if f = fname then [] else fh.files f)
            else fh.files }
  else .error ("Failed opening file " ++ fname ++ " for writing")

/-- Modelled from the spec: `file_helper::write` (not among the sources) appends the
formatted record to the open file. -/
def file_helper.write (fh : file_helper) (formatted : String) : file_helper :=
  { fh with files := fun f => if f = fh.filename_ then fh.files f ++ [formatted]
      else fh.files f }

/-- Modelled from the spec: `file_helper::flush` (not among the sources) forwards to
the file handle; the records of the files stay as they are. -/
def file_helper.flush (fh : file_helper) : file_helper := fh

/-- The data members of `scheduled_rolling_file_sink`. -/
structure scheduled_rolling_file_sink where
  base_filename_ : String
  rotation_tp_ : time_point
  file_helper_ : file_helper
  scheduled_type_ : scheduled_type
  truncate_ : Bool

/-- Source `scheduled_rolling_file_sink::now_tm`. -/
def now_tm (env : Env) (tp : time_point) : tm :=
  let tnow := to_time_t tp
  env.localtime tnow

/-- Source `scheduled_rolling_file_sink::next_rotation_tp_`; `clock_now` is what
`log_clock::now()` returns inside it. -/
def next_rotation_tp_ (env : Env) (scheduled_type_ : scheduled_type)
    (clock_now : time_point) : time_point :=
  let align_tm := now_tm env clock_now
  match scheduled_type_ with
  | .DAILY =>
    let rotation_time := from_time_t (env.mktime (to_time_t clock_now)
      { align_tm with tm_hour := 0, tm_min := 0, tm_sec := 0 })
    time_point_add rotation_time (hours 24)
  | .HOURLY =>
    let rotation_time := from_time_t (env.mktime (to_time_t clock_now)
      { align_tm with tm_min := 0, tm_sec := 0 })
    time_point_add rotation_time (hours 1)
  | .MINUTELY =>
    let rotation_time := from_time_t (env.mktime (to_time_t clock_now)
      { align_tm with tm_sec := 0 })
    time_point_add rotation_time (minutes 1)

/-- The constructor of `scheduled_rolling_file_sink`.  `files` is the file system it
starts on, `now` is what `log_clock::now()` returns in the constructor body and
`clock_now` what it returns inside `next_rotation_tp_`. -/
def scheduled_rolling_file_sink.create (env : Env) (files : String → List String)
    (base_filename : String) (sch : scheduled_type) (truncate : Bool)
    (now clock_now : time_point) : Except String scheduled_rolling_file_sink :=
  match file_helper.open env { filename_ := "", files := files }
      (calc_filename base_filename (now_tm env now) sch) truncate with
  | .error e => .error e
  | .ok fh =>
    .ok { base_filename_ := base_filename, rotation_tp_ := next_rotation_tp_ env sch clock_now,
          file_helper_ := fh, scheduled_type_ := sch, truncate_ := truncate }

/-- Source `scheduled_rolling_file_sink::sink_it_`; `clock_now` is what
`log_clock::now()` returns inside `next_rotation_tp_` when the sink rotates. -/
def sink_it_ (env : Env) (s : scheduled_rolling_file_sink) (msg : log_msg)
    (clock_now : time_point) : Except String scheduled_rolling_file_sink :=
  if msg.time ≥ s.rotation_tp_ then
    match file_helper.open env s.file_helper_
        (calc_filename s.base_filename_ (now_tm env msg.time) s.scheduled_type_)
        s.truncate_ with
    | .error e => .error e
    | .ok fh =>
      .ok { s with file_helper_ := file_helper.write fh (env.formatter msg),
                   rotation_tp_ := next_rotation_tp_ env s.scheduled_type_ clock_now }
  else
    .ok { s with file_helper_ := file_helper.write s.file_helper_ (env.formatter msg) }

/-- Source `scheduled_rolling_file_sink::flush_`. -/
def flush_ (s : scheduled_rolling_file_sink) : scheduled_rolling_file_sink :=
  { s with file_helper_ := file_helper.flush s.file_helper_ }

end sinks

/-! ## Size strings (conf_impl.h 508-561) -/

/-- The call `str.find_first_not_of(cutset)`, scanning from position `i`; `none` is
`npos`. -/
def find_first_not_of_from (cutset : List Char) : List Char → Nat → Option Nat
  | [], _ => none
  | c :: rest, i => if c ∈ cutset then find_first_not_of_from cutset rest (i + 1) else some i

/-- The call `str.find_last_not_of(cutset)`, scanning from position `i` with the last
hit so far; `none` is `npos`. -/
def find_last_not_of_from (cutset : List Char) : List Char → Nat → Option Nat → Option Nat
  | [], _, last => last
  | c :: rest, i, last =>
    find_last_not_of_from cutset rest (i + 1) (if c ∈ cutset then last else some i)

/-- The call `str.substr(pos, count)`. -/
def substr (str : String) (pos count : Nat) : String :=
  String.mk ((str.data.drop pos).take count)

/-- Source `trim`.  When `start` is a position so is `end`. -/
def trim (str cutset : String) : String :=
  let start := find_first_not_of_from cutset.data str.data 0
  let end_ := find_last_not_of_from cutset.data str.data 0 none
  match start, end_ with
  | some start, some end_ => substr str start (1 + end_ - start)
  | some start, none => substr str start (str.length - start)
  | none, _ => ""

/-- Source `trim_space`. -/
def trim_space (str : String) : String := trim str "\n\r\t "

/-- The C library's `isspace` in the C locale. -/
def isspace (c : Char) : Bool :=
  c = ' ' || c = '\t' || c = '\n' || c = '\x0b' || c = '\x0c' || c = '\r'

/-- The value of a decimal digit character. -/
def digit_value (c : Char) : Option Nat :=
  if '0' ≤ c ∧ c ≤ '9' then some (c.toNat - 48) else none

/-- The digits at the front of a text: their decimal value on top of `acc` and their
count on top of `count`. -/
def scan_digits : List Char → Nat → Nat → Nat × Nat
  | [], acc, count => (acc, count)
  | c :: rest, acc, count =>
    match digit_value c with
    | some d => scan_digits rest (acc * 10 + d) (count + 1)
    | none => (acc, count)

/-- The largest `unsigned long` plus one, on a platform where it has 64 bits. -/
def ULONG_RANGE : Nat := 2 ^ 64

/-- The standard library's `std::stoul(str, &pos)` in base 10, where `unsigned long`
has 64 bits: white space is skipped, a sign is read, then the digits; the result is
the value (negated modulo `2 ^ 64` after a minus sign) and the position after the last
digit.  Without a digit it throws `invalid_argument`, beyond the range `out_of_range`;
both have the message `stoul`. -/
def stoul (str : String) : Except String (Nat × Nat) :=
  let white := str.data.takeWhile isspace
  let after_white := str.data.dropWhile isspace
  let negative := after_white.head? = some '-'
  let sign_length := if after_white.head? = some '-' ∨ after_white.head? = some '+' then 1 else 0
  let scanned := scan_digits (after_white.drop sign_length) 0 0
  if scanned.2 = 0 then .error "stoul"
  else if scanned.1 ≥ ULONG_RANGE then .error "stoul"
  else
    .ok (if negative then (ULONG_RANGE - scanned.1) % ULONG_RANGE else scanned.1,
         white.length + sign_length + scanned.2)

/-- The range of `uint64_t`. -/
def UINT64_RANGE : Nat := 2 ^ 64

/-- Source `parse_max_size`.  Every exception of the `try` block, also the one thrown
for an unexpected suffix, is caught and thrown again under a longer message; the
products are computed in `uint64_t`. -/
def parse_max_size (max_size_str : String) : Except String Nat :=
  match stoul max_size_str with
  | .error what =>
    .error ("Unexpected exception for max size parsing on string '" ++ max_size_str
      ++ "': " ++ what)
  | .ok (base_val, pos) =>
    let suffix := trim_space (substr max_size_str pos (max_size_str.length - pos))
    if suffix = "k" ∨ suffix = "K" then
      .ok (base_val * 1024 % UINT64_RANGE)
    else if suffix = "m" ∨ suffix = "M" then
      .ok (base_val * 1024 % UINT64_RANGE * 1024 % UINT64_RANGE)
    else if suffix = "g" ∨ suffix = "G" then
      .ok (base_val * 1024 % UINT64_RANGE * 1024 % UINT64_RANGE * 1024 % UINT64_RANGE)
    else if suffix = "t" ∨ suffix = "T" then
      .ok (base_val * 1024 % UINT64_RANGE * 1024 % UINT64_RANGE * 1024 % UINT64_RANGE
        * 1024 % UINT64_RANGE)
    else
      .error ("Unexpected exception for max size parsing on string '" ++ max_size_str
        ++ "': " ++ "Unexpected unit suffix '" ++ suffix ++ "' for max size parsing")

/-! ## Directories (conf_impl.h 140-206) -/

/-- The call `file_path.find_last_of(c)`, scanning from position `i` with the last hit
so far; `none` is `npos`. -/
def find_last_of_from (c : Char) : List Char → Nat → Option Nat → Option Nat
  | [], _, last => last
  | d :: rest, i, last => find_last_of_from c rest (i + 1) (if d = c then some i else last)

/-- Source `get_parent_path`, outside Windows. -/
def get_parent_path (file_path : String) : String :=
  match find_last_of_from '/' file_path.data 0 none with
  | none => ""
  | some last_slash_index => substr file_path 0 last_slash_index

/-- What set-up is given by its surroundings: the surroundings of the file sinks,
whether `mkdir` succeeds on a path given the paths that exist, the readings of
`log_clock::now()` in order, and whether the build defines `SPDLOG_ENABLE_SYSLOG`. -/
structure SetupEnv where
  sink_env : sinks.Env
  mkdir_ok : List String → String → Bool
  clock : Nat → time_point
  enable_syslog : Bool

/-- The state outside the program that set-up changes: the paths that exist, the
records held by the files, and how often the clock has been read. -/
structure World where
  paths : List String
  files : String → List String
  clock_reads : Nat

/-- Source `file_exists`: `access(path, F_OK)`. -/
def file_exists (w : World) (file_path : String) : Bool := decide (file_path ∈ w.paths)

/-- Source `native_create_dir`: `mkdir(path, 0775) == 0`; the directory exists after a
successful call. -/
def native_create_dir (env : SetupEnv) (w : World) (dir_path : String) : Bool × World :=
  if env.mkdir_ok w.paths dir_path then (true, { w with paths := dir_path :: w.paths })
  else (false, w)

/-- Source `create_dirs_impl`, outside Windows, with the depth of the recursion bounded
by `fuel`; `none` when the bound is reached. -/
def create_dirs_impl (env : SetupEnv) : Nat → World → String → Option (Except String Unit × World)
  | 0, _, _ => none
  | fuel + 1, w, dir_path =>
    if dir_path = "" then some (.ok (), w)
    else if !file_exists w dir_path then
      match create_dirs_impl env fuel w (get_parent_path dir_path) with
      | none => none
      | some (.error e, w1) => some (.error e, w1)
      | some (.ok _, w1) =>
        match native_create_dir env w1 dir_path with
        | (false, w2) =>
          some (.error ("Unable to create directory at '" ++ dir_path ++ "'"), w2)
        | (true, w2) => some (.ok (), w2)
    else some (.ok (), w)

/-- Source `create_directories`.  The recursion of `create_dirs_impl` on a path is at
most one deeper than the path is long, so the bound is not reached (theorem
`create_dirs_impl_returns`). -/
def create_directories (env : SetupEnv) (w : World) (dir_path : String) :
    Except String Unit × World :=
  match create_dirs_impl env (dir_path.length + 1) w dir_path with
  | some r => r
  | none => (.ok (), w)

/-! ## Sink construction (conf_impl.h 379-476, 563-609, 639-657, 685-961) -/

/-- The call `m.emplace(key, value)`: a key that is already bound keeps its binding. -/
def Map.emplace {β : Type} (m : Map β) (key : String) (value : β) : Map β :=
  match Map.find m key with
  | some _ => m
  | none => m ++ [(key, value)]

/-- `table::get_as<uint64_t>(key)`: the value when the key holds an integer; a negative
integer throws `std::underflow_error`. -/
def Table.get_as_uint64 (t : Table) (key : String) : Except String (Option Nat) :=
  match t.get key with
  | some (.int i) =>
    if i < 0 then .error "T cannot store negative value in get" else .ok (some i.toNat)
  | _ => .ok none

/-- `table::get_as<int32_t>(key)`: the value when the key holds an integer; an integer
outside the range of `int32_t` throws. -/
def Table.get_as_int32 (t : Table) (key : String) : Except String (Option Int) :=
  match t.get key with
  | some (.int i) =>
    if i < -2147483648 then .error "T cannot represent the value requested in get"
    else if i > 2147483647 then .error "T cannot represent the value requested in get"
    else .ok (some i)
  | _ => .ok none

/-- Source `value_from_table<uint64_t>`. -/
def value_from_table_uint64 (table : Table) (field : String) (err_msg : String) :
    Except String Nat :=
  match Table.get_as_uint64 table field with
  | .error e => .error e
  | .ok none => .error err_msg
  | .ok (some v) => .ok v

/-- Source `value_from_table_or<int32_t>`. -/
def value_from_table_or_int32 (table : Table) (field : String) (alt_val : Int) :
    Except String Int :=
  match Table.get_as_int32 table field with
  | .error e => .error e
  | .ok none => .ok alt_val
  | .ok (some v) => .ok v

/-- The `MAPPING` of `sink_type_from_str`; the entry of `syslog_sink` is there when the
build defines `SPDLOG_ENABLE_SYSLOG`. -/
def sink_type_mapping (enable_syslog : Bool) : Map sink_type :=
  [("stdout_sink_st", .StdoutSinkSt),
   ("stdout_sink_mt", .StdoutSinkMt),
   ("color_stdout_sink_st", .ColorStdoutSinkSt),
   ("color_stdout_sink_mt", .ColorStdoutSinkMt),
   ("basic_file_sink_st", .BasicFileSinkSt),
   ("basic_file_sink_mt", .BasicFileSinkMt),
   ("rotating_file_sink_st", .RotatingFileSinkSt),
   ("rotating_file_sink_mt", .RotatingFileSinkMt),
   ("scheduled_file_sink_st", .ScheduledFileSinkSt),
   ("scheduled_file_sink_mt", .ScheduledFileSinkMt),
   ("null_sink_st", .NullSinkSt),
   ("null_sink_mt", .NullSinkMt)]
  ++ (if enable_syslog then [("syslog_sink", .SyslogSink)] else [])

/-- Source `sink_type_from_str`. -/
def sink_type_from_str (enable_syslog : Bool) (type : String) : Except String sink_type :=
  find_value_from_map (sink_type_mapping enable_syslog) type
    ("Invalid sink type '" ++ type ++ "' found")

/-- Source `create_parent_dir_if_present`. -/
def create_parent_dir_if_present (env : SetupEnv) (w : World) (sink_table : Table)
    (filename : String) : Except String Unit × World :=
  match Table.get_as_bool sink_table names.CREATE_PARENT_DIR with
  | some true => create_directories env w (get_parent_path filename)
  | _ => (.ok (), w)

/-- Source `scheduled_from_str`. -/
def scheduled_from_str (scheduled_type_str : String) : Except String sinks.scheduled_type :=
  if scheduled_type_str = "daily" then .ok .DAILY
  else if scheduled_type_str = "hourly" then .ok .HOURLY
  else if scheduled_type_str = "minutely" then .ok .MINUTELY
  else .error ("Invalid scheduled_type string '" ++ scheduled_type_str ++ "' provided")

/-- Source `set_sink_level_if_present`. -/
def set_sink_level_if_present (sink_table : Table) (sink : Sink) : Except String Sink :=
  match Table.get_as_string sink_table names.LEVEL with
  | none => .ok sink
  | some level =>
    match level_from_str level with
    | .error e => .error e
    | .ok level_enum => .ok { sink with level := some level_enum }

/-- Modelled from the spec: the file sinks of the library (`basic_file_sink`,
`rotating_file_sink`) are not among the sources.  Their constructors open the file
they write to, which then exists, and throw when it cannot be opened. -/
def open_sink_file (env : SetupEnv) (w : World) (fname : String) (truncate : Bool) :
    Except String Unit × World :=
  match sinks.file_helper.open env.sink_env { filename_ := "", files := w.files } fname
      truncate with
  | .error e => (.error e, w)
  | .ok fh => (.ok (), { w with paths := fname :: w.paths, files := fh.files })

/-- Source `basic_file_sink_from_table`; `type` stands for the template argument. -/
def basic_file_sink_from_table (env : SetupEnv) (w : World) (type : sink_type)
    (sink_table : Table) : Except String Sink × World :=
  match value_from_table_string sink_table names.FILENAME
      ("Missing '" ++ names.FILENAME ++ "' field of string value for simple_file_sink") with
  | .error e => (.error e, w)
  | .ok filename =>
    match create_parent_dir_if_present env w sink_table filename with
    | (.error e, w1) => (.error e, w1)
    | (.ok _, w1) =>
      let truncate := value_from_table_or_bool sink_table names.TRUNCATE false
      match open_sink_file env w1 filename truncate with
      | (.error e, w2) => (.error e, w2)
      | (.ok _, w2) =>
        (.ok { type := type, filename := filename, level := none, truncate := truncate }, w2)

/-- Source `rotating_file_sink_from_table`; `type` stands for the template argument. -/
def rotating_file_sink_from_table (env : SetupEnv) (w : World) (type : sink_type)
    (sink_table : Table) : Except String Sink × World :=
  match value_from_table_string sink_table names.BASE_FILENAME
      ("Missing '" ++ names.BASE_FILENAME
        ++ "' field of string value for rotating_file_sink") with
  | .error e => (.error e, w)
  | .ok base_filename =>
    match create_parent_dir_if_present env w sink_table base_filename with
    | (.error e, w1) => (.error e, w1)
    | (.ok _, w1) =>
      match value_from_table_string sink_table names.MAX_SIZE
          ("Missing '" ++ names.MAX_SIZE
            ++ "' field of string value for rotating_file_sink") with
      | .error e => (.error e, w1)
      | .ok max_filesize_str =>
        match parse_max_size max_filesize_str with
        | .error e => (.error e, w1)
        | .ok max_filesize =>
          match value_from_table_uint64 sink_table names.MAX_FILES
              ("Missing '" ++ names.MAX_FILES
                ++ "' field of u64 value for rotating_file_sink") with
          | .error e => (.error e, w1)
          | .ok max_files =>
            match open_sink_file env w1 base_filename false with
            | (.error e, w2) => (.error e, w2)
            | (.ok _, w2) =>
              (.ok { type := type, filename := base_filename, level := none,
                     max_size := max_filesize, max_files := max_files }, w2)

/-- The call `make_shared<ScheduledFileSink>(base_filename, type)`: the constructor of
the scheduled sink runs on the files of the world and reads the clock twice, once
before it opens its file and once in `next_rotation_tp_`; the sink returned is the
object the constructor has built. -/
def make_scheduled_file_sink (env : SetupEnv) (w : World) (type : sink_type)
    (base_filename : String) (sch : sinks.scheduled_type) : Except String Sink × World :=
  match sinks.scheduled_rolling_file_sink.create env.sink_env w.files base_filename sch
      false (env.clock w.clock_reads) (env.clock (w.clock_reads + 1)) with
  | .error e => (.error e, { w with clock_reads := w.clock_reads + 1 })
  | .ok s =>
    (.ok { type := type, filename := s.base_filename_, level := none,
           truncate := s.truncate_, scheduled := some s.scheduled_type_,
           open_filename := s.file_helper_.filename_, rotation_tp := some s.rotation_tp_ },
     { paths := s.file_helper_.filename_ :: w.paths, files := s.file_helper_.files,
       clock_reads := w.clock_reads + 2 })

/-- Source `scheduled_file_sink_from_table`; `type` stands for the template argument. -/
def scheduled_file_sink_from_table (env : SetupEnv) (w : World) (type : sink_type)
    (sink_table : Table) : Except String Sink × World :=
  match value_from_table_string sink_table names.BASE_FILENAME
      ("Missing '" ++ names.BASE_FILENAME
        ++ "' field of string value for scheduled_file_sink") with
  | .error e => (.error e, w)
  | .ok base_filename =>
    match create_parent_dir_if_present env w sink_table base_filename with
    | (.error e, w1) => (.error e, w1)
    | (.ok _, w1) =>
      match value_from_table_string sink_table names.SCHEDULED_TYPE
          ("Missing '" ++ names.SCHEDULED_TYPE
            ++ "' field of string value for scheudled_file_sink") with
      | .error e => (.error e, w1)
      | .ok scheduled_type =>
        match scheduled_from_str scheduled_type with
        | .error e => (.error e, w1)
        | .ok type_ => make_scheduled_file_sink env w1 type base_filename type_

/-- The constant `LOG_USER` of `syslog.h`. -/
def LOG_USER : Int := 8

/-- Source `syslog_sink_from_table`. -/
def syslog_sink_from_table (sink_table : Table) : Except String Sink :=
  let ident := value_from_table_or_string sink_table names.IDENT ""
  match value_from_table_or_int32 sink_table names.SYSLOG_OPTION 0 with
  | .error e => .error e
  | .ok syslog_option =>
    match value_from_table_or_int32 sink_table names.SYSLOG_FACILITY LOG_USER with
    | .error e => .error e
    | .ok syslog_facility =>
      .ok { type := .SyslogSink, filename := "", level := none, ident := ident,
            syslog_option := syslog_option, syslog_facility := syslog_facility }

/-- Source `sink_from_sink_type`.  Without `SPDLOG_ENABLE_SYSLOG` the enumerator
`SyslogSink`, whose value is 12, falls to the `default` case. -/
def sink_from_sink_type (env : SetupEnv) (w : World) (sink_val : sink_type)
    (sink_table : Table) : Except String Sink × World :=
  match sink_val with
  | .StdoutSinkSt => (.ok { type := .StdoutSinkSt, filename := "", level := none }, w)
  | .StdoutSinkMt => (.ok { type := .StdoutSinkMt, filename := "", level := none }, w)
  | .ColorStdoutSinkSt =>
    (.ok { type := .ColorStdoutSinkSt, filename := "", level := none }, w)
  | .ColorStdoutSinkMt =>
    (.ok { type := .ColorStdoutSinkMt, filename := "", level := none }, w)
  | .BasicFileSinkSt => basic_file_sink_from_table env w .BasicFileSinkSt sink_table
  | .BasicFileSinkMt => basic_file_sink_from_table env w .BasicFileSinkMt sink_table
  | .RotatingFileSinkSt => rotating_file_sink_from_table env w .RotatingFileSinkSt sink_table
  | .RotatingFileSinkMt => rotating_file_sink_from_table env w .RotatingFileSinkMt sink_table
  | .ScheduledFileSinkSt =>
    scheduled_file_sink_from_table env w .ScheduledFileSinkSt sink_table
  | .ScheduledFileSinkMt =>
    scheduled_file_sink_from_table env w .ScheduledFileSinkMt sink_table
  | .NullSinkSt => (.ok { type := .NullSinkSt, filename := "", level := none }, w)
  | .NullSinkMt => (.ok { type := .NullSinkMt, filename := "", level := none }, w)
  | .SyslogSink =>
    if env.enable_syslog then (syslog_sink_from_table sink_table, w)
    else (.error "Unexpected sink error with sink enum value '12'", w)

/-- Source `sink_from_table`. -/
def sink_from_table (env : SetupEnv) (w : World) (sink_table : Table) :
    Except String Sink × World :=
  match value_from_table_string sink_table names.TYPE
      ("Sink missing '" ++ names.TYPE ++ "' field") with
  | .error e => (.error e, w)
  | .ok type_val =>
    match sink_type_from_str env.enable_syslog type_val with
    | .error e => (.error e, w)
    | .ok sink_val =>
      match sink_from_sink_type env w sink_val sink_table with
      | (.error e, w1) => (.error e, w1)
      | (.ok sink, w1) => (set_sink_level_if_present sink_table sink, w1)

/-! ## Set-up of sinks, patterns and the whole topology (conf_impl.h 979-1057, 1207-1216) -/

/-- The loop of `setup_sinks_impl` over the sink descriptors, in document order. -/
def setup_sinks_loop (env : SetupEnv) :
    World → Map Sink → List Table → Except String (Map Sink) × World
  | w, sinks_map, [] => (.ok sinks_map, w)
  | w, sinks_map, sink_table :: rest =>
    match value_from_table_string sink_table names.NAME
        ("One of the sinks does not have a '" ++ names.NAME ++ "' field") with
    | .error e => (.error e, w)
    | .ok name =>
      match sink_from_table env w sink_table with
      | (.error err_msg, w1) => (.error ("Sink '" ++ name ++ "' error:\n > " ++ err_msg), w1)
      | (.ok sink, w1) => setup_sinks_loop env w1 (Map.emplace sinks_map name sink) rest

/-- Source `setup_sinks_impl`. -/
def setup_sinks_impl (env : SetupEnv) (w : World) (config : Table) :
    Except String (Map Sink) × World :=
  match Table.get_table_array config names.SINK_TABLE with
  | none => (.error "No sinks configured for set-up", w)
  | some sinks => setup_sinks_loop env w [] sinks

/-- The loop of `setup_formats_impl` over the pattern entries, in document order. -/
def setup_formats_loop : Map String → List Table → Except String (Map String)
  | patterns_map, [] => .ok patterns_map
  | patterns_map, format_table :: rest =>
    match value_from_table_string format_table names.NAME
        ("One of the formats does not have a '" ++ names.NAME ++ "' field") with
    | .error e => .error e
    | .ok name =>
      match value_from_table_string format_table names.VALUE
          ("Format '" ++ name ++ "' does not have '" ++ names.VALUE ++ "' field") with
      | .error e => .error e
      | .ok value => setup_formats_loop (Map.emplace patterns_map name value) rest

/-- Source `setup_formats_impl`. -/
def setup_formats_impl (config : Table) : Except String (Map String) :=
  match Table.get_table_array config names.PATTERN_TABLE with
  | none => .ok []
  | some formats => setup_formats_loop [] formats

/-- Source `setup_impl`, run on the world `w` and the registry `reg`. -/
def setup_impl (env : SetupEnv) (config : Table) (w : World) (reg : Registry) :
    Outcome (Registry × World) :=
  match setup_sinks_impl env w config with
  | (.error e, w1) => .thrown e (reg, w1)
  | (.ok sinks_map, w1) =>
    match setup_formats_impl config with
    | .error e => .thrown e (reg, w1)
    | .ok patterns_map =>
      match setup_loggers_impl config sinks_map patterns_map reg with
      | .thrown e reg1 => .thrown e (reg1, w1)
      | .returned reg1 => .returned (reg1, w1)

/-! ## Specification-level notions -/

/-- The `is_default` flag of a logger descriptor, as line 1193 reads it. -/
def is_default_logger (logger_table : Table) : Bool :=
  value_from_table_or_bool logger_table names.IS_DEFAULT false

/-- The name of a logger descriptor (empty when it has none). -/
def logger_name (logger_table : Table) : String :=
  value_from_table_or_string logger_table names.NAME ""

/-- A logger descriptor is valid on its own: lines 1100-1191 build a logger from it
without throwing.  (Whether they throw does not depend on the registry, see
`build_logger_ok_indep`.) -/
def logger_builds (sinks_map : Map Sink) (patterns_map : Map String)
    (global_pattern_opt : Option String) (logger_table : Table) : Bool :=
  match (build_logger sinks_map patterns_map global_pattern_opt
      { default_logger := none, loggers := [], tp := none } logger_table).1 with
  | .ok _ => true
  | .error _ => false

/-- The registry accepts the names of the non-default loggers of `ls`: they are pairwise
different and none of them is registered in `reg` yet. -/
def names_accepted (reg : Registry) (ls : List Table) : Prop :=
  ((ls.filter (fun lt => !is_default_logger lt)).map logger_name).Nodup
  ∧ ∀ lt ∈ ls, is_default_logger lt = false → Map.find reg.loggers (logger_name lt) = none

instance (reg : Registry) (ls : List Table) : Decidable (names_accepted reg ls) := by
  unfold names_accepted
  infer_instance

/-- The number of descriptors with `is_default = true`. -/
def default_count (ls : List Table) : Nat := (ls.filter is_default_logger).length

/-- The entries of the named registry that belong to the descriptors `tables`, given the
loggers built from them, in order: one entry for every descriptor that is not a default
one, none for a default one. -/
def named_entries : List Table → List Logger → List (String × Logger)
  | logger_table :: tables, logger :: loggers =>
    if is_default_logger logger_table then named_entries tables loggers
    else (logger.name, logger) :: named_entries tables loggers
  | _, _ => []

/-- The logger built from the first descriptor with `is_default = true`. -/
def default_entry : List Table → List Logger → Option Logger
  | logger_table :: tables, logger :: loggers =>
    if is_default_logger logger_table then some logger else default_entry tables loggers
  | _, _ => none

/-- The effective pattern of a logger in the words of the specification: its own named
pattern if it has a `pattern` field, else the document's `global_pattern`, else none. -/
def effective_pattern (patterns_map : Map String) (config : Table) (logger_table : Table) :
    Option String :=
  match Table.get_as_string logger_table "pattern" with
  | some pattern_name => Map.find patterns_map pattern_name
  | none => Table.get_as_string config "global_pattern"

/-- The message of the unknown-sink error (1120-1123). -/
def unknown_sink_message (sink_name logger_name : String) : String :=
  "Unable to find sink '" ++ sink_name ++ "' for logger '" ++ logger_name ++ "'"

/-- The name of an item, when it has a string `name`. -/
def item_name (item : Table) : Option String := Table.get_as_string item names.NAME

/-- Whether an item has the string name `n`. -/
def has_name (n : String) (item : Table) : Bool := decide (item_name item = some n)

/-- The item a base item becomes under the items of an override array, in the words of
the specification: the override item of the same name is merged into it field by
field; a base item without such an override item stays as it is. -/
def merged_with (ovr_items : List Table) (base_item : Table) : Table :=
  match item_name base_item with
  | none => base_item
  | some n =>
    match ovr_items.find? (has_name n) with
    | some ovr_item => merge_item_fields base_item ovr_item
    | none => base_item

/-- The override items whose name is the name of no base item, in override order. -/
def unmatched_items (base_items ovr_items : List Table) : List Table :=
  ovr_items.filter (fun o =>
    match item_name o with
    | none => true
    | some n => !(base_items.any (has_name n)))

/-- A section can be merged without adoption and without error: when the override
has an array under `key`, base has one too with unique names, and the override items
are well-formed tables with unique names. -/
def mergeable (base ovr : Table) (key : String) : Prop :=
  ∀ ovr_items, Table.get_table_array ovr key = some ovr_items →
    (∃ base_items, Table.get_table_array base key = some base_items
      ∧ (base_items.filterMap item_name).Nodup)
    ∧ (∀ o ∈ ovr_items, Table.wf o) ∧ (∀ o ∈ ovr_items, item_name o ≠ none)
    ∧ (ovr_items.filterMap item_name).Nodup

/-- The merged array of a section in the words of the specification: the base items in
their order, each merged with the override item of its name, followed by the unmatched
override items; base's array as it is when the override has none. -/
def section_merged (base ovr : Table) (key : String) : Option (List Table) :=
  match Table.get_table_array base key, Table.get_table_array ovr key with
  | some base_items, some ovr_items =>
    some (base_items.map (merged_with ovr_items) ++ unmatched_items base_items ovr_items)
  | some base_items, none => some base_items
  | none, _ => none

/-- The decimal numeral of `n` zero-padded to `width` digits, in the words of the
specification: zeros are put in front until there are at least `width` digits. -/
def zero_padded (width n : Nat) : String :=
  String.mk (List.replicate (width - (Nat.toDigits 10 n).length) '0' ++ Nat.toDigits 10 n)

/-- A number below 100 written with exactly two decimal digits. -/
def two_digits (n : Nat) : String :=
  String.mk [Nat.digitChar (n / 10), Nat.digitChar (n % 10)]

/-- A number below 10000 written with exactly four decimal digits. -/
def four_digits (n : Nat) : String :=
  String.mk [Nat.digitChar (n / 1000), Nat.digitChar (n / 100 % 10),
    Nat.digitChar (n / 10 % 10), Nat.digitChar (n % 10)]

/-- The value of a list of decimal digits on top of `acc`, most significant first. -/
def decimal_value (ds : List Nat) (acc : Nat) : Nat := ds.foldl (fun a d => a * 10 + d) acc

/-- The unit suffixes of a size string with the exponent of 1024 each stands for. -/
def size_units : List (Char × Nat) :=
  [('k', 1), ('K', 1), ('m', 2), ('M', 2), ('g', 3), ('G', 3), ('t', 4), ('T', 4)]

/-- The unit suffixes `parse_max_size` accepts. -/
def unit_suffixes : List String := ["k", "K", "m", "M", "g", "G", "t", "T"]

/-- The message of the missing-name error of `merge_config_items` (315-316). -/
def missing_name_message : String := "One of the items in override does not have a name"

/-- The message of the unknown-pattern error (1168-1171). -/
def unknown_pattern_message (pattern_name logger_name : String) : String :=
  "Pattern name '" ++ pattern_name ++ "' cannot be found for logger '" ++ logger_name ++ "'"

/-- The twelve fixed type names of the sinks in the words of the specification: six
kinds of sink, each with the suffix `_st` or `_mt`. -/
def fixed_sink_type_names : List String :=
  ["stdout_sink", "color_stdout_sink", "basic_file_sink", "rotating_file_sink",
   "scheduled_file_sink", "null_sink"].flatMap (fun kind => [kind ++ "_st", kind ++ "_mt"])

/-- The variants of the fixed type names, in the order of `fixed_sink_type_names`. -/
def fixed_sink_type_variants : List sink_type :=
  [.StdoutSinkSt, .StdoutSinkMt, .ColorStdoutSinkSt, .ColorStdoutSinkMt, .BasicFileSinkSt,
   .BasicFileSinkMt, .RotatingFileSinkSt, .RotatingFileSinkMt, .ScheduledFileSinkSt,
   .ScheduledFileSinkMt, .NullSinkSt, .NullSinkMt]

/-- The names of the granularities of the scheduled sink in the words of the
specification. -/
def granularity_names : List (String × sinks.scheduled_type) :=
  [("daily", .DAILY), ("hourly", .HOURLY), ("minutely", .MINUTELY)]

/-- A pattern entry read as the pair of its string `name` and its string `value`. -/
def format_entry (format_table : Table) : Option (String × String) :=
  match Table.get_as_string format_table "name", Table.get_as_string format_table "value" with
  | some name, some value => some (name, value)
  | _, _ => none

/-- The format string declared first under the name `n` among the pattern entries. -/
def first_declared (formats : List Table) (n : String) : Option String :=
  ((formats.filterMap format_entry).find? (fun entry => entry.1 = n)).map Prod.snd

/-- The seven level names in the words of the specification, each with its level. -/
def level_names : List (String × level_enum) :=
  [("trace", .trace), ("debug", .debug), ("info", .info), ("warn", .warn),
   ("error", .err), ("critical", .critical), ("off", .off)]

/-- The logger object a descriptor gives that carries only a name and sinks, in the
words of the specification: synchronous, no level and no pattern applied, flush level
`warn`. -/
def plain_logger (name : String) (logger_sinks : List Sink) : Logger :=
  { name := name, sinks := logger_sinks, async := none, level := none, pattern := none,
    flush_level := some .warn }

/-- The sinks built from the sink descriptors in document order, each with the name of
its descriptor, and the world they leave, when every descriptor has a name and
constructs its sink; `none` otherwise. -/
def built_sinks (env : SetupEnv) : World → List Table → Option (List (String × Sink) × World)
  | w, [] => some ([], w)
  | w, sink_table :: rest =>
    match Table.get_as_string sink_table "name", sink_from_table env w sink_table with
    | some name, (.ok sink, w1) =>
      match built_sinks env w1 rest with
      | some (pairs, w2) => some ((name, sink) :: pairs, w2)
      | none => none
    | _, _ => none

/-- The array with `f` applied to its first item of name `n`: what the in-place update
of the found base item does to the array. -/
def update_first (n : String) (f : Table → Table) : List Table → List Table
  | [] => []
  | x :: rest => if has_name n x then f x :: rest else x :: update_first n f rest

/-- The override item `o` is absorbed in the array `X`: the first item of its name holds
every field of `o`. -/
def absorbed (X : List Table) (o : Table) : Prop :=
  ∃ n x, item_name o = some n ∧ X.find? (has_name n) = some x
    ∧ ∀ kv ∈ o, Table.get x kv.1 = some kv.2

/-- The items of the override's sink, pattern and logger arrays all have names, and the
names within each array are pairwise distinct. -/
def override_well_named (ovr : Table) : Prop :=
  ∀ key items, (key = names.SINK_TABLE ∨ key = names.PATTERN_TABLE ∨ key = names.LOGGER_TABLE) →
    Table.get_table_array ovr key = some items →
    (∀ o ∈ items, Table.wf o) ∧ (∀ o ∈ items, item_name o ≠ none)
      ∧ (items.filterMap item_name).Nodup

/-- The paths walked from `dir_path` upwards through the parents, up to and without the
first one that is empty or exists in the world, listed from the topmost one down to
`dir_path`; the walk is bounded by `fuel`. -/
def missing_chain (w : World) : Nat → String → List String
  | 0, _ => []
  | fuel + 1, dir_path =>
    if dir_path = "" then []
    else if file_exists w dir_path then []
    else missing_chain w fuel (get_parent_path dir_path) ++ [dir_path]

/-- The missing ancestors of a path, itself included, topmost first. -/
def missing_ancestors (w : World) (dir_path : String) : List String :=
  missing_chain w (dir_path.length + 1) dir_path

/-- The directories of a list created one after the other with `native_create_dir`; the
first creation that fails ends the run with the error of `create_dirs_impl`. -/
def create_in_order (env : SetupEnv) : World → List String → Except String Unit × World
  | w, [] => (.ok (), w)
  | w, dir_path :: rest =>
    match native_create_dir env w dir_path with
    | (false, w1) => (.error ("Unable to create directory at '" ++ dir_path ++ "'"), w1)
    | (true, w1) => create_in_order env w1 rest

namespace sinks

/-- The length of a rotation period in seconds. -/
def period_seconds : scheduled_type → Int
  | .DAILY => 86400
  | .HOURLY => 3600
  | .MINUTELY => 60

/-- The length of a rotation period in clock ticks. -/
def period_ticks (type : scheduled_type) : Int := period_seconds type * ticks_per_second

/-- The instant `tp` truncated down to the granularity, in the words of the
specification: the local midnight, top of the hour or top of the minute at or before
`tp`, for local time `utc_offset` seconds east of UTC. -/
def period_start (utc_offset : Int) (type : scheduled_type) (tp : time_point) : time_point :=
  ((tp / ticks_per_second + utc_offset) / period_seconds type * period_seconds type
    - utc_offset) * ticks_per_second

/-- A boundary aligned to the granularity: a local midnight, top of an hour or top of a
minute, for local time `utc_offset` seconds east of UTC. -/
def aligned_boundary (utc_offset : Int) (type : scheduled_type) (b : time_point) : Prop :=
  ∃ k : Int, b = (k * period_seconds type - utc_offset) * ticks_per_second

/-- The host keeps local time at the fixed offset `utc_offset` seconds east of UTC: its
`localtime` and `mktime` are those of that offset, at every instant. -/
def fixed_offset_zone (env : Env) (utc_offset : Int) : Prop :=
  (∀ t, env.localtime t = localtime_at_offset utc_offset t)
  ∧ (∀ t x, env.mktime t x = mktime_at_offset utc_offset x)

/-- A reading of the clock from the epoch on and at least one period before the end of
the range of the 64-bit count of nanoseconds (2262-04-11 23:47:16 UTC). -/
def clock_in_range (type : scheduled_type) (clock_now : time_point) : Prop :=
  0 ≤ clock_now ∧ clock_now + period_ticks type < 2 ^ 63

instance (type : scheduled_type) (clock_now : time_point) :
    Decidable (clock_in_range type clock_now) := by
  unfold clock_in_range
  infer_instance

/-- The states of the sink reachable from construction by writes and flushes, each with
the reading of the clock taken when its open file was opened: the reading inside
`next_rotation_tp_` in the constructor or in the write that last rotated.  Those
readings are in the range of `clock_in_range`. -/
inductive Reachable (env : Env) : scheduled_rolling_file_sink → time_point → Prop where
  | construct (files : String → List String) (base_filename : String)
      (sch : scheduled_type) (truncate : Bool) (now clock_now : time_point)
      (s : scheduled_rolling_file_sink) :
      clock_in_range sch clock_now →
      scheduled_rolling_file_sink.create env files base_filename sch truncate now clock_now
        = .ok s →
      Reachable env s clock_now
  | write_without_rotation (s s1 : scheduled_rolling_file_sink) (opened : time_point)
      (msg : log_msg) (clock_now : time_point) :
      Reachable env s opened → msg.time < s.rotation_tp_ →
      sink_it_ env s msg clock_now = .ok s1 → Reachable env s1 opened
  | write_with_rotation (s s1 : scheduled_rolling_file_sink) (opened : time_point)
      (msg : log_msg) (clock_now : time_point) :
      Reachable env s opened → msg.time ≥ s.rotation_tp_ →
      clock_in_range s.scheduled_type_ clock_now →
      sink_it_ env s msg clock_now = .ok s1 → Reachable env s1 clock_now
  | flush (s : scheduled_rolling_file_sink) (opened : time_point) :
      Reachable env s opened → Reachable env (flush_ s) opened

/-- Two local calendar times fall in the same period of the granularity: the same year,
month and day for Daily, also the same hour for Hourly, also the same minute for
Minutely. -/
def same_period (type : scheduled_type) (a b : tm) : Prop :=
  match type with
  | .DAILY => a.tm_year = b.tm_year ∧ a.tm_mon = b.tm_mon ∧ a.tm_mday = b.tm_mday
  | .HOURLY =>
    a.tm_year = b.tm_year ∧ a.tm_mon = b.tm_mon ∧ a.tm_mday = b.tm_mday
      ∧ a.tm_hour = b.tm_hour
  | .MINUTELY =>
    a.tm_year = b.tm_year ∧ a.tm_mon = b.tm_mon ∧ a.tm_mday = b.tm_mday
      ∧ a.tm_hour = b.tm_hour ∧ a.tm_min = b.tm_min

instance (type : scheduled_type) (a b : tm) : Decidable (same_period type a b) := by
  cases type <;> (unfold same_period; infer_instance)

/-- A local calendar time with valid field ranges and a year that is not negative. -/
def valid_calendar_time (t : tm) : Prop :=
  0 ≤ t.tm_year + 1900 ∧ 0 ≤ t.tm_mon ∧ t.tm_mon ≤ 11 ∧ 1 ≤ t.tm_mday ∧ t.tm_mday ≤ 31
    ∧ 0 ≤ t.tm_hour ∧ t.tm_hour ≤ 23 ∧ 0 ≤ t.tm_min ∧ t.tm_min ≤ 59

instance (t : tm) : Decidable (valid_calendar_time t) := by
  unfold valid_calendar_time
  infer_instance

end sinks

/-! ## Documents used as concrete inputs -/

/-- A base document with a logger array and no pattern array. -/
def base_without_patterns : Table :=
  [("sink", .tableArray [[("name", .str "console"), ("type", .str "stdout_sink_mt")]]),
   ("logger", .tableArray
      [[("name", .str "root"), ("sinks", .array [.str "console"]),
        ("level", .str "info")]])]

/-- An override document that declares a pattern and overrides one field of the logger
`root`. -/
def override_with_patterns : Table :=
  [("pattern", .tableArray [[("name", .str "brief"), ("value", .str "%v")]]),
   ("logger", .tableArray [[("name", .str "root"), ("flush_level", .str "error")]])]

/-- An override document that declares a pattern and a new logger `audit`. -/
def override_with_new_logger : Table :=
  [("pattern", .tableArray [[("name", .str "brief"), ("value", .str "%v")]]),
   ("logger", .tableArray [[("name", .str "audit"), ("sinks", .array [.str "console"])]])]

/-- A base document with a sink array and no logger array. -/
def base_only_sinks : Table :=
  [("sink", .tableArray [[("name", .str "console"), ("type", .str "stdout_sink_mt")]])]

/-- An override document whose logger item has no `name`. -/
def override_nameless_logger : Table :=
  [("logger", .tableArray [[("level", .str "debug")]])]

namespace sinks

/-- Surroundings for the concrete runs: local time is UTC, the formatter writes the text
of the record, every file can be opened. -/
def utc_env : Env :=
  { localtime := localtime_at_offset 0, mktime := fun _ x => mktime_at_offset 0 x,
    formatter := fun msg => msg.payload, can_open := fun _ => true }

/-- An empty file system. -/
def no_files : String → List String := fun _ => []

/-- The instant 2024-03-05 23:59:50 UTC. -/
def t_2024_03_05_23_59_50 : time_point := 1709683190000000000

/-- The instant 2024-03-06 00:00:00 UTC. -/
def t_2024_03_06_00_00_00 : time_point := 1709683200000000000

/-- The instant 2024-03-06 00:00:01 UTC. -/
def t_2024_03_06_00_00_01 : time_point := 1709683201000000000

/-- The instant 2024-03-07 00:00:00 UTC. -/
def t_2024_03_07_00_00_00 : time_point := 1709769600000000000

/-- The instant 2024-03-07 00:00:05 UTC. -/
def t_2024_03_07_00_00_05 : time_point := 1709769605000000000

/-- The instant 2024-03-08 00:00:00 UTC. -/
def t_2024_03_08_00_00_00 : time_point := 1709856000000000000

/-- The Daily sink on `app.log` as its constructor leaves it at 2024-03-05 23:59:50 UTC
on an empty file system. -/
def daily_sink_2024_03_05 : scheduled_rolling_file_sink :=
  { base_filename_ := "app.log", rotation_tp_ := t_2024_03_06_00_00_00,
    file_helper_ := { filename_ := "app_2024-03-05.log", files := no_files },
    scheduled_type_ := .DAILY, truncate_ := false }

/-- The Daily sink on `app.log` as its constructor leaves it at 2024-03-06 00:00:00 UTC
on an empty file system. -/
def daily_sink_2024_03_06 : scheduled_rolling_file_sink :=
  { base_filename_ := "app.log", rotation_tp_ := t_2024_03_07_00_00_00,
    file_helper_ := { filename_ := "app_2024-03-06.log", files := no_files },
    scheduled_type_ := .DAILY, truncate_ := false }

end sinks

/-- A console sink object. -/
def console_sink : Sink := { type := .StdoutSinkMt, filename := "", level := none }

/-- A file sink object. -/
def file_sink : Sink := { type := .BasicFileSinkMt, filename := "app.log", level := none }

/-- A sink map with the sinks `console` and `file`. -/
def example_sinks_map : Map Sink := [("console", console_sink), ("file", file_sink)]

/-- A pattern map with the pattern `brief`. -/
def example_patterns_map : Map String := [("brief", "%v")]

/-- A registry in which nothing is installed. -/
def empty_registry : Registry := { default_logger := none, loggers := [], tp := none }

/-- The descriptor of a default logger `root` on two sinks, without a pattern. -/
def logger_root : Table :=
  [("name", .str "root"), ("sinks", .array [.str "console", .str "file"]),
   ("is_default", .bool true)]

/-- The descriptor of a logger `audit` with its own pattern `brief`. -/
def logger_audit : Table :=
  [("name", .str "audit"), ("sinks", .array [.str "file"]), ("pattern", .str "brief")]

/-- The descriptor of a second default logger. -/
def logger_second_default : Table :=
  [("name", .str "other"), ("sinks", .array [.str "console"]), ("is_default", .bool true)]

/-- The descriptor of a logger that names the sink `udp`, which the sink map lacks. -/
def logger_unknown_sink : Table :=
  [("name", .str "net"), ("sinks", .array [.str "console", .str "udp"])]

/-- A document with a global pattern and one default logger. -/
def one_default_config : Table :=
  [("global_pattern", .str "[%l] %v"), ("logger", .tableArray [logger_root, logger_audit])]

/-- A document without a global pattern and with two default loggers. -/
def two_defaults_config : Table :=
  [("logger", .tableArray [logger_root, logger_audit, logger_second_default])]

/-- A document whose second logger names an unknown sink. -/
def unknown_sink_config : Table :=
  [("logger", .tableArray [logger_audit, logger_unknown_sink, logger_root])]

/-- The logger built from `logger_root` under the global pattern of
`one_default_config`. -/
def built_root : Logger :=
  { name := "root", sinks := [console_sink, file_sink], async := none, level := none,
    pattern := some "[%l] %v", flush_level := some .warn }

/-- The logger built from `logger_root` in a document without a global pattern. -/
def built_root_plain : Logger :=
  { name := "root", sinks := [console_sink, file_sink], async := none, level := none,
    pattern := none, flush_level := some .warn }

/-- The logger built from `logger_audit`. -/
def built_audit : Logger :=
  { name := "audit", sinks := [file_sink], async := none, level := none,
    pattern := some "%v", flush_level := some .warn }

/-- The descriptor of a logger `net` whose pattern `fancy` the pattern map lacks. -/
def logger_unknown_pattern : Table :=
  [("name", .str "net"), ("sinks", .array [.str "console"]), ("pattern", .str "fancy")]

/-- A document with a global pattern whose second logger names an unknown pattern. -/
def unknown_pattern_config : Table :=
  [("global_pattern", .str "[%l] %v"),
   ("logger", .tableArray [logger_audit, logger_unknown_pattern, logger_root])]

/-- Surroundings for the concrete runs of set-up: the surroundings of the sinks are
`utc_env`, every directory can be created, the clock stands at 2024-03-05 23:59:50 UTC
and the build is without syslog. -/
def example_setup_env : SetupEnv :=
  { sink_env := sinks.utc_env, mkdir_ok := fun _ _ => true,
    clock := fun _ => sinks.t_2024_03_05_23_59_50, enable_syslog := false }

/-- A world without paths and files in which the clock has not been read. -/
def empty_world : World := { paths := [], files := sinks.no_files, clock_reads := 0 }

/-- The world after the file `app.log` has been opened in `empty_world`. -/
def world_with_app_log : World :=
  { paths := ["app.log"], files := sinks.no_files, clock_reads := 0 }

/-- A document with two sinks, one pattern and three loggers, the last of which names
the sink `udp`, which the document does not declare. -/
def partial_setup_config : Table :=
  [("sink", .tableArray
      [[("name", .str "console"), ("type", .str "stdout_sink_mt")],
       [("name", .str "file"), ("type", .str "basic_file_sink_mt"),
        ("filename", .str "app.log")]]),
   ("pattern", .tableArray [[("name", .str "brief"), ("value", .str "%v")]]),
   ("logger", .tableArray [logger_root, logger_audit, logger_unknown_sink])]

/-- The registry `setup_impl` leaves behind on `partial_setup_config`. -/
def registry_after_partial_setup : Registry :=
  { default_logger := some built_root_plain, loggers := [("audit", built_audit)],
    tp := none }

/-- The descriptor of a Daily scheduled sink on `app.log`. -/
def daily_sink_table : Table :=
  [("name", .str "daily"), ("type", .str "scheduled_file_sink_mt"),
   ("base_filename", .str "app.log"), ("scheduled_type", .str "daily")]

/-- The descriptor of a scheduled sink with the granularity `weekly`. -/
def weekly_sink_table : Table :=
  [("name", .str "weekly"), ("type", .str "scheduled_file_sink_st"),
   ("base_filename", .str "app.log"), ("scheduled_type", .str "weekly")]

/-- A document that declares the pattern `brief` twice and the pattern `long` once. -/
def patterns_config : Table :=
  [("pattern", .tableArray
      [[("name", .str "brief"), ("value", .str "%v")],
       [("name", .str "long"), ("value", .str "[%l] %v")],
       [("name", .str "brief"), ("value", .str "%n")]])]

/-- A document whose second pattern entry has no `value`. -/
def pattern_without_value_config : Table :=
  [("pattern", .tableArray
      [[("name", .str "brief"), ("value", .str "%v")], [("name", .str "long")]])]

/-- A console sink descriptor with the level `debug`. -/
def console_debug_table : Table :=
  [("name", .str "console"), ("type", .str "stdout_sink_mt"), ("level", .str "debug")]

/-- A console sink descriptor with the level `verbose`, which is no level name. -/
def console_verbose_table : Table :=
  [("name", .str "console"), ("type", .str "stdout_sink_mt"), ("level", .str "verbose")]

/-- A console sink descriptor without a level. -/
def console_plain_table : Table :=
  [("name", .str "console"), ("type", .str "stdout_sink_mt")]

/-- The descriptor of a logger `plain` that carries only a name and a list of sinks. -/
def logger_plain : Table :=
  [("name", .str "plain"), ("sinks", .array [.str "console", .str "file"])]

/-- The logger built from `logger_plain`. -/
def built_plain : Logger :=
  { name := "plain", sinks := [console_sink, file_sink], async := none, level := none,
    pattern := none, flush_level := some .warn }

/-- A document with three sink descriptors, two of them named `console`. -/
def duplicate_sink_config : Table :=
  [("sink", .tableArray
      [[("name", .str "console"), ("type", .str "stdout_sink_mt")],
       [("name", .str "console"), ("type", .str "null_sink_mt")],
       [("name", .str "file"), ("type", .str "stdout_sink_st")]])]

/-- An override document with a global pattern and a pattern array, and no logger
array. -/
def override_only_patterns : Table :=
  [("global_pattern", .str "%v"),
   ("pattern", .tableArray [[("name", .str "brief"), ("value", .str "%v")]])]

/-- The document `merge_config_root` makes of `base_without_patterns` and
`override_with_new_logger`. -/
def merged_with_new_logger : Table :=
  [("sink", .tableArray [[("name", .str "console"), ("type", .str "stdout_sink_mt")]]),
   ("logger", .tableArray
      [[("name", .str "brief"), ("value", .str "%v")],
       [("name", .str "audit"), ("sinks", .array [.str "console"])]])]

/-- Surroundings in which `mkdir` fails on `/var/log` and succeeds on every other
path. -/
def no_var_log_env : SetupEnv :=
  { example_setup_env with mkdir_ok := fun _ dir_path => decide (dir_path ≠ "/var/log") }

/-- A world in which `/var` is the only path. -/
def world_with_var : World := { paths := ["/var"], files := sinks.no_files, clock_reads := 0 }

/-- An override document with a sink array and a logger item without a name. -/
def override_sink_and_nameless_logger : Table :=
  [("sink", .tableArray [[("name", .str "console"), ("type", .str "stdout_sink_mt")]]),
   ("logger", .tableArray [[("level", .str "debug")]])]

/-! ## Theorems: document merge -/

theorem Table.get_insert (t : Table) (k : String) (v : Value) (k' : String) :
    Table.get (Table.insert t k v) k' = if k = k' then some v else Table.get t k' := by
  induction t with
  | nil => simp [Table.insert, Table.get]
  | cons kv rest ih =>
    obtain ⟨k0, v0⟩ := kv
    by_cases h0 : k0 = k
    · subst h0
      by_cases h1 : k0 = k' <;> simp [Table.insert, Table.get, h1]
    · by_cases h1 : k0 = k'
      · subst h1
        have : ¬ k = k0 := fun h => h0 h.symm
        simp [Table.insert, Table.get, h0, this]
      · simp [Table.insert, Table.get, h0, h1, ih]

theorem Table.get_eq_none_of_not_mem (t : Table) (k : String) (h : k ∉ Table.keys t) :
    Table.get t k = none := by
  induction t with
  | nil => rfl
  | cons kv rest ih =>
    obtain ⟨k0, v0⟩ := kv
    simp only [Table.keys, List.map_cons, List.mem_cons, not_or] at h
    have h0 : ¬ k0 = k := fun e => h.1 e.symm
    simp only [Table.get, h0, if_false]
    exact ih h.2

/-- Field-level merge: every key of the override item holds the override's value, every
other key holds the value it had in the base item. -/
theorem merge_item_fields_get (ovr_item : Table) (hwf : Table.wf ovr_item) :
    ∀ (base_item : Table) (k : String),
      Table.get (merge_item_fields base_item ovr_item) k
        = match Table.get ovr_item k with
          | some v => some v
          | none => Table.get base_item k := by
  induction ovr_item with
  | nil => intro b k; simp [merge_item_fields, Table.get]
  | cons kv rest ih =>
    intro b k
    obtain ⟨k0, v0⟩ := kv
    have hnd : k0 ∉ Table.keys rest ∧ Table.wf rest := by
      simpa [Table.wf, Table.keys] using hwf
    simp only [merge_item_fields]
    rw [ih hnd.2, Table.get_insert]
    by_cases h0 : k0 = k
    · subst h0
      simp [Table.get, Table.get_eq_none_of_not_mem rest k0 hnd.1]
    · simp [Table.get, h0]

theorem item_name_merge_item_fields (base_item ovr_item : Table) (n : String)
    (hwf : Table.wf ovr_item) (hn : item_name ovr_item = some n) :
    item_name (merge_item_fields base_item ovr_item) = some n := by
  have hget : Table.get ovr_item names.NAME = some (.str n) := by
    unfold item_name Table.get_as_string at hn
    cases h : Table.get ovr_item names.NAME with
    | none => simp [h] at hn
    | some v =>
      cases v <;> simp [h] at hn
      rw [hn]
  unfold item_name Table.get_as_string
  rw [merge_item_fields_get ovr_item hwf, hget]

theorem find_item_by_name_none (items : List Table) (n : String) :
    find_item_by_name items n = none ↔ items.any (has_name n) = false := by
  induction items with
  | nil => simp [find_item_by_name, find_item_iter_by_name]
  | cons b rest ih =>
    by_cases hb : Table.get_as_string b names.NAME = some n
    · have hb' : has_name n b = true := by simp [has_name, item_name, hb]
      simp [find_item_by_name, find_item_iter_by_name, hb, hb']
    · have hb' : has_name n b = false := by simp [has_name, item_name, hb]
      have : find_item_by_name (b :: rest) n = none ↔ find_item_by_name rest n = none := by
        simp [find_item_by_name, find_item_iter_by_name, hb]
      rw [this, ih]
      simp [hb']

theorem map_eq_self_of_no_name (rest : List Table) (n : String) (f : Table → Table)
    (h : rest.any (has_name n) = false) :
    rest.map (fun b => if has_name n b then f b else b) = rest := by
  induction rest with
  | nil => rfl
  | cons b rest ih =>
    simp only [List.any_cons, Bool.or_eq_false_iff] at h
    simp [h.1, ih h.2]

theorem update_item_at_found (f : Table → Table) (n : String) :
    ∀ (items : List Table) (i : Nat), (items.filterMap item_name).Nodup →
      find_item_by_name items n = some i →
      update_item_at items i f = items.map (fun b => if has_name n b then f b else b) := by
  intro items
  induction items with
  | nil => intro i _ h; simp [find_item_by_name, find_item_iter_by_name] at h
  | cons b rest ih =>
    intro i hnd h
    by_cases hb : Table.get_as_string b names.NAME = some n
    · have hb' : has_name n b = true := by simp [has_name, item_name, hb]
      have hi : i = 0 := by
        simp [find_item_by_name, find_item_iter_by_name, hb] at h
        exact h.symm
      subst hi
      have hrest : rest.any (has_name n) = false := by
        have hname : item_name b = some n := hb
        simp only [List.filterMap_cons, hname, List.nodup_cons, List.mem_filterMap] at hnd
        rw [← Bool.not_eq_true]
        intro hany
        obtain ⟨x, hx, hxn⟩ := List.any_eq_true.mp hany
        apply hnd.1
        exact ⟨x, hx, by simpa [has_name] using hxn⟩
      simp [update_item_at, hb', map_eq_self_of_no_name rest n f hrest]
    · have hb' : has_name n b = false := by simp [has_name, item_name, hb]
      have hnd' : (rest.filterMap item_name).Nodup := by
        cases hname : item_name b with
        | none => simpa [List.filterMap_cons, hname] using hnd
        | some m =>
          simp only [List.filterMap_cons, hname, List.nodup_cons] at hnd
          exact hnd.2
      simp only [find_item_by_name, find_item_iter_by_name, hb, if_false, List.length_cons,
        Nat.add_right_cancel_iff] at h
      by_cases hlen : find_item_iter_by_name rest n = rest.length
      · simp [hlen] at h
      · simp only [hlen, if_false, Option.some.injEq] at h
        subst h
        have hfind : find_item_by_name rest n = some (find_item_iter_by_name rest n) := by
          simp [find_item_by_name, hlen]
        simp [update_item_at, hb', ih _ hnd' hfind]

theorem has_name_iff (n : String) (item : Table) :
    has_name n item = true ↔ item_name item = some n := by
  simp [has_name]

theorem find_has_name_none (rest : List Table) (n : String)
    (h : rest.any (has_name n) = false) : rest.find? (has_name n) = none := by
  rw [List.find?_eq_none]
  intro x hx hxn
  have : rest.any (has_name n) = true := List.any_eq_true.mpr ⟨x, hx, hxn⟩
  rw [h] at this
  exact Bool.noConfusion this

theorem any_has_name_of_filterMap (items : List Table) (n : String) :
    items.any (has_name n) = true ↔ n ∈ items.filterMap item_name := by
  rw [List.any_eq_true, List.mem_filterMap]
  constructor
  · rintro ⟨x, hx, hxn⟩
    exact ⟨x, hx, (has_name_iff n x).mp hxn⟩
  · rintro ⟨x, hx, hxn⟩
    exact ⟨x, hx, (has_name_iff n x).mpr hxn⟩

theorem any_has_name_congr (items1 items2 : List Table) (n : String)
    (h : items1.filterMap item_name = items2.filterMap item_name) :
    items1.any (has_name n) = items2.any (has_name n) := by
  have := any_has_name_of_filterMap items1 n
  have := any_has_name_of_filterMap items2 n
  rw [Bool.eq_iff_iff]
  simp_all

theorem unmatched_items_congr (base1 base2 ovr : List Table)
    (h : base1.filterMap item_name = base2.filterMap item_name) :
    unmatched_items base1 ovr = unmatched_items base2 ovr := by
  unfold unmatched_items
  apply List.filter_congr
  intro o _
  cases item_name o with
  | none => rfl
  | some n => simp only [any_has_name_congr base1 base2 n h]

/-- The merge step on a matched override item keeps the names of the base items. -/
theorem filterMap_item_name_map_merge (base : List Table) (o : Table) (n : String)
    (hwf : Table.wf o) (hn : item_name o = some n) :
    (base.map (fun b => if has_name n b then merge_item_fields b o else b)).filterMap item_name
      = base.filterMap item_name := by
  induction base with
  | nil => rfl
  | cons b rest ih =>
    have hb : item_name (if has_name n b then merge_item_fields b o else b) = item_name b := by
      by_cases h : has_name n b = true
      · simp only [h, if_true]
        rw [item_name_merge_item_fields b o n hwf hn, (has_name_iff n b).mp h]
      · simp [h]
    simp only [List.map_cons, List.filterMap_cons, hb, ih]

theorem merged_with_step_matched (o : Table) (n : String) (rest : List Table)
    (hwf : Table.wf o) (hn : item_name o = some n)
    (hrest : rest.any (has_name n) = false) (b : Table) :
    merged_with rest (if has_name n b then merge_item_fields b o else b)
      = merged_with (o :: rest) b := by
  have ho : has_name n o = true := (has_name_iff n o).mpr hn
  by_cases h : has_name n b = true
  · have hb : item_name b = some n := (has_name_iff n b).mp h
    simp only [h, if_true, merged_with, item_name_merge_item_fields b o n hwf hn, hb,
      find_has_name_none rest n hrest, List.find?_cons, ho]
  · have h' : has_name n b = false := by simpa using h
    simp only [h', Bool.false_eq_true, if_false, merged_with]
    cases hb : item_name b with
    | none => rfl
    | some m =>
      have hmo : has_name m o = false := by
        rw [← Bool.not_eq_true, has_name_iff, hn]
        intro e
        apply h
        rw [has_name_iff, hb, ← Option.some.inj e]
      simp only [List.find?_cons, hmo]

theorem merged_with_step_unmatched (o : Table) (n : String) (rest base : List Table)
    (hn : item_name o = some n) (hbase : base.any (has_name n) = false) :
    base.map (merged_with rest) = base.map (merged_with (o :: rest)) := by
  apply List.map_congr_left
  intro b hb
  simp only [merged_with]
  cases hbn : item_name b with
  | none => rfl
  | some m =>
    have hmo : has_name m o = false := by
      rw [← Bool.not_eq_true, has_name_iff, hn]
      intro e
      have : base.any (has_name n) = true :=
        List.any_eq_true.mpr ⟨b, hb, by rw [has_name_iff, hbn, Option.some.inj e]⟩
      rw [hbase] at this
      exact Bool.noConfusion this
    simp only [List.find?_cons, hmo]

theorem unmatched_items_append_self (o : Table) (n : String) (rest base : List Table)
    (hn : item_name o = some n) (hrest : rest.any (has_name n) = false) :
    unmatched_items (base ++ [o]) rest = unmatched_items base rest := by
  unfold unmatched_items
  apply List.filter_congr
  intro r hr
  cases hrn : item_name r with
  | none => rfl
  | some m =>
    have hmo : has_name m o = false := by
      rw [← Bool.not_eq_true, has_name_iff, hn]
      intro e
      have : rest.any (has_name n) = true :=
        List.any_eq_true.mpr ⟨r, hr, by rw [has_name_iff, hrn, Option.some.inj e]⟩
      rw [hrest] at this
      exact Bool.noConfusion this
    show (!(base ++ [o]).any (has_name m)) = !base.any (has_name m)
    rw [List.any_append]
    simp [hmo]

/-- The loop of `merge_config_items`, when every override item is a well-formed table
with a name and the names are unique within each array: the merged array is the base
items in their order, each merged with the override item of its name, followed by the
override items that match no base item, in override order. -/
theorem merge_config_items_loop_spec :
    ∀ (ovr base : List Table), (∀ o ∈ ovr, Table.wf o) → (∀ o ∈ ovr, item_name o ≠ none) →
      (ovr.filterMap item_name).Nodup → (base.filterMap item_name).Nodup →
      merge_config_items_loop base ovr
        = .ok (base.map (merged_with ovr) ++ unmatched_items base ovr) := by
  intro ovr
  induction ovr with
  | nil =>
    intro base _ _ _ _
    have : base.map (merged_with []) = base := by
      have h : ∀ b : Table, merged_with [] b = b := by
        intro b
        unfold merged_with
        cases item_name b <;> rfl
      rw [show merged_with [] = id from funext h, List.map_id]
    simp [merge_config_items_loop, unmatched_items, this]
  | cons o rest ih =>
    intro base hwf hnamed hnd_ovr hnd_base
    have hwfo := hwf o (List.mem_cons_self _ _)
    obtain ⟨n, hn⟩ := Option.ne_none_iff_exists'.mp (hnamed o (List.mem_cons_self _ _))
    have hn' : Table.get_as_string o names.NAME = some n := hn
    have hwf' : ∀ o' ∈ rest, Table.wf o' := fun o' h => hwf o' (List.mem_cons_of_mem _ h)
    have hnamed' : ∀ o' ∈ rest, item_name o' ≠ none :=
      fun o' h => hnamed o' (List.mem_cons_of_mem _ h)
    simp only [List.filterMap_cons, hn, List.nodup_cons] at hnd_ovr
    have hrest : rest.any (has_name n) = false := by
      rw [← Bool.not_eq_true, any_has_name_of_filterMap]
      exact hnd_ovr.1
    simp only [merge_config_items_loop, merge_config_item, hn']
    cases hfind : find_item_by_name base n with
    | some i =>
      have hbase : base.any (has_name n) = true := by
        rw [← Bool.not_eq_false, ← find_item_by_name_none, hfind]
        simp
      simp only [update_item_at_found _ n base i hnd_base hfind]
      have hnames := filterMap_item_name_map_merge base o n hwfo hn
      rw [ih _ hwf' hnamed' hnd_ovr.2 (by rw [hnames]; exact hnd_base)]
      have e1 : (base.map (fun b => if has_name n b then merge_item_fields b o else b)).map
          (merged_with rest) = base.map (merged_with (o :: rest)) := by
        rw [List.map_map]
        apply List.map_congr_left
        intro b _
        exact merged_with_step_matched o n rest hwfo hn hrest b
      have e2 : unmatched_items (base.map (fun b => if has_name n b then merge_item_fields b o
          else b)) rest = unmatched_items base (o :: rest) := by
        rw [unmatched_items_congr _ base rest hnames]
        simp [unmatched_items, hn, hbase]
      rw [e1, e2]
    | none =>
      have hbase : base.any (has_name n) = false := (find_item_by_name_none base n).mp hfind
      have hnd1 : ((base ++ [o]).filterMap item_name).Nodup := by
        rw [List.filterMap_append]
        simp only [List.filterMap_cons, hn, List.filterMap_nil]
        rw [List.nodup_append]
        refine ⟨hnd_base, List.nodup_singleton n, ?_⟩
        intro x hx hx'
        rw [List.mem_singleton] at hx'
        subst hx'
        have := (any_has_name_of_filterMap base x).mpr hx
        rw [hbase] at this
        exact Bool.noConfusion this
      show merge_config_items_loop (base ++ [o]) rest = _
      rw [ih _ hwf' hnamed' hnd_ovr.2 hnd1]
      have e0 : merged_with rest o = o := by
        simp only [merged_with, hn, find_has_name_none rest n hrest]
      have e1 : (base ++ [o]).map (merged_with rest)
          = base.map (merged_with (o :: rest)) ++ [o] := by
        rw [List.map_append, merged_with_step_unmatched o n rest base hn hbase]
        simp [e0]
      have e2 : unmatched_items base (o :: rest) = o :: unmatched_items base rest := by
        simp [unmatched_items, hn, hbase]
      rw [e1, unmatched_items_append_self o n rest base hn hrest, e2]
      simp

theorem get_table_array_congr (t1 t2 : Table) (key : String)
    (h : Table.get t1 key = Table.get t2 key) :
    Table.get_table_array t1 key = Table.get_table_array t2 key := by
  unfold Table.get_table_array
  rw [h]

/-- One section merged without adoption: the section's array becomes the merged array
and every other key of the document keeps its value. -/
theorem merge_config_items_no_adoption (base_ref ovr_ref : Table) (key : String)
    (h : mergeable base_ref ovr_ref key) :
    ∃ r, merge_config_items base_ref key (Table.get_table_array base_ref key)
          (Table.get_table_array ovr_ref key) = .ok r
      ∧ Table.get_table_array r key = section_merged base_ref ovr_ref key
      ∧ ∀ key', key' ≠ key → Table.get r key' = Table.get base_ref key' := by
  unfold mergeable at h
  unfold section_merged
  cases ho : Table.get_table_array ovr_ref key with
  | none =>
    refine ⟨base_ref, ?_, ?_, fun _ _ => rfl⟩
    · cases Table.get_table_array base_ref key <;> rfl
    · cases Table.get_table_array base_ref key <;> rfl
  | some ovr_items =>
    obtain ⟨⟨base_items, hb, hnb⟩, hwf, hnamed, hno⟩ := h ovr_items ho
    rw [hb]
    refine ⟨Table.insert base_ref key (.tableArray (base_items.map (merged_with ovr_items)
      ++ unmatched_items base_items ovr_items)), ?_, ?_, ?_⟩
    · simp only [merge_config_items,
        merge_config_items_loop_spec ovr_items base_items hwf hnamed hno hnb]
    · simp [Table.get_table_array, Table.get_insert]
    · intro key' hk
      rw [Table.get_insert]
      simp [Ne.symm hk]

theorem mergeable_congr (base1 base2 ovr : Table) (key : String)
    (h : Table.get base1 key = Table.get base2 key) (hm : mergeable base2 ovr key) :
    mergeable base1 ovr key := by
  unfold mergeable at hm ⊢
  rw [get_table_array_congr base1 base2 key h]
  exact hm

theorem section_merged_congr (base1 base2 ovr : Table) (key : String)
    (h : Table.get base1 key = Table.get base2 key) :
    section_merged base1 ovr key = section_merged base2 ovr key := by
  unfold section_merged
  rw [get_table_array_congr base1 base2 key h]

/-- The merge of two documents when no section is adopted (base has an array for every
section the override has one for) and the names are unique within each array: in each
of the three sections the merged array is the base items in their order, each merged
field by field with the override item of its name, followed by the unmatched override
items in override order. -/
theorem merge_config_root_without_adoption (base ovr : Table)
    (hs : mergeable base ovr names.SINK_TABLE) (hp : mergeable base ovr names.PATTERN_TABLE)
    (hl : mergeable base ovr names.LOGGER_TABLE) :
    ∃ merged, merge_config_root (some base) (some ovr) = .ok merged
      ∧ Table.get_table_array merged names.SINK_TABLE
          = section_merged base ovr names.SINK_TABLE
      ∧ Table.get_table_array merged names.PATTERN_TABLE
          = section_merged base ovr names.PATTERN_TABLE
      ∧ Table.get_table_array merged names.LOGGER_TABLE
          = section_merged base ovr names.LOGGER_TABLE := by
  have nsp : names.SINK_TABLE ≠ names.PATTERN_TABLE := by decide
  have nsl : names.SINK_TABLE ≠ names.LOGGER_TABLE := by decide
  have npl : names.PATTERN_TABLE ≠ names.LOGGER_TABLE := by decide
  obtain ⟨r1, h1, g1, f1⟩ := merge_config_items_no_adoption base ovr names.SINK_TABLE hs
  have hp1 : mergeable r1 ovr names.PATTERN_TABLE :=
    mergeable_congr r1 base ovr _ (f1 _ nsp.symm) hp
  obtain ⟨r2, h2, g2, f2⟩ := merge_config_items_no_adoption r1 ovr names.PATTERN_TABLE hp1
  have hl2 : mergeable r2 ovr names.LOGGER_TABLE :=
    mergeable_congr r2 base ovr _ ((f2 _ npl.symm).trans (f1 _ nsl.symm)) hl
  obtain ⟨r3, h3, g3, f3⟩ := merge_config_items_no_adoption r2 ovr names.LOGGER_TABLE hl2
  refine ⟨r3, ?_, ?_, ?_, ?_⟩
  · simp only [merge_config_root, h1, h2, h3]
  · rw [get_table_array_congr r3 r1 _ ((f3 _ nsl).trans (f2 _ nsp)), g1]
  · rw [get_table_array_congr r3 r2 _ (f3 _ npl), g2]
    exact section_merged_congr r1 base ovr _ (f1 _ nsp.symm)
  · rw [g3]
    exact section_merged_congr r2 base ovr _ ((f2 _ npl.symm).trans (f1 _ nsl.symm))

/-- C1 (evaluation at the failing input).  Base has a logger `root` with `level = "info"`
and no pattern array; the override has a pattern array and a logger `root` that sets
only `flush_level`.  The merge returns, the logger array of the merged document is the
override's pattern item followed by the override's logger item, and the item named
`root` no longer has the `level` field that base gave it.  (Without adoption the merge
keeps it: `merge_config_root_without_adoption`.) -/
theorem merge_matched_item_lost_after_adoption :
    merge_config_root (some base_without_patterns) (some override_with_patterns)
      = .ok [("sink", .tableArray
                [[("name", .str "console"), ("type", .str "stdout_sink_mt")]]),
             ("logger", .tableArray
                [[("name", .str "brief"), ("value", .str "%v")],
                 [("name", .str "root"), ("flush_level", .str "error")]])]
    ∧ Table.get [("name", .str "root"), ("flush_level", .str "error")] "level" = none
    ∧ Table.get [("name", .str "root"), ("sinks", .array [.str "console"]),
        ("level", .str "info")] "level" = some (.str "info") :=
  ⟨rfl, rfl, rfl⟩

/-- C2 (evaluation at the failing input).  Base has one logger (`root`) and no pattern
array; the override has a pattern array and one logger (`audit`) that matches no base
logger.  The merged logger array is not base's logger followed by `audit`: it is the
override's pattern item followed by `audit`, and base's logger `root` is gone.  (Without
adoption the merged array is as claimed: `merge_config_root_without_adoption`.) -/
theorem merge_unmatched_item_base_lost_after_adoption :
    (merge_config_root (some base_without_patterns) (some override_with_new_logger)).map
        (fun merged => Table.get_table_array merged names.LOGGER_TABLE)
      = .ok (some [[("name", .str "brief"), ("value", .str "%v")],
                   [("name", .str "audit"), ("sinks", .array [.str "console"])]])
    ∧ Table.get_table_array base_without_patterns names.LOGGER_TABLE
      = some [[("name", .str "root"), ("sinks", .array [.str "console"]),
               ("level", .str "info")]] :=
  ⟨rfl, rfl⟩

/-! ## Theorems: calendar arithmetic -/

set_option maxHeartbeats 4000000 in
/-- Within a 400-year era, the year of the era computed by `civil_from_days` is in
range and so is the day of the year left over. -/
theorem year_of_era_bounds (doe e f g b c d : Int) (h0 : 0 ≤ doe) (h1 : doe ≤ 146096)
    (he : e = doe / 1460) (hf : f = doe / 36524) (hg : g = doe / 146096)
    (hb : b = (doe - e + f - g) / 365) (hc : c = b / 4) (hd : d = b / 100) :
    (0 ≤ b ∧ b ≤ 399) ∧ 0 ≤ doe - (365 * b + c - d) ∧ doe - (365 * b + c - d) ≤ 365 := by
  have hb01 : 0 ≤ b ∧ b ≤ 399 := by omega
  refine ⟨hb01, ?_⟩
  have he0 : 0 ≤ e := by omega
  have he1 : e ≤ 100 := by omega
  have hf1 : f = 0 ∨ f = 1 ∨ f = 2 ∨ f = 3 ∨ f = 4 := by omega
  interval_cases e <;> omega

/-- The day number of the civil date made from an era, a year of the era and a day of
the year. -/
theorem days_from_civil_parts (doe yoe doy mp era : Int) (h1 : 0 ≤ yoe) (h2 : yoe ≤ 399)
    (h3 : 0 ≤ doy) (h4 : doy ≤ 365) (hmp : mp = (5 * doy + 2) / 153)
    (hdoy : doy = doe - (365 * yoe + yoe / 4 - yoe / 100)) :
    days_from_civil
      (if (if mp < 10 then mp + 3 else mp - 9) ≤ 2 then yoe + era * 400 + 1 else yoe + era * 400)
      (if mp < 10 then mp + 3 else mp - 9) (doy - (153 * mp + 2) / 5 + 1)
      = era * 146097 + doe - 719468 := by
  have hmp0 : 0 ≤ mp := by omega
  have hmp1 : mp ≤ 11 := by omega
  have e4 : (yoe + era * 400) / 400 = era := by omega
  have e6 : yoe + era * 400 - era * 400 = yoe := by omega
  by_cases hlt : mp < 10
  · have e2 : ¬ (mp + 3 ≤ 2) := by omega
    have e3 : mp + 3 > 2 := by omega
    have e5 : mp + 3 - 3 = mp := by omega
    simp only [days_from_civil, hlt, e2, e3, if_false, if_true, e4, e5, e6]
    omega
  · have e2 : mp - 9 ≤ 2 := by omega
    have e3 : ¬ (mp - 9 > 2) := by omega
    have e0 : yoe + era * 400 + 1 - 1 = yoe + era * 400 := by omega
    have e5 : mp - 9 + 9 = mp := by omega
    simp only [days_from_civil, hlt, e2, e3, if_false, if_true, e0, e4, e5, e6]
    omega

/-- The day number of the civil date of a day number is that day number: `mktime`
undoes `localtime`. -/
theorem days_from_civil_civil_from_days (z : Int) :
    days_from_civil (civil_from_days z).1 (civil_from_days z).2.1 (civil_from_days z).2.2 = z := by
  have hdoe0 : 0 ≤ z + 719468 - (z + 719468) / 146097 * 146097 := by omega
  have hdoe1 : z + 719468 - (z + 719468) / 146097 * 146097 ≤ 146096 := by omega
  obtain ⟨⟨h1, h2⟩, h3, h4⟩ :=
    year_of_era_bounds _ _ _ _ _ _ _ hdoe0 hdoe1 rfl rfl rfl rfl rfl rfl
  have key := days_from_civil_parts (z + 719468 - (z + 719468) / 146097 * 146097) _ _ _
    ((z + 719468) / 146097) h1 h2 h3 h4 rfl rfl
  simp only [civil_from_days]
  rw [key]
  omega

/-! ## Theorems: file names of the scheduled sink -/

namespace sinks

theorem toDigitsCore_step (fuel n : Nat) (ds : List Char) :
    Nat.toDigitsCore 10 (fuel + 1) n ds
      = if n / 10 = 0 then Nat.digitChar (n % 10) :: ds
        else Nat.toDigitsCore 10 fuel (n / 10) (Nat.digitChar (n % 10) :: ds) := by
  simp [Nat.toDigitsCore]

theorem toDigits_one (n : Nat) (h : n < 10) : Nat.toDigits 10 n = [Nat.digitChar n] := by
  have h1 : n / 10 = 0 := by omega
  have h2 : n % 10 = n := by omega
  simp [Nat.toDigits, toDigitsCore_step, h1, h2]

theorem toDigits_two (n : Nat) (h0 : 10 ≤ n) (h : n < 100) :
    Nat.toDigits 10 n = [Nat.digitChar (n / 10), Nat.digitChar (n % 10)] := by
  obtain ⟨k, rfl⟩ : ∃ k, n = k + 1 := ⟨n - 1, by omega⟩
  have h1 : (k + 1) / 10 ≠ 0 := by omega
  have h2 : (k + 1) / 10 / 10 = 0 := by omega
  have h3 : (k + 1) / 10 % 10 = (k + 1) / 10 := by omega
  simp [Nat.toDigits, toDigitsCore_step, h1, h2, h3]

theorem toDigits_three (n : Nat) (h0 : 100 ≤ n) (h : n < 1000) :
    Nat.toDigits 10 n
      = [Nat.digitChar (n / 100), Nat.digitChar (n / 10 % 10), Nat.digitChar (n % 10)] := by
  obtain ⟨k, rfl⟩ : ∃ k, n = k + 2 := ⟨n - 2, by omega⟩
  have h1 : (k + 2) / 10 ≠ 0 := by omega
  have h2 : (k + 2) / 10 / 10 ≠ 0 := by omega
  have h3 : (k + 2) / 10 / 10 / 10 = 0 := by omega
  have h4 : (k + 2) / 10 / 10 % 10 = (k + 2) / 100 := by omega
  have e : k + 2 + 1 = k + 1 + 1 + 1 := rfl
  simp [Nat.toDigits, e, toDigitsCore_step, h1, h2, h3, h4]

theorem toDigits_four (n : Nat) (h0 : 1000 ≤ n) (h : n < 10000) :
    Nat.toDigits 10 n
      = [Nat.digitChar (n / 1000), Nat.digitChar (n / 100 % 10), Nat.digitChar (n / 10 % 10),
         Nat.digitChar (n % 10)] := by
  obtain ⟨k, rfl⟩ : ∃ k, n = k + 3 := ⟨n - 3, by omega⟩
  have h1 : (k + 3) / 10 ≠ 0 := by omega
  have h2 : (k + 3) / 10 / 10 ≠ 0 := by omega
  have h3 : (k + 3) / 10 / 10 / 10 ≠ 0 := by omega
  have h4 : (k + 3) / 10 / 10 / 10 / 10 = 0 := by omega
  have h5 : (k + 3) / 10 / 10 / 10 % 10 = (k + 3) / 1000 := by omega
  have h6 : (k + 3) / 10 / 10 % 10 = (k + 3) / 100 % 10 := by omega
  have e : k + 3 + 1 = k + 1 + 1 + 1 + 1 := rfl
  simp [Nat.toDigits, e, toDigitsCore_step, h1, h2, h3, h4, h5, h6]

/-- The rendering of a number that is not negative is its zero-padded numeral. -/
theorem format_0d_nonneg (width n : Nat) : format_0d width (n : Int) = zero_padded width n := by
  have hneg : ¬ ((n : Int) < 0) := by omega
  simp only [format_0d, hneg, if_false, Int.natAbs_ofNat, zero_padded]

/-- Padded to two digits, a number below 100 has exactly its two decimal digits. -/
theorem zero_padded_two (n : Nat) (h : n < 100) : zero_padded 2 n = two_digits n := by
  simp only [zero_padded, two_digits]
  by_cases h1 : n < 10
  · have e1 : n / 10 = 0 := by omega
    have e2 : n % 10 = n := by omega
    rw [toDigits_one n h1, e1, e2]
    rfl
  · rw [toDigits_two n (by omega) h]
    rfl

/-- Padded to four digits, a number below 10000 has exactly its four decimal digits. -/
theorem zero_padded_four (n : Nat) (h : n < 10000) : zero_padded 4 n = four_digits n := by
  simp only [zero_padded, four_digits]
  by_cases h1 : n < 10
  · have e1 : n / 1000 = 0 := by omega
    have e2 : n / 100 % 10 = 0 := by omega
    have e3 : n / 10 % 10 = 0 := by omega
    have e4 : n % 10 = n := by omega
    rw [toDigits_one n h1, e1, e2, e3, e4]
    rfl
  · by_cases h2 : n < 100
    · have e1 : n / 1000 = 0 := by omega
      have e2 : n / 100 % 10 = 0 := by omega
      have e3 : n / 10 % 10 = n / 10 := by omega
      rw [toDigits_two n (by omega) h2, e1, e2, e3]
      rfl
    · by_cases h3 : n < 1000
      · have e1 : n / 1000 = 0 := by omega
        have e2 : n / 100 % 10 = n / 100 := by omega
        rw [toDigits_three n (by omega) h3, e1, e2]
        rfl
      · rw [toDigits_four n (by omega) h]
        rfl

/-- C6.  Rotation file name: for every file name, split into stem and extension, and
every local calendar time with year `Y` (not negative), month `M`, day `D`, hour `h`
and minute `mi`, all of them within the range of `int`, so that the sums
`tm_year + 1900` and `tm_mon + 1` of the source do not overflow, `calc_filename`
returns `stem_YYYY-MM-DD+ext` for Daily, `stem_YYYY-MM-DD-HH+ext` for Hourly and
`stem_YYYY-MM-DD-HH-MM+ext` for Minutely, the year zero-padded to four digits and the
other fields to two; a year up to 9999 is written with exactly its four decimal digits
and a field up to 99 with exactly its two decimal digits. -/
theorem calc_filename_format (filename : String) (Y M D h mi : Nat) (sec : Int)
    (hint : ∀ v ∈ [Y, M, D, h, mi], v ≤ 2147483647) :
    wrap_int32 ((Y : Int) - 1900 + 1900) = Y
    ∧ wrap_int32 ((M : Int) - 1 + 1) = M
    ∧ calc_filename filename
        { tm_sec := sec, tm_min := mi, tm_hour := h, tm_mday := D, tm_mon := (M : Int) - 1,
          tm_year := (Y : Int) - 1900 } .DAILY
      = (split_by_extenstion filename).1 ++ "_" ++ zero_padded 4 Y ++ "-" ++ zero_padded 2 M
          ++ "-" ++ zero_padded 2 D ++ (split_by_extenstion filename).2
    ∧ calc_filename filename
        { tm_sec := sec, tm_min := mi, tm_hour := h, tm_mday := D, tm_mon := (M : Int) - 1,
          tm_year := (Y : Int) - 1900 } .HOURLY
      = (split_by_extenstion filename).1 ++ "_" ++ zero_padded 4 Y ++ "-" ++ zero_padded 2 M
          ++ "-" ++ zero_padded 2 D ++ "-" ++ zero_padded 2 h
          ++ (split_by_extenstion filename).2
    ∧ calc_filename filename
        { tm_sec := sec, tm_min := mi, tm_hour := h, tm_mday := D, tm_mon := (M : Int) - 1,
          tm_year := (Y : Int) - 1900 } .MINUTELY
      = (split_by_extenstion filename).1 ++ "_" ++ zero_padded 4 Y ++ "-" ++ zero_padded 2 M
          ++ "-" ++ zero_padded 2 D ++ "-" ++ zero_padded 2 h ++ "-" ++ zero_padded 2 mi
          ++ (split_by_extenstion filename).2
    ∧ (Y ≤ 9999 → zero_padded 4 Y = four_digits Y)
    ∧ (∀ n : Nat, n ≤ 99 → zero_padded 2 n = two_digits n) := by
  have eY : format_0d 4 ((Y : Int) - 1900 + 1900) = zero_padded 4 Y := by
    rw [sub_add_cancel]; exact format_0d_nonneg 4 Y
  have eM : format_0d 2 ((M : Int) - 1 + 1) = zero_padded 2 M := by
    rw [sub_add_cancel]; exact format_0d_nonneg 2 M
  have eD := format_0d_nonneg 2 D
  have eh := format_0d_nonneg 2 h
  have emi := format_0d_nonneg 2 mi
  have hY : Y ≤ 2147483647 := hint Y (by simp)
  have hM : M ≤ 2147483647 := hint M (by simp)
  have wY : wrap_int32 ((Y : Int) - 1900 + 1900) = Y := by unfold wrap_int32; omega
  have wM : wrap_int32 ((M : Int) - 1 + 1) = M := by unfold wrap_int32; omega
  refine ⟨wY, wM, ?_, ?_, ?_, fun hY => zero_padded_four Y (by omega),
    fun n hn => zero_padded_two n (by omega)⟩ <;>
    simp only [calc_filename, eY, eM, eD, eh, emi]

/-- Witness of C6: `app.log` at 2024-03-05 14:07 gives `app_2024-03-05.log`,
`app_2024-03-05-14.log` and `app_2024-03-05-14-07.log`. -/
theorem calc_filename_format_witness :
    calc_filename "app.log" ⟨0, 7, 14, 5, 2, 124⟩ .DAILY = "app_2024-03-05.log"
    ∧ calc_filename "app.log" ⟨0, 7, 14, 5, 2, 124⟩ .HOURLY = "app_2024-03-05-14.log"
    ∧ calc_filename "app.log" ⟨0, 7, 14, 5, 2, 124⟩ .MINUTELY = "app_2024-03-05-14-07.log"
    ∧ zero_padded 4 2024 = four_digits 2024
    ∧ zero_padded 2 7 = two_digits 7 := by
  obtain ⟨-, -, h1, h2, h3, h4, h5⟩ :=
    calc_filename_format "app.log" 2024 3 5 14 7 0 (by decide)
  exact ⟨h1.trans (by decide), h2.trans (by decide), h3.trans (by decide),
    h4 (by decide), h5 7 (by decide)⟩

/-! ## Theorems: rotation of the scheduled sink -/

/-- Within its range a value of the 64-bit count is kept as it is. -/
theorem wrap_int64_of_range (x : Int) (h1 : -2 ^ 63 ≤ x) (h2 : x < 2 ^ 63) :
    wrap_int64 x = x := by
  unfold wrap_int64
  omega

/-- From the epoch on, `to_time_t` is the floor of the seconds. -/
theorem to_time_t_of_nonneg (tp : time_point) (h : 0 ≤ tp) :
    to_time_t tp = tp / ticks_per_second := by
  unfold to_time_t ticks_per_second
  exact Int.tdiv_eq_ediv h (by decide)

/-- An instant lies in the period that starts at its truncation. -/
theorem period_start_bounds (utc_offset : Int) (type : scheduled_type) (tp : time_point) :
    period_start utc_offset type tp ≤ tp ∧
    tp < period_start utc_offset type tp + period_ticks type := by
  cases type <;> simp only [period_start, period_ticks, period_seconds, ticks_per_second] <;>
    (unfold time_point at *) <;> omega

/-- At a fixed offset, `mktime` of the local time of an instant with the fields below
the granularity set to zero is the instant truncated down to the granularity. -/
theorem mktime_of_truncated_localtime (utc_offset : Int) (clock_now : time_point) :
    mktime_at_offset utc_offset
        { localtime_at_offset utc_offset (clock_now / ticks_per_second) with
          tm_hour := 0, tm_min := 0, tm_sec := 0 } * ticks_per_second
      = period_start utc_offset .DAILY clock_now
    ∧ mktime_at_offset utc_offset
        { localtime_at_offset utc_offset (clock_now / ticks_per_second) with
          tm_min := 0, tm_sec := 0 } * ticks_per_second
      = period_start utc_offset .HOURLY clock_now
    ∧ mktime_at_offset utc_offset
        { localtime_at_offset utc_offset (clock_now / ticks_per_second) with
          tm_sec := 0 } * ticks_per_second
      = period_start utc_offset .MINUTELY clock_now := by
  have hrt := days_from_civil_civil_from_days
    ((clock_now / ticks_per_second + utc_offset) / 86400)
  refine ⟨?_, ?_, ?_⟩ <;>
    simp only [localtime_at_offset, mktime_at_offset, period_start, period_seconds,
      sub_add_cancel, hrt] <;>
    simp only [ticks_per_second] <;> clear hrt <;> (unfold time_point at *) <;> omega

/-- The boundary `next_rotation_tp_` computes through `localtime` and `mktime` is the
clock reading truncated down to the granularity plus one period, on a host at a fixed
offset and for a reading within `clock_in_range`. -/
theorem next_rotation_tp_eq (env : Env) (utc_offset : Int) (type : scheduled_type)
    (clock_now : time_point) (hzone : fixed_offset_zone env utc_offset)
    (h : clock_in_range type clock_now) :
    next_rotation_tp_ env type clock_now
      = period_start utc_offset type clock_now + period_ticks type := by
  obtain ⟨h0, hmax⟩ := h
  obtain ⟨hb1, hb2⟩ := period_start_bounds utc_offset type clock_now
  obtain ⟨hd, hh, hm⟩ := mktime_of_truncated_localtime utc_offset clock_now
  have hp : period_ticks type ≤ 86400000000000 ∧ 0 < period_ticks type := by
    cases type <;> simp only [period_ticks, period_seconds, ticks_per_second] <;> omega
  have hw1 : wrap_int64 (period_start utc_offset type clock_now)
      = period_start utc_offset type clock_now :=
    wrap_int64_of_range _ (by unfold time_point at *; omega) (by unfold time_point at *; omega)
  have hw2 : wrap_int64 (period_start utc_offset type clock_now + period_ticks type)
      = period_start utc_offset type clock_now + period_ticks type :=
    wrap_int64_of_range _ (by unfold time_point at *; omega) (by unfold time_point at *; omega)
  cases type <;>
    simp only [next_rotation_tp_, now_tm, to_time_t_of_nonneg clock_now h0, hzone.1, hzone.2,
      from_time_t, time_point_add, hd, hh, hm, hw1] <;>
    (rw [← hw2]; rfl)

/-- C4 (as amended).  On a host whose local time is at a fixed UTC offset, after a write
with record time stamp `msg.time` that triggers a rotation, the new `rotation_tp_` is
computed from the reading `clock_now` of the wall clock inside the write, not from the
record: for a reading from the epoch on and at least one period before the end of the
range of the 64-bit count of nanoseconds, it is `clock_now` truncated down to the
granularity plus one period.  It is the record's time truncated down plus one period
when the record and the clock reading fall in the same period. -/
theorem rotation_recomputed_from_clock (env : Env) (utc_offset : Int)
    (s : scheduled_rolling_file_sink) (msg : log_msg) (clock_now : time_point)
    (hzone : fixed_offset_zone env utc_offset)
    (hclock : clock_in_range s.scheduled_type_ clock_now) (hge : msg.time ≥ s.rotation_tp_)
    (hopen : env.can_open
      (calc_filename s.base_filename_ (now_tm env msg.time) s.scheduled_type_) = true) :
    ∃ s1, sink_it_ env s msg clock_now = .ok s1
      ∧ s1.rotation_tp_
          = period_start utc_offset s.scheduled_type_ clock_now
            + period_ticks s.scheduled_type_
      ∧ (period_start utc_offset s.scheduled_type_ msg.time
            = period_start utc_offset s.scheduled_type_ clock_now →
          s1.rotation_tp_
            = period_start utc_offset s.scheduled_type_ msg.time
              + period_ticks s.scheduled_type_) := by
  have hrun : sink_it_ env s msg clock_now
      = .ok { s with
          file_helper_ := file_helper.write
            { filename_ := calc_filename s.base_filename_ (now_tm env msg.time) s.scheduled_type_,
              files := if s.truncate_ then
                  (fun f => if f = calc_filename s.base_filename_ (now_tm env msg.time)
                    s.scheduled_type_ then [] else s.file_helper_.files f)
                else s.file_helper_.files }
            (env.formatter msg),
          rotation_tp_ := next_rotation_tp_ env s.scheduled_type_ clock_now } := by
    simp only [sink_it_, hge, if_true, file_helper.open, hopen]
  refine ⟨_, hrun, next_rotation_tp_eq env utc_offset s.scheduled_type_ clock_now hzone
    hclock, ?_⟩
  intro hsame
  rw [hsame]
  exact next_rotation_tp_eq env utc_offset s.scheduled_type_ clock_now hzone hclock

/-- Witness of C4 as amended: in UTC the record stamped 2024-03-06 00:00:01, handled
when the clock reads 2024-03-07 00:00:05, moves the boundary to 2024-03-08 00:00:00. -/
theorem rotation_recomputed_from_clock_witness :
    fixed_offset_zone utc_env 0
    ∧ clock_in_range .DAILY t_2024_03_07_00_00_05
    ∧ ∃ s1, sink_it_ utc_env daily_sink_2024_03_05 ⟨t_2024_03_06_00_00_01, "early"⟩
          t_2024_03_07_00_00_05 = .ok s1
      ∧ s1.rotation_tp_ = t_2024_03_08_00_00_00 := by
  obtain ⟨s1, h1, h2, _⟩ :=
    rotation_recomputed_from_clock utc_env 0 daily_sink_2024_03_05
      ⟨t_2024_03_06_00_00_01, "early"⟩ t_2024_03_07_00_00_05
      ⟨fun _ => rfl, fun _ _ => rfl⟩ (by decide) (by decide) rfl
  exact ⟨⟨fun _ => rfl, fun _ _ => rfl⟩, by decide, s1, h1, h2.trans (by decide)⟩

/-- C4 (counterexample).  The new `rotation_tp_` is not in general the record's time
truncated down plus one period, also on a host at a fixed UTC offset and with the clock
and the record well inside the range of the clock: in UTC the Daily sink with boundary
2024-03-06 00:00:00 that handles a record stamped 2024-03-06 00:00:01 when the clock
reads 2024-03-07 00:00:05 sets the boundary 2024-03-08 00:00:00, not 2024-03-07
00:00:00. -/
theorem rotation_not_recomputed_from_record_time :
    (∃ s1, sink_it_ utc_env daily_sink_2024_03_05 ⟨t_2024_03_06_00_00_01, "early"⟩
          t_2024_03_07_00_00_05 = .ok s1
      ∧ s1.rotation_tp_ = t_2024_03_08_00_00_00
      ∧ period_start 0 .DAILY t_2024_03_06_00_00_01 + period_ticks .DAILY
          = t_2024_03_07_00_00_00)
    ∧ ¬ (∀ (env : Env) (utc_offset : Int) (s : scheduled_rolling_file_sink) (msg : log_msg)
        (clock_now : time_point) (s1 : scheduled_rolling_file_sink),
        fixed_offset_zone env utc_offset → clock_in_range s.scheduled_type_ clock_now →
        clock_in_range s.scheduled_type_ msg.time →
        msg.time ≥ s.rotation_tp_ → sink_it_ env s msg clock_now = .ok s1 →
        s1.rotation_tp_
          = period_start utc_offset s.scheduled_type_ msg.time
            + period_ticks s.scheduled_type_) := by
  refine ⟨⟨_, rfl, by decide, by decide⟩, ?_⟩
  intro hall
  have h := hall utc_env 0 daily_sink_2024_03_05 ⟨t_2024_03_06_00_00_01, "early"⟩
    t_2024_03_07_00_00_05 _ ⟨fun _ => rfl, fun _ _ => rfl⟩ (by decide) (by decide)
    (by decide) rfl
  exact absurd h (by decide)

end sinks

/-! ## Theorems: logger assembly -/

theorem make_logger_fields (reg : Registry) (lt : Table) (name : String) (ss : List Sink) :
    (make_logger reg lt name ss).1.name = name ∧ (make_logger reg lt name ss).1.sinks = ss
    ∧ (make_logger reg lt name ss).1.pattern = none
    ∧ (make_logger reg lt name ss).1.level = none
    ∧ (make_logger reg lt name ss).2.loggers = reg.loggers
    ∧ (make_logger reg lt name ss).2.default_logger = reg.default_logger := by
  unfold make_logger
  cases value_from_table_or_bool lt names.IS_ASYNC false
  · simp
  · cases reg.tp <;> simp

theorem set_logger_level_fields (lt : Table) (name : String) (l0 l1 : Logger)
    (h : set_logger_level_if_present lt name l0 = .ok l1) :
    l1.name = l0.name ∧ l1.sinks = l0.sinks ∧ l1.pattern = l0.pattern ∧ l1.async = l0.async := by
  unfold set_logger_level_if_present at h
  cases hl : Table.get_as_string lt names.LEVEL with
  | none => simp [hl] at h; subst h; simp
  | some level =>
    simp only [hl] at h
    cases hv : level_from_str level with
    | error e => simp [hv] at h
    | ok v => simp [hv] at h; subst h; simp

theorem apply_pattern_fields (sel : Option String) (l : Logger) (h : l.pattern = none) :
    (apply_pattern sel l).name = l.name ∧ (apply_pattern sel l).sinks = l.sinks
    ∧ (apply_pattern sel l).pattern = sel := by
  cases sel <;> simp [apply_pattern, h]

theorem build_logger_inv (sm : Map Sink) (pm : Map String) (gp : Option String)
    (reg : Registry) (lt : Table) (L : Logger)
    (h : (build_logger sm pm gp reg lt).1 = .ok L) :
    Table.get_as_string lt names.NAME = some L.name
    ∧ (∃ sinks, Table.get_array_of_string lt names.SINKS = some sinks
        ∧ resolve_logger_sinks sm L.name sinks = .ok L.sinks)
    ∧ select_pattern pm gp lt L.name = .ok L.pattern := by
  unfold build_logger at h
  cases h1 : Table.get_as_string lt names.NAME with
  | none => simp [value_from_table_string, h1] at h
  | some name =>
    simp only [value_from_table_string, h1] at h
    cases h2 : Table.get_array_of_string lt names.SINKS with
    | none => simp [array_from_table_string, h2] at h
    | some sinks =>
      simp only [array_from_table_string, h2] at h
      cases h3 : resolve_logger_sinks sm name sinks with
      | error e => simp [h3] at h
      | ok logger_sinks =>
        simp only [h3] at h
        obtain ⟨m1, m2, m3, -, -, -⟩ := make_logger_fields reg lt name logger_sinks
        cases h4 : set_logger_level_if_present lt name (make_logger reg lt name logger_sinks).1 with
        | error e => simp [h4] at h
        | ok logger1 =>
          simp only [h4] at h
          obtain ⟨s1, s2, s3, -⟩ := set_logger_level_fields _ _ _ _ h4
          cases h5 : select_pattern pm gp lt name with
          | error e => simp [h5] at h
          | ok sel =>
            simp only [h5] at h
            cases h6 : level_from_str (value_from_table_or_string lt names.FLUSH_LEVEL "warn") with
            | error e => simp [h6] at h
            | ok fl =>
              simp only [h6] at h
              obtain ⟨a1, a2, a3⟩ := apply_pattern_fields sel logger1 (s3.trans m3)
              have hL : L = { apply_pattern sel logger1 with flush_level := some fl } := by
                simpa using h.symm
              have hname : L.name = name := by rw [hL]; simp [a1, s1, m1]
              have hsinks : L.sinks = logger_sinks := by rw [hL]; simp [a2, s2, m2]
              have hpat : L.pattern = sel := by rw [hL]; simp [a3]
              rw [hname, hsinks, hpat]
              exact ⟨rfl, ⟨sinks, rfl, h3⟩, h5⟩

theorem set_logger_level_ok_indep (lt : Table) (name : String) (l0 l0' l1 : Logger)
    (h : set_logger_level_if_present lt name l0 = .ok l1) :
    ∃ l1', set_logger_level_if_present lt name l0' = .ok l1' := by
  unfold set_logger_level_if_present at h ⊢
  cases hl : Table.get_as_string lt names.LEVEL with
  | none => exact ⟨_, rfl⟩
  | some level =>
    simp only [hl] at h ⊢
    cases hv : level_from_str level with
    | error e => simp [hv] at h
    | ok v => exact ⟨_, rfl⟩

theorem build_logger_ok_indep (sm : Map Sink) (pm : Map String) (gp : Option String)
    (reg reg' : Registry) (lt : Table) (L : Logger)
    (h : (build_logger sm pm gp reg lt).1 = .ok L) :
    ∃ L', (build_logger sm pm gp reg' lt).1 = .ok L' := by
  unfold build_logger at h ⊢
  cases h1 : Table.get_as_string lt names.NAME with
  | none => simp [value_from_table_string, h1] at h
  | some name =>
    simp only [value_from_table_string, h1] at h ⊢
    cases h2 : Table.get_array_of_string lt names.SINKS with
    | none => simp [array_from_table_string, h2] at h
    | some sinks =>
      simp only [array_from_table_string, h2] at h ⊢
      cases h3 : resolve_logger_sinks sm name sinks with
      | error e => simp [h3] at h
      | ok logger_sinks =>
        simp only [h3] at h ⊢
        cases h4 : set_logger_level_if_present lt name (make_logger reg lt name logger_sinks).1 with
        | error e => simp [h4] at h
        | ok logger1 =>
          simp only [h4] at h
          obtain ⟨l1', h4'⟩ := set_logger_level_ok_indep lt name _
            (make_logger reg' lt name logger_sinks).1 _ h4
          simp only [h4']
          cases h5 : select_pattern pm gp lt name with
          | error e => simp [h5] at h
          | ok sel =>
            simp only [h5] at h ⊢
            cases h6 : level_from_str (value_from_table_or_string lt names.FLUSH_LEVEL "warn") with
            | error e => simp [h6] at h
            | ok fl => exact ⟨_, rfl⟩

theorem build_logger_of_builds (sm : Map Sink) (pm : Map String) (gp : Option String)
    (reg : Registry) (lt : Table) (h : logger_builds sm pm gp lt = true) :
    ∃ L, (build_logger sm pm gp reg lt).1 = .ok L := by
  unfold logger_builds at h
  cases hb : (build_logger sm pm gp { default_logger := none, loggers := [], tp := none } lt).1 with
  | error e => simp [hb] at h
  | ok L0 => exact build_logger_ok_indep sm pm gp _ reg lt L0 hb

theorem build_logger_registry (sm : Map Sink) (pm : Map String) (gp : Option String)
    (reg : Registry) (lt : Table) :
    (build_logger sm pm gp reg lt).2.loggers = reg.loggers
    ∧ (build_logger sm pm gp reg lt).2.default_logger = reg.default_logger := by
  unfold build_logger
  cases h1 : value_from_table_string lt names.NAME
      ("One of the loggers does not have a '" ++ names.NAME ++ "' field") with
  | error e => exact ⟨rfl, rfl⟩
  | ok name =>
    simp only []
    cases h2 : array_from_table_string lt names.SINKS
        ("Logger '" ++ name ++ "' does not have a '" ++ names.SINKS
          ++ "' field of sink names") with
    | error e => exact ⟨rfl, rfl⟩
    | ok sinks =>
      simp only []
      cases h3 : resolve_logger_sinks sm name sinks with
      | error e => exact ⟨rfl, rfl⟩
      | ok logger_sinks =>
        simp only []
        obtain ⟨-, -, -, -, m5, m6⟩ := make_logger_fields reg lt name logger_sinks
        cases h4 : set_logger_level_if_present lt name (make_logger reg lt name logger_sinks).1 with
        | error e => exact ⟨m5, m6⟩
        | ok logger1 =>
          simp only []
          cases h5 : select_pattern pm gp lt name with
          | error e => exact ⟨m5, m6⟩
          | ok sel =>
            simp only []
            cases h6 : level_from_str (value_from_table_or_string lt names.FLUSH_LEVEL "warn") with
            | error e => exact ⟨m5, m6⟩
            | ok fl => exact ⟨m5, m6⟩

theorem Map.find_append {β : Type} (m1 m2 : Map β) (key : String) :
    Map.find (m1 ++ m2) key
      = match Map.find m1 key with
        | some v => some v
        | none => Map.find m2 key := by
  induction m1 with
  | nil => simp [Map.find]
  | cons kv rest ih =>
    obtain ⟨k, v⟩ := kv
    by_cases hk : k = key
    · simp [Map.find, hk]
    · simp only [List.cons_append, Map.find, hk, if_false]
      exact ih

theorem logger_name_of_build (sm : Map Sink) (pm : Map String) (gp : Option String)
    (reg : Registry) (lt : Table) (L : Logger)
    (h : (build_logger sm pm gp reg lt).1 = .ok L) : logger_name lt = L.name := by
  have hn := (build_logger_inv sm pm gp reg lt L h).1
  simp [logger_name, value_from_table_or_string, hn]

/-- What the loop has done when it returns. -/
theorem setup_loggers_loop_returned (sm : Map Sink) (pm : Map String) (gp : Option String) :
    ∀ (ls : List Table) (reg : Registry) (ds : Bool) (reg' : Registry) (ds' : Bool),
      setup_loggers_loop sm pm gp reg ds ls = .returned (reg', ds') →
      ∃ built : List Logger,
        List.Forall₂ (fun lt L => ∃ r, (build_logger sm pm gp r lt).1 = .ok L) ls built
        ∧ reg'.loggers = reg.loggers ++ named_entries ls built
        ∧ reg'.default_logger
            = (match default_entry ls built with
               | some L => some L
               | none => reg.default_logger)
        ∧ (ds = true → default_entry ls built = none) := by
  intro ls
  induction ls with
  | nil =>
    intro reg ds reg' ds' h
    simp only [setup_loggers_loop, Outcome.returned.injEq, Prod.mk.injEq] at h
    obtain ⟨rfl, rfl⟩ := h
    exact ⟨[], List.Forall₂.nil, by simp [named_entries], by simp [default_entry],
      fun _ => by simp [default_entry]⟩
  | cons lt rest ih =>
    intro reg ds reg' ds' h
    obtain ⟨hreg1, hreg2⟩ := build_logger_registry sm pm gp reg lt
    simp only [setup_loggers_loop, setup_logger] at h
    cases hb : build_logger sm pm gp reg lt with
    | mk res reg1 =>
      rw [hb] at h hreg1 hreg2
      simp only at hreg1 hreg2
      cases res with
      | error e => simp at h
      | ok L =>
        have hbL : (build_logger sm pm gp reg lt).1 = .ok L := by rw [hb]
        simp only [install_logger] at h
        cases hd : value_from_table_or_bool lt names.IS_DEFAULT false with
        | true =>
          have hd' : is_default_logger lt = true := hd
          simp only [hd, if_true] at h
          cases ds with
          | true => simp at h
          | false =>
            simp only [Bool.false_eq_true, if_false] at h
            obtain ⟨built, hb1, hb2, hb3, hb4⟩ := ih _ _ _ _ h
            have hnone := hb4 rfl
            refine ⟨L :: built, List.Forall₂.cons ⟨reg, hbL⟩ hb1, ?_, ?_, ?_⟩
            · simp only [named_entries, hd', if_true]
              rw [hb2]; simp [set_default_logger, hreg1]
            · simp only [default_entry, hd', if_true]
              rw [hb3, hnone]; simp [set_default_logger]
            · intro hc; simp at hc
        | false =>
          have hd' : is_default_logger lt = false := hd
          simp only [hd, Bool.false_eq_true, if_false] at h
          cases hr : register_logger reg1 L with
          | error e => simp [hr] at h
          | ok reg2 =>
            simp only [hr] at h
            obtain ⟨built, hb1, hb2, hb3, hb4⟩ := ih _ _ _ _ h
            have hreg2' : reg2 = { reg1 with loggers := reg1.loggers ++ [(L.name, L)] } := by
              unfold register_logger at hr
              cases hf : Map.find reg1.loggers L.name with
              | some x => simp [hf] at hr
              | none => simp only [hf] at hr; exact (Except.ok.inj hr).symm
            refine ⟨L :: built, List.Forall₂.cons ⟨reg, hbL⟩ hb1, ?_, ?_, ?_⟩
            · simp only [named_entries, hd', Bool.false_eq_true, if_false]
              rw [hb2, hreg2']; simp [hreg1]
            · simp only [default_entry, hd', Bool.false_eq_true, if_false]
              rw [hb3, hreg2']; simp [hreg2]
            · intro hc
              simp only [default_entry, hd', Bool.false_eq_true, if_false]
              exact hb4 hc

theorem names_accepted_tail_default (reg reg1 : Registry) (lt : Table) (rest : List Table)
    (h : names_accepted reg (lt :: rest)) (hd : is_default_logger lt = true)
    (hl : reg1.loggers = reg.loggers) : names_accepted reg1 rest := by
  obtain ⟨h1, h2⟩ := h
  constructor
  · simpa [List.filter, hd] using h1
  · intro lt' hm hnd
    rw [hl]
    exact h2 lt' (List.mem_cons_of_mem _ hm) hnd

theorem names_accepted_tail_named (reg reg1 : Registry) (lt : Table) (rest : List Table)
    (L : Logger) (h : names_accepted reg (lt :: rest)) (hd : is_default_logger lt = false)
    (hn : logger_name lt = L.name)
    (hl : reg1.loggers = reg.loggers ++ [(L.name, L)]) : names_accepted reg1 rest := by
  obtain ⟨h1, h2⟩ := h
  have h1' : (logger_name lt :: (rest.filter (fun lt => !is_default_logger lt)).map
      logger_name).Nodup := by
    simpa [List.filter, hd] using h1
  obtain ⟨hnot, hnodup⟩ := List.nodup_cons.mp h1'
  refine ⟨hnodup, ?_⟩
  intro lt' hm hnd
  rw [hl, Map.find_append, h2 lt' (List.mem_cons_of_mem _ hm) hnd]
  have hne : L.name ≠ logger_name lt' := by
    intro heq
    apply hnot
    rw [hn, heq]
    exact List.mem_map.mpr ⟨lt', List.mem_filter.mpr ⟨hm, by simp [hnd]⟩, rfl⟩
  simp [Map.find, hne]

/-- The step of the loop on a descriptor that builds. -/
theorem setup_logger_of_build (sm : Map Sink) (pm : Map String) (gp : Option String)
    (reg : Registry) (ds : Bool) (lt : Table) (L : Logger)
    (h : (build_logger sm pm gp reg lt).1 = .ok L) :
    setup_logger sm pm gp reg ds lt
      = install_logger (build_logger sm pm gp reg lt).2 ds lt L := by
  unfold setup_logger
  cases hb : build_logger sm pm gp reg lt with
  | mk res reg1 =>
    rw [hb] at h
    simp only at h
    subst h
    rfl

theorem setup_loggers_loop_succeeds (sm : Map Sink) (pm : Map String) (gp : Option String) :
    ∀ (ls : List Table) (reg : Registry) (ds : Bool),
      (∀ lt ∈ ls, logger_builds sm pm gp lt = true) → names_accepted reg ls →
      default_count ls + (if ds then 1 else 0) ≤ 1 →
      ∃ reg' ds', setup_loggers_loop sm pm gp reg ds ls = .returned (reg', ds') := by
  intro ls
  induction ls with
  | nil => intro reg ds _ _ _; exact ⟨reg, ds, rfl⟩
  | cons lt rest ih =>
    intro reg ds hv hn hc
    obtain ⟨L, hL⟩ := build_logger_of_builds sm pm gp reg lt (hv lt (List.mem_cons_self _ _))
    obtain ⟨hreg1, hreg2⟩ := build_logger_registry sm pm gp reg lt
    have hname := logger_name_of_build sm pm gp reg lt L hL
    have hv' : ∀ lt' ∈ rest, logger_builds sm pm gp lt' = true :=
      fun lt' hm => hv lt' (List.mem_cons_of_mem _ hm)
    simp only [setup_loggers_loop, setup_logger_of_build sm pm gp reg ds lt L hL,
      install_logger]
    cases hd : is_default_logger lt with
    | true =>
      have hd' : value_from_table_or_bool lt names.IS_DEFAULT false = true := hd
      have hcount : default_count (lt :: rest) = default_count rest + 1 := by
        simp [default_count, List.filter, hd]
      cases ds with
      | true => simp [hcount] at hc
      | false =>
        simp only [hd', if_true, Bool.false_eq_true, if_false]
        apply ih
        · exact hv'
        · exact names_accepted_tail_default reg _ lt rest hn hd (by simp [set_default_logger, hreg1])
        · simp [hcount] at hc; simp [hc]
    | false =>
      have hd' : value_from_table_or_bool lt names.IS_DEFAULT false = false := hd
      have hcount : default_count (lt :: rest) = default_count rest := by
        simp [default_count, List.filter, hd]
      have hfind : Map.find (build_logger sm pm gp reg lt).2.loggers L.name = none := by
        rw [hreg1, ← hname]
        exact hn.2 lt (List.mem_cons_self _ _) hd
      simp only [hd', Bool.false_eq_true, if_false, register_logger, hfind]
      apply ih
      · exact hv'
      · exact names_accepted_tail_named reg _ lt rest L hn hd hname (by simp [hreg1])
      · rw [hcount] at hc; exact hc

theorem setup_loggers_loop_duplicate_default (sm : Map Sink) (pm : Map String)
    (gp : Option String) :
    ∀ (ls : List Table) (reg : Registry) (ds : Bool),
      (∀ lt ∈ ls, logger_builds sm pm gp lt = true) → names_accepted reg ls →
      2 ≤ default_count ls + (if ds then 1 else 0) →
      ∃ st, setup_loggers_loop sm pm gp reg ds ls
        = .thrown "Default logger mustn't set more than once" st := by
  intro ls
  induction ls with
  | nil =>
    intro reg ds _ _ hc
    cases ds <;> simp [default_count] at hc
  | cons lt rest ih =>
    intro reg ds hv hn hc
    obtain ⟨L, hL⟩ := build_logger_of_builds sm pm gp reg lt (hv lt (List.mem_cons_self _ _))
    obtain ⟨hreg1, hreg2⟩ := build_logger_registry sm pm gp reg lt
    have hname := logger_name_of_build sm pm gp reg lt L hL
    have hv' : ∀ lt' ∈ rest, logger_builds sm pm gp lt' = true :=
      fun lt' hm => hv lt' (List.mem_cons_of_mem _ hm)
    simp only [setup_loggers_loop, setup_logger_of_build sm pm gp reg ds lt L hL,
      install_logger]
    cases hd : is_default_logger lt with
    | true =>
      have hd' : value_from_table_or_bool lt names.IS_DEFAULT false = true := hd
      have hcount : default_count (lt :: rest) = default_count rest + 1 := by
        simp [default_count, List.filter, hd]
      cases ds with
      | true => simp only [hd', if_true]; exact ⟨_, rfl⟩
      | false =>
        simp only [hd', if_true, Bool.false_eq_true, if_false]
        apply ih
        · exact hv'
        · exact names_accepted_tail_default reg _ lt rest hn hd (by simp [set_default_logger, hreg1])
        · simp [hcount] at hc; simp; omega
    | false =>
      have hd' : value_from_table_or_bool lt names.IS_DEFAULT false = false := hd
      have hcount : default_count (lt :: rest) = default_count rest := by
        simp [default_count, List.filter, hd]
      have hfind : Map.find (build_logger sm pm gp reg lt).2.loggers L.name = none := by
        rw [hreg1, ← hname]
        exact hn.2 lt (List.mem_cons_self _ _) hd
      simp only [hd', Bool.false_eq_true, if_false, register_logger, hfind]
      apply ih
      · exact hv'
      · exact names_accepted_tail_named reg _ lt rest L hn hd hname (by simp [hreg1])
      · rw [hcount] at hc; exact hc

theorem select_pattern_ok (pm : Map String) (config lt : Table) (name : String)
    (p : Option String)
    (h : select_pattern pm (value_from_table_opt config names.GLOBAL_PATTERN) lt name = .ok p) :
    p = effective_pattern pm config lt := by
  unfold select_pattern at h
  unfold effective_pattern
  have e1 : value_from_table_opt lt names.PATTERN = Table.get_as_string lt "pattern" := rfl
  rw [e1] at h
  cases hp : Table.get_as_string lt "pattern" with
  | none =>
    simp only [hp] at h ⊢
    exact (Except.ok.inj h).symm
  | some pn =>
    simp only [hp, find_value_from_map] at h ⊢
    cases hf : Map.find pm pn with
    | none => simp [hf] at h
    | some v => simp only [hf] at h; exact (Except.ok.inj h).symm

theorem default_entry_some (R : Table → Logger → Prop) :
    ∀ (ls : List Table) (built : List Logger), List.Forall₂ R ls built →
      1 ≤ default_count ls → ∃ d, default_entry ls built = some d := by
  intro ls built h
  induction h with
  | nil => intro hc; simp [default_count] at hc
  | @cons lt L rest built' _ _ ih =>
    intro hc
    cases hd : is_default_logger lt with
    | true => exact ⟨L, by simp [default_entry, hd]⟩
    | false =>
      have hcount : default_count (lt :: rest) = default_count rest := by
        simp [default_count, List.filter, hd]
      rw [hcount] at hc
      obtain ⟨d, hdd⟩ := ih hc
      exact ⟨d, by simp [default_entry, hd, hdd]⟩

theorem setup_loggers_impl_unfold (config : Table) (sm : Map Sink) (pm : Map String)
    (reg : Registry) (loggers : List Table)
    (hl : Table.get_table_array config names.LOGGER_TABLE = some loggers) :
    setup_loggers_impl config sm pm reg
      = match setup_loggers_loop sm pm (value_from_table_opt config names.GLOBAL_PATTERN)
          reg false loggers with
        | .thrown e st => .thrown e st.1
        | .returned st => .returned st.1 := by
  simp only [setup_loggers_impl, hl]

/-- C7.  Default-logger uniqueness: for every document that is otherwise valid (every
logger descriptor builds, and the registry accepts the names of the non-default loggers)
and whose logger array has two or more entries with `is_default = true`,
`setup_loggers_impl` throws "Default logger mustn't set more than once". -/
theorem duplicate_default_logger_rejected (config : Table) (sm : Map Sink)
    (pm : Map String) (reg : Registry) (loggers : List Table)
    (hl : Table.get_table_array config names.LOGGER_TABLE = some loggers)
    (hvalid : ∀ lt ∈ loggers,
      logger_builds sm pm (value_from_table_opt config names.GLOBAL_PATTERN) lt = true)
    (hnames : names_accepted reg loggers)
    (hdup : 2 ≤ default_count loggers) :
    ∃ reg', setup_loggers_impl config sm pm reg
      = .thrown "Default logger mustn't set more than once" reg' := by
  obtain ⟨st, hst⟩ := setup_loggers_loop_duplicate_default sm pm
    (value_from_table_opt config names.GLOBAL_PATTERN) loggers reg false hvalid hnames
    (by simpa using hdup)
  exact ⟨st.1, by rw [setup_loggers_impl_unfold config sm pm reg loggers hl, hst]⟩

/-- C8.  For every otherwise valid document with exactly one logger entry setting
`is_default = true`, `setup_loggers_impl` returns; the logger built from that entry is
installed as the default logger and gets no entry in the named registry, and the named
registry grows by one entry for each other logger, in document order. -/
theorem single_default_logger_installed (config : Table) (sm : Map Sink)
    (pm : Map String) (reg : Registry) (loggers : List Table)
    (hl : Table.get_table_array config names.LOGGER_TABLE = some loggers)
    (hvalid : ∀ lt ∈ loggers,
      logger_builds sm pm (value_from_table_opt config names.GLOBAL_PATTERN) lt = true)
    (hnames : names_accepted reg loggers)
    (hone : default_count loggers = 1) :
    ∃ (reg' : Registry) (built : List Logger) (d : Logger),
      setup_loggers_impl config sm pm reg = .returned reg'
      ∧ List.Forall₂ (fun lt L => logger_name lt = L.name ∧ ∃ r, (build_logger sm pm
          (value_from_table_opt config names.GLOBAL_PATTERN) r lt).1 = .ok L) loggers built
      ∧ default_entry loggers built = some d
      ∧ reg'.default_logger = some d
      ∧ reg'.loggers = reg.loggers ++ named_entries loggers built := by
  obtain ⟨reg', ds', hrun⟩ := setup_loggers_loop_succeeds sm pm
    (value_from_table_opt config names.GLOBAL_PATTERN) loggers reg false hvalid hnames
    (by simp [hone])
  obtain ⟨built, hb1, hb2, hb3, -⟩ := setup_loggers_loop_returned sm pm _ loggers reg false
    reg' ds' hrun
  obtain ⟨d, hd⟩ := default_entry_some _ loggers built hb1 (by omega)
  refine ⟨reg', built, d, ?_, ?_, hd, ?_, hb2⟩
  · rw [setup_loggers_impl_unfold config sm pm reg loggers hl, hrun]
  · refine hb1.imp ?_
    intro lt L ⟨r, hr⟩
    exact ⟨logger_name_of_build sm pm _ r lt L hr, r, hr⟩
  · rw [hb3, hd]

/-- C9.  Pattern precedence: every logger that the loop body of `setup_loggers_impl`
builds from a descriptor has as its pattern (the argument of `set_pattern`, `none` when
it is not called) the value of its own named pattern when the descriptor has a
`pattern` field, otherwise the document's `global_pattern`, otherwise none; and when
`setup_loggers_impl` returns, the loggers it has installed are these loggers. -/
theorem pattern_precedence (config : Table) (sm : Map Sink) (pm : Map String) :
    (∀ (r : Registry) (lt : Table) (L : Logger),
      (build_logger sm pm (value_from_table_opt config names.GLOBAL_PATTERN) r lt).1 = .ok L →
      L.pattern = effective_pattern pm config lt)
    ∧ (∀ (reg reg' : Registry) (loggers : List Table),
      Table.get_table_array config names.LOGGER_TABLE = some loggers →
      setup_loggers_impl config sm pm reg = .returned reg' →
      ∃ built : List Logger,
        List.Forall₂ (fun lt L => logger_name lt = L.name
          ∧ L.pattern = effective_pattern pm config lt) loggers built
        ∧ reg'.loggers = reg.loggers ++ named_entries loggers built
        ∧ reg'.default_logger
            = (match default_entry loggers built with
               | some L => some L
               | none => reg.default_logger)) := by
  have hbuild : ∀ (r : Registry) (lt : Table) (L : Logger),
      (build_logger sm pm (value_from_table_opt config names.GLOBAL_PATTERN) r lt).1 = .ok L →
      L.pattern = effective_pattern pm config lt := by
    intro r lt L h
    exact select_pattern_ok pm config lt L.name L.pattern (build_logger_inv sm pm _ r lt L h).2.2
  refine ⟨hbuild, ?_⟩
  intro reg reg' loggers hl hrun
  rw [setup_loggers_impl_unfold config sm pm reg loggers hl] at hrun
  cases hloop : setup_loggers_loop sm pm (value_from_table_opt config names.GLOBAL_PATTERN)
      reg false loggers with
  | thrown e st => simp [hloop] at hrun
  | returned st =>
    simp only [hloop, Outcome.returned.injEq] at hrun
    obtain ⟨r1, d1⟩ := st
    simp only at hrun
    subst hrun
    obtain ⟨built, hb1, hb2, hb3, -⟩ := setup_loggers_loop_returned sm pm _ loggers reg false
      r1 d1 hloop
    refine ⟨built, hb1.imp ?_, hb2, hb3⟩
    intro lt L ⟨r, hr⟩
    exact ⟨logger_name_of_build sm pm _ r lt L hr, hbuild r lt L hr⟩

theorem resolve_logger_sinks_missing (sm : Map Sink) (name : String) :
    ∀ (sinks : List String) (s : String), s ∈ sinks → Map.find sm s = none →
      ∃ s0 ∈ sinks, Map.find sm s0 = none
        ∧ resolve_logger_sinks sm name sinks = .error (unknown_sink_message s0 name) := by
  intro sinks
  induction sinks with
  | nil => intro s hm; simp at hm
  | cons x rest ih =>
    intro s hm hs
    cases hx : Map.find sm x with
    | none =>
      exact ⟨x, List.mem_cons_self _ _, hx,
        by simp [resolve_logger_sinks, find_value_from_map, hx, unknown_sink_message]⟩
    | some v =>
      have hm' : s ∈ rest := by
        rcases List.mem_cons.mp hm with h | h
        · rw [h, hx] at hs; simp at hs
        · exact h
      obtain ⟨s0, h0, h1, h2⟩ := ih s hm' hs
      exact ⟨s0, List.mem_cons_of_mem _ h0, h1,
        by simp [resolve_logger_sinks, find_value_from_map, hx, h2]⟩

theorem resolve_logger_sinks_ok (sm : Map Sink) (name : String) :
    ∀ (sinks : List String) (logger_sinks : List Sink),
      resolve_logger_sinks sm name sinks = .ok logger_sinks →
      sinks.map (Map.find sm) = logger_sinks.map some := by
  intro sinks
  induction sinks with
  | nil =>
    intro ls h
    simp only [resolve_logger_sinks] at h
    rw [← Except.ok.inj h]; rfl
  | cons x rest ih =>
    intro ls h
    simp only [resolve_logger_sinks, find_value_from_map] at h
    cases hx : Map.find sm x with
    | none => simp [hx] at h
    | some v =>
      simp only [hx] at h
      cases hr : resolve_logger_sinks sm name rest with
      | error e => simp [hr] at h
      | ok ls' =>
        simp only [hr] at h
        rw [← Except.ok.inj h]
        simp [hx, ih ls' hr]

theorem build_logger_unknown_sink (sm : Map Sink) (pm : Map String) (gp : Option String)
    (reg : Registry) (lt : Table) (name : String) (sinks : List String) (e : String)
    (hn : Table.get_as_string lt names.NAME = some name)
    (hs : Table.get_array_of_string lt names.SINKS = some sinks)
    (hr : resolve_logger_sinks sm name sinks = .error e) :
    build_logger sm pm gp reg lt = (.error e, reg) := by
  simp only [build_logger, value_from_table_string, hn, array_from_table_string, hs, hr]

theorem setup_loggers_loop_append (sm : Map Sink) (pm : Map String) (gp : Option String) :
    ∀ (pre post : List Table) (reg : Registry) (ds : Bool),
      setup_loggers_loop sm pm gp reg ds (pre ++ post)
        = match setup_loggers_loop sm pm gp reg ds pre with
          | .thrown e st => .thrown e st
          | .returned st => setup_loggers_loop sm pm gp st.1 st.2 post := by
  intro pre
  induction pre with
  | nil => intro post reg ds; simp [setup_loggers_loop]
  | cons lt rest ih =>
    intro post reg ds
    simp only [List.cons_append, setup_loggers_loop]
    cases hstep : setup_logger sm pm gp reg ds lt with
    | thrown e st => rfl
    | returned st =>
      obtain ⟨r1, d1⟩ := st
      simp only []
      exact ih post r1 d1

theorem setup_loggers_loop_thrown_or_returned (sm : Map Sink) (pm : Map String)
    (gp : Option String) (reg : Registry) (ds : Bool) (ls : List Table) :
    (∃ e st, setup_loggers_loop sm pm gp reg ds ls = .thrown e st)
    ∨ (∃ st, setup_loggers_loop sm pm gp reg ds ls = .returned st) := by
  cases h : setup_loggers_loop sm pm gp reg ds ls with
  | thrown e st => exact Or.inl ⟨e, st, rfl⟩
  | returned st => exact Or.inr ⟨st, rfl⟩

/-- C10.  Unknown sink reference: when a logger descriptor named `name` lists a sink
name that is not a key of the sink map, `setup_loggers_impl` throws; the loop body
throws on that descriptor with the message naming the first such sink and the logger,
and this is the exception of `setup_loggers_impl` when the descriptors before it went
through.  When every name resolves, the sinks of the built logger are the mapped sinks
in the declared order. -/
theorem unknown_sink_reference (config : Table) (sm : Map Sink) (pm : Map String)
    (reg : Registry) (pre post : List Table) (lt : Table) (name : String)
    (sinks : List String) (s : String)
    (hl : Table.get_table_array config names.LOGGER_TABLE = some (pre ++ lt :: post))
    (hn : Table.get_as_string lt names.NAME = some name)
    (hs : Table.get_array_of_string lt names.SINKS = some sinks)
    (hmem : s ∈ sinks) (hmiss : Map.find sm s = none) :
    (∃ e reg', setup_loggers_impl config sm pm reg = .thrown e reg')
    ∧ (∃ s0 ∈ sinks, Map.find sm s0 = none
        ∧ (∀ r, (build_logger sm pm (value_from_table_opt config names.GLOBAL_PATTERN) r lt).1
            = .error ("Unable to find sink '" ++ s0 ++ "' for logger '" ++ name ++ "'"))
        ∧ (∀ st, setup_loggers_loop sm pm (value_from_table_opt config names.GLOBAL_PATTERN)
              reg false pre = .returned st →
            setup_loggers_impl config sm pm reg
              = .thrown ("Unable to find sink '" ++ s0 ++ "' for logger '" ++ name ++ "'")
                  st.1))
    ∧ (∀ (r : Registry) (lt1 : Table) (L : Logger),
        (build_logger sm pm (value_from_table_opt config names.GLOBAL_PATTERN) r lt1).1
          = .ok L →
        ∃ sinks1, Table.get_array_of_string lt1 names.SINKS = some sinks1
          ∧ sinks1.map (Map.find sm) = L.sinks.map some) := by
  obtain ⟨s0, h0, h1, h2⟩ := resolve_logger_sinks_missing sm name sinks s hmem hmiss
  have hbuild : ∀ r, build_logger sm pm (value_from_table_opt config names.GLOBAL_PATTERN) r lt
      = (.error (unknown_sink_message s0 name), r) :=
    fun r => build_logger_unknown_sink sm pm _ r lt name sinks _ hn hs h2
  have hstep : ∀ r d, setup_loggers_loop sm pm
      (value_from_table_opt config names.GLOBAL_PATTERN) r d (lt :: post)
      = .thrown (unknown_sink_message s0 name) (r, d) := by
    intro r d
    simp only [setup_loggers_loop, setup_logger, hbuild r]
  have himpl := setup_loggers_impl_unfold config sm pm reg _ hl
  rw [setup_loggers_loop_append] at himpl
  refine ⟨?_, ⟨s0, h0, h1, fun r => by rw [hbuild r]; rfl, ?_⟩, ?_⟩
  · rcases setup_loggers_loop_thrown_or_returned sm pm
      (value_from_table_opt config names.GLOBAL_PATTERN) reg false pre with
      ⟨e, st, hpre⟩ | ⟨st, hpre⟩
    · rw [hpre] at himpl
      exact ⟨e, st.1, himpl⟩
    · rw [hpre] at himpl
      simp only [hstep] at himpl
      exact ⟨_, _, himpl⟩
  · intro st hpre
    rw [hpre] at himpl
    simp only [hstep] at himpl
    exact himpl
  · intro r lt1 L hL
    obtain ⟨-, ⟨sinks1, hs1, hr1⟩, -⟩ := build_logger_inv sm pm _ r lt1 L hL
    exact ⟨sinks1, hs1, resolve_logger_sinks_ok sm L.name sinks1 L.sinks hr1⟩

/-- Witness of C7: a document with the default loggers `root` and `other`. -/
theorem duplicate_default_logger_rejected_witness :
    default_count [logger_root, logger_audit, logger_second_default] = 2
    ∧ ∃ reg', setup_loggers_impl two_defaults_config example_sinks_map example_patterns_map
        empty_registry = .thrown "Default logger mustn't set more than once" reg' :=
  ⟨by decide,
   duplicate_default_logger_rejected two_defaults_config example_sinks_map
     example_patterns_map empty_registry [logger_root, logger_audit, logger_second_default]
     rfl (by decide) (by decide) (by decide)⟩

/-- Witness of C8: a document with the default logger `root` and the logger `audit`;
`root` becomes the default logger and only `audit` enters the named registry. -/
theorem single_default_logger_installed_witness :
    setup_loggers_impl one_default_config example_sinks_map example_patterns_map
        empty_registry
      = .returned { default_logger := some built_root, loggers := [("audit", built_audit)],
                    tp := none }
    ∧ ∃ (reg' : Registry) (built : List Logger) (d : Logger),
      setup_loggers_impl one_default_config example_sinks_map example_patterns_map
        empty_registry = .returned reg'
      ∧ List.Forall₂ (fun lt L => logger_name lt = L.name ∧ ∃ r, (build_logger
          example_sinks_map example_patterns_map
          (value_from_table_opt one_default_config names.GLOBAL_PATTERN) r lt).1 = .ok L)
          [logger_root, logger_audit] built
      ∧ default_entry [logger_root, logger_audit] built = some d
      ∧ reg'.default_logger = some d
      ∧ reg'.loggers
          = empty_registry.loggers ++ named_entries [logger_root, logger_audit] built :=
  ⟨rfl,
   single_default_logger_installed one_default_config example_sinks_map
     example_patterns_map empty_registry [logger_root, logger_audit]
     rfl (by decide) (by decide) (by decide)⟩

/-- Witness of C9: under the global pattern `[%l] %v`, `audit` (own pattern `brief`)
gets `%v` and `root` (no pattern field) gets the global pattern; in a document without
a global pattern `root` gets no pattern. -/
theorem pattern_precedence_witness :
    (built_audit.pattern = effective_pattern example_patterns_map one_default_config
        logger_audit
      ∧ effective_pattern example_patterns_map one_default_config logger_audit = some "%v")
    ∧ (built_root.pattern = effective_pattern example_patterns_map one_default_config
        logger_root
      ∧ effective_pattern example_patterns_map one_default_config logger_root
          = some "[%l] %v")
    ∧ (built_root_plain.pattern = effective_pattern example_patterns_map
        two_defaults_config logger_root
      ∧ effective_pattern example_patterns_map two_defaults_config logger_root = none) :=
  ⟨⟨(pattern_precedence one_default_config example_sinks_map example_patterns_map).1
      empty_registry logger_audit built_audit rfl, by decide⟩,
   ⟨(pattern_precedence one_default_config example_sinks_map example_patterns_map).1
      empty_registry logger_root built_root rfl, by decide⟩,
   ⟨(pattern_precedence two_defaults_config example_sinks_map example_patterns_map).1
      empty_registry logger_root built_root_plain rfl, by decide⟩⟩

/-- Witness of C10: the logger `net` names the sink `udp`, which the sink map lacks;
set-up throws after `audit` has been registered. -/
theorem unknown_sink_reference_witness :
    setup_loggers_impl unknown_sink_config example_sinks_map example_patterns_map
        empty_registry
      = .thrown "Unable to find sink 'udp' for logger 'net'"
          { default_logger := none, loggers := [("audit", built_audit)], tp := none }
    ∧ ∃ e reg', setup_loggers_impl unknown_sink_config example_sinks_map
        example_patterns_map empty_registry = .thrown e reg' :=
  ⟨rfl,
   (unknown_sink_reference unknown_sink_config example_sinks_map example_patterns_map
     empty_registry [logger_audit] [logger_root] logger_unknown_sink "net"
     ["console", "udp"] "udp" rfl rfl rfl (by decide) rfl).1⟩

/-! ## Theorems: adoption and missing names in the merge -/

/-- One round of the merge loop throws only the missing-name error, and throws it
exactly on an item without a name. -/
theorem merge_config_item_error (base_items : List Table) (ovr_item : Table) :
    (item_name ovr_item = none →
      merge_config_item base_items ovr_item = .error missing_name_message)
    ∧ (item_name ovr_item ≠ none → ∃ merged, merge_config_item base_items ovr_item = .ok merged)
    ∧ (∀ e, merge_config_item base_items ovr_item = .error e → e = missing_name_message) := by
  unfold merge_config_item missing_name_message
  have hin : item_name ovr_item = Table.get_as_string ovr_item names.NAME := rfl
  rw [hin]
  cases hn : Table.get_as_string ovr_item names.NAME with
  | none => simp
  | some n =>
    cases hf : find_item_by_name base_items n <;> simp [hf]

/-- The merge loop throws only the missing-name error. -/
theorem merge_config_items_loop_error :
    ∀ (ovr_items base_items : List Table) (e : String),
      merge_config_items_loop base_items ovr_items = .error e → e = missing_name_message := by
  intro ovr_items
  induction ovr_items with
  | nil => intro base_items e h; simp [merge_config_items_loop] at h
  | cons o rest ih =>
    intro base_items e h
    simp only [merge_config_items_loop] at h
    cases hstep : merge_config_item base_items o with
    | error e' =>
      simp only [hstep, Except.error.injEq] at h
      rw [← h]
      exact (merge_config_item_error base_items o).2.2 e' hstep
    | ok merged =>
      simp only [hstep] at h
      exact ih merged e h

/-- The merge loop throws when an override item has no name. -/
theorem merge_config_items_loop_nameless :
    ∀ (ovr_items base_items : List Table), (∃ o ∈ ovr_items, item_name o = none) →
      merge_config_items_loop base_items ovr_items = .error missing_name_message := by
  intro ovr_items
  induction ovr_items with
  | nil => intro base_items h; obtain ⟨o, ho, -⟩ := h; simp at ho
  | cons o rest ih =>
    intro base_items h
    simp only [merge_config_items_loop]
    cases hstep : merge_config_item base_items o with
    | error e' =>
      rw [(merge_config_item_error base_items o).2.2 e' hstep]
    | ok merged =>
      simp only []
      apply ih
      obtain ⟨o', ho', hn'⟩ := h
      rcases List.mem_cons.mp ho' with heq | hmem
      · subst heq
        rw [(merge_config_item_error base_items o').1 hn'] at hstep
        simp at hstep
      · exact ⟨o', hmem, hn'⟩

/-- What `merge_config_items` leaves alone: it throws only the missing-name error;
when it returns, every key other than the section's key and `LOGGER_TABLE` keeps its
value, and a document that had a logger array still has one. -/
theorem merge_config_items_frame (base_ref : Table) (key : String)
    (base_items ovr_items : Option (List Table)) :
    (∀ e, merge_config_items base_ref key base_items ovr_items = .error e →
      e = missing_name_message)
    ∧ (∀ r, merge_config_items base_ref key base_items ovr_items = .ok r →
        (∀ k, k ≠ key → k ≠ names.LOGGER_TABLE → Table.get r k = Table.get base_ref k)
        ∧ (Table.get_table_array base_ref names.LOGGER_TABLE ≠ none →
            Table.get_table_array r names.LOGGER_TABLE ≠ none)
        ∧ (base_items = none → key ≠ names.LOGGER_TABLE →
            Table.get r key = Table.get base_ref key)) := by
  cases base_items with
  | none =>
    cases ovr_items with
    | none =>
      refine ⟨fun e h => by simp [merge_config_items] at h, fun r h => ?_⟩
      simp only [merge_config_items, Except.ok.injEq] at h
      subst h
      exact ⟨fun _ _ _ => rfl, fun h => h, fun _ _ => rfl⟩
    | some o =>
      refine ⟨fun e h => by simp [merge_config_items] at h, fun r h => ?_⟩
      simp only [merge_config_items, Except.ok.injEq] at h
      subst h
      refine ⟨fun k _ hk => ?_, fun _ => ?_, fun _ hk => ?_⟩
      · rw [Table.get_insert]; simp [Ne.symm hk]
      · simp [Table.get_table_array, Table.get_insert]
      · rw [Table.get_insert]; simp [Ne.symm hk]
  | some b =>
    cases ovr_items with
    | none =>
      refine ⟨fun e h => by simp [merge_config_items] at h, fun r h => ?_⟩
      simp only [merge_config_items, Except.ok.injEq] at h
      subst h
      exact ⟨fun _ _ _ => rfl, fun h => h, fun _ _ => rfl⟩
    | some o =>
      cases hloop : merge_config_items_loop b o with
      | error e' =>
        refine ⟨fun e h => ?_, fun r h => by simp [merge_config_items, hloop] at h⟩
        simp only [merge_config_items, hloop, Except.error.injEq] at h
        rw [← h]
        exact merge_config_items_loop_error o b e' hloop
      | ok merged =>
        refine ⟨fun e h => by simp [merge_config_items, hloop] at h, fun r h => ?_⟩
        simp only [merge_config_items, hloop, Except.ok.injEq] at h
        subst h
        refine ⟨fun k hk _ => ?_, fun hl => ?_, fun hb => by simp at hb⟩
        · rw [Table.get_insert]; simp [Ne.symm hk]
        · by_cases hk : key = names.LOGGER_TABLE
          · simp [Table.get_table_array, Table.get_insert, hk]
          · rw [get_table_array_congr _ base_ref names.LOGGER_TABLE
              (by rw [Table.get_insert]; simp [hk])]
            exact hl


theorem merge_config_root_unfold (base ovr : Table) :
    merge_config_root (some base) (some ovr)
      = match merge_config_items base names.SINK_TABLE
          (Table.get_table_array base names.SINK_TABLE)
          (Table.get_table_array ovr names.SINK_TABLE) with
        | .error e => .error e
        | .ok base_ref1 =>
          match merge_config_items base_ref1 names.PATTERN_TABLE
              (Table.get_table_array base_ref1 names.PATTERN_TABLE)
              (Table.get_table_array ovr names.PATTERN_TABLE) with
          | .error e => .error e
          | .ok base_ref2 =>
            merge_config_items base_ref2 names.LOGGER_TABLE
              (Table.get_table_array base_ref2 names.LOGGER_TABLE)
              (Table.get_table_array ovr names.LOGGER_TABLE) := rfl

theorem merge_config_items_nameless (base_ref : Table) (key : String)
    (base_items ovr_items : List Table) (h : ∃ o ∈ ovr_items, item_name o = none) :
    merge_config_items base_ref key (some base_items) (some ovr_items)
      = .error missing_name_message := by
  simp only [merge_config_items, merge_config_items_loop_nameless ovr_items base_items h]

/-- When base has an array of one of the sections sink, pattern and logger, and some
item of the override's array of that section has no string `name`, `merge_config_root`
fails with the missing-name error. -/
theorem merge_config_root_nameless (base ovr : Table) (key : String)
    (base_items ovr_items : List Table)
    (hkey : key = names.SINK_TABLE ∨ key = names.PATTERN_TABLE ∨ key = names.LOGGER_TABLE)
    (hb : Table.get_table_array base key = some base_items)
    (ho : Table.get_table_array ovr key = some ovr_items)
    (hnameless : ∃ o ∈ ovr_items, item_name o = none) :
    merge_config_root (some base) (some ovr)
      = .error "One of the items in override does not have a name" := by
  have nsp : names.PATTERN_TABLE ≠ names.SINK_TABLE := by decide
  have npl : names.PATTERN_TABLE ≠ names.LOGGER_TABLE := by decide
  show merge_config_root (some base) (some ovr) = .error missing_name_message
  rw [merge_config_root_unfold]
  rcases hkey with rfl | rfl | rfl
  · rw [hb, ho, merge_config_items_nameless base _ base_items ovr_items hnameless]
  · cases h1 : merge_config_items base names.SINK_TABLE
        (Table.get_table_array base names.SINK_TABLE)
        (Table.get_table_array ovr names.SINK_TABLE) with
    | error e => rw [(merge_config_items_frame _ _ _ _).1 e h1]
    | ok r1 =>
      have hf := ((merge_config_items_frame _ _ _ _).2 r1 h1).1 names.PATTERN_TABLE nsp npl
      simp only []
      rw [get_table_array_congr r1 base _ hf, hb, ho,
        merge_config_items_nameless r1 _ base_items ovr_items hnameless]
  · have hbl : Table.get_table_array base names.LOGGER_TABLE ≠ none := by rw [hb]; simp
    cases h1 : merge_config_items base names.SINK_TABLE
        (Table.get_table_array base names.SINK_TABLE)
        (Table.get_table_array ovr names.SINK_TABLE) with
    | error e => rw [(merge_config_items_frame _ _ _ _).1 e h1]
    | ok r1 =>
      have hl1 := ((merge_config_items_frame _ _ _ _).2 r1 h1).2.1 hbl
      simp only []
      cases h2 : merge_config_items r1 names.PATTERN_TABLE
          (Table.get_table_array r1 names.PATTERN_TABLE)
          (Table.get_table_array ovr names.PATTERN_TABLE) with
      | error e => rw [(merge_config_items_frame _ _ _ _).1 e h2]
      | ok r2 =>
        have hl2 := ((merge_config_items_frame _ _ _ _).2 r2 h2).2.1 hl1
        obtain ⟨b2, hb2⟩ := Option.ne_none_iff_exists'.mp hl2
        simp only []
        rw [hb2, ho, merge_config_items_nameless r2 _ b2 ovr_items hnameless]

/-- C12 (counterexample).  The override's logger item has no `name`; base has no logger
array and the override no sink or pattern array, so the logger array is adopted without
a look at its items and `merge_config_root` returns a document that holds the item. -/
theorem merge_nameless_item_adopted :
    item_name [("level", .str "debug")] = none
    ∧ Table.get_table_array override_nameless_logger names.LOGGER_TABLE
        = some [[("level", .str "debug")]]
    ∧ Table.get_table_array base_only_sinks names.LOGGER_TABLE = none
    ∧ merge_config_root (some base_only_sinks) (some override_nameless_logger)
      = .ok [("sink", .tableArray
                [[("name", .str "console"), ("type", .str "stdout_sink_mt")]]),
             ("logger", .tableArray [[("level", .str "debug")]])] :=
  ⟨rfl, rfl, rfl, rfl⟩

/-- A sink or pattern array that only the override has is not stored under its own
key: after the merge the key holds what it held in base. -/
theorem adopted_section_not_stored (base ovr merged : Table) (key : String)
    (hkey : key = names.SINK_TABLE ∨ key = names.PATTERN_TABLE)
    (hb : Table.get_table_array base key = none)
    (hm : merge_config_root (some base) (some ovr) = .ok merged) :
    Table.get merged key = Table.get base key
    ∧ Table.get_table_array merged key = none := by
  have nsp : names.SINK_TABLE ≠ names.PATTERN_TABLE := by decide
  have nsl : names.SINK_TABLE ≠ names.LOGGER_TABLE := by decide
  have npl : names.PATTERN_TABLE ≠ names.LOGGER_TABLE := by decide
  rw [merge_config_root_unfold] at hm
  cases h1 : merge_config_items base names.SINK_TABLE
      (Table.get_table_array base names.SINK_TABLE)
      (Table.get_table_array ovr names.SINK_TABLE) with
  | error e => simp [h1] at hm
  | ok r1 =>
    simp only [h1] at hm
    cases h2 : merge_config_items r1 names.PATTERN_TABLE
        (Table.get_table_array r1 names.PATTERN_TABLE)
        (Table.get_table_array ovr names.PATTERN_TABLE) with
    | error e => simp [h2] at hm
    | ok r2 =>
      simp only [h2] at hm
      have f1 := (merge_config_items_frame _ _ _ _).2 r1 h1
      have f2 := (merge_config_items_frame _ _ _ _).2 r2 h2
      have f3 := (merge_config_items_frame _ _ _ _).2 merged hm
      have hget : Table.get merged key = Table.get base key := by
        rcases hkey with rfl | rfl
        · rw [f3.1 _ nsl nsl, f2.1 _ nsp nsl]
          exact f1.2.2 hb nsl
        · have e1 : Table.get r1 names.PATTERN_TABLE = Table.get base names.PATTERN_TABLE :=
            f1.1 _ nsp.symm npl
          have hb1 : Table.get_table_array r1 names.PATTERN_TABLE = none := by
            rw [get_table_array_congr r1 base _ e1]; exact hb
          rw [f3.1 _ npl npl, f2.2.2 hb1 npl, e1]
      exact ⟨hget, by rw [get_table_array_congr merged base key hget]; exact hb⟩

/-- C11.  Section adoption, evaluated at a failing input: base has no pattern array and
the override has one, yet after `merge_config_root` the merged document still has no
pattern array; the override's pattern array has been stored under the key `logger`,
where it replaced base's logger array before the logger section was merged (the
insertion at line 338 names `LOGGER_TABLE` for every section). -/
theorem merge_adopted_pattern_section_misplaced :
    Table.get_table_array base_without_patterns names.PATTERN_TABLE = none
    ∧ Table.get_table_array override_with_new_logger names.PATTERN_TABLE
        = some [[("name", .str "brief"), ("value", .str "%v")]]
    ∧ (merge_config_root (some base_without_patterns) (some override_with_new_logger)).map
        (fun merged => Table.get_table_array merged names.PATTERN_TABLE) = .ok none
    ∧ (merge_config_root (some base_without_patterns) (some override_with_new_logger)).map
        (fun merged => Table.get_table_array merged names.LOGGER_TABLE)
      = .ok (some [[("name", .str "brief"), ("value", .str "%v")],
                   [("name", .str "audit"), ("sinks", .array [.str "console"])]]) :=
  ⟨rfl, rfl, rfl, rfl⟩

/-! ## Theorems: size strings -/

theorem digit_value_digitChar (d : Nat) (h : d < 10) :
    digit_value (Nat.digitChar d) = some d ∧ isspace (Nat.digitChar d) = false
    ∧ Nat.digitChar d ≠ '-' ∧ Nat.digitChar d ≠ '+' := by
  interval_cases d <;> decide

theorem scan_digits_digits (tail : List Char) :
    ∀ (ds : List Nat) (acc count : Nat), (∀ d ∈ ds, d < 10) →
      scan_digits (ds.map Nat.digitChar ++ tail) acc count
        = scan_digits tail (decimal_value ds acc) (count + ds.length) := by
  intro ds
  induction ds with
  | nil => intro acc count _; simp [decimal_value]
  | cons d rest ih =>
    intro acc count h
    have hd := (digit_value_digitChar d (h d (List.mem_cons_self _ _))).1
    rw [List.map_cons, List.cons_append, scan_digits]
    simp only [hd]
    rw [ih _ _ (fun x hx => h x (List.mem_cons_of_mem _ hx))]
    simp only [decimal_value, List.foldl_cons, List.length_cons]
    congr 1
    omega

/-- The decimal numeral of `n` is a list of digits with value `n`. -/
theorem toDigitsCore_digits :
    ∀ (fuel n : Nat) (acc : List Char), n < fuel →
      ∃ ds : List Nat, Nat.toDigitsCore 10 fuel n acc = ds.map Nat.digitChar ++ acc
        ∧ (∀ d ∈ ds, d < 10) ∧ ds ≠ [] ∧ decimal_value ds 0 = n := by
  intro fuel
  induction fuel with
  | zero => intro n acc h; omega
  | succ fuel ih =>
    intro n acc h
    by_cases h0 : n / 10 = 0
    · refine ⟨[n % 10], ?_, ?_, by simp, ?_⟩
      · simp [Nat.toDigitsCore, h0]
      · intro d hd; simp at hd; omega
      · simp [decimal_value]; omega
    · obtain ⟨ds, h1, h2, h3, h4⟩ := ih (n / 10) (Nat.digitChar (n % 10) :: acc) (by omega)
      refine ⟨ds ++ [n % 10], ?_, ?_, by simp, ?_⟩
      · simp [Nat.toDigitsCore, h0, h1]
      · intro d hd
        rcases List.mem_append.mp hd with hd | hd
        · exact h2 d hd
        · simp at hd; omega
      · simp only [decimal_value, List.foldl_append, List.foldl_cons, List.foldl_nil] at h4 ⊢
        rw [h4]; omega

theorem toDigits_digits (n : Nat) :
    ∃ ds : List Nat, Nat.toDigits 10 n = ds.map Nat.digitChar
      ∧ (∀ d ∈ ds, d < 10) ∧ ds ≠ [] ∧ decimal_value ds 0 = n := by
  obtain ⟨ds, h1, h2, h3, h4⟩ := toDigitsCore_digits (n + 1) n [] (by omega)
  exact ⟨ds, by simpa [Nat.toDigits] using h1, h2, h3, h4⟩

/-- On digits followed by text that does not start with a digit, `stoul` returns the
value of the digits and their count. -/
theorem stoul_digits (ds : List Nat) (tail : List Char) (hne : ds ≠ [])
    (hd : ∀ d ∈ ds, d < 10) (htail : scan_digits tail (decimal_value ds 0) ds.length
      = (decimal_value ds 0, ds.length))
    (hrange : decimal_value ds 0 < 2 ^ 64) :
    stoul (String.mk (ds.map Nat.digitChar ++ tail)) = .ok (decimal_value ds 0, ds.length) := by
  obtain ⟨d, rest, rfl⟩ := List.exists_cons_of_ne_nil hne
  obtain ⟨-, hsp, hminus, hplus⟩ := digit_value_digitChar d (hd d (List.mem_cons_self _ _))
  have hscan := scan_digits_digits tail (d :: rest) 0 0 hd
  simp only [Nat.zero_add] at hscan
  rw [htail] at hscan
  have hlen : (d :: rest).length ≠ 0 := by simp
  have hr : ¬ (decimal_value (d :: rest) 0 ≥ ULONG_RANGE) := by
    unfold ULONG_RANGE; omega
  simp only [List.map_cons, List.cons_append] at hscan ⊢
  have hsign : ¬ (Nat.digitChar d = '-' ∨ Nat.digitChar d = '+') := by
    intro h; rcases h with h | h
    · exact hminus h
    · exact hplus h
  have hge : ¬ (ULONG_RANGE ≤ decimal_value (d :: rest) 0) := hr
  simp only [stoul, List.takeWhile_cons, hsp, List.dropWhile_cons, List.head?_cons,
    Option.some.injEq, hminus, hplus, or_self, if_false, List.drop_zero, hscan, hlen, hge,
    Bool.false_eq_true, List.length_nil, Nat.zero_add, ge_iff_le]


theorem substr_after (front tail : List Char) :
    substr (String.mk (front ++ tail)) front.length
      ((String.mk (front ++ tail)).length - front.length) = String.mk tail := by
  simp [substr, String.length]

/-- The unit suffixes by exponent. -/
theorem size_units_cases (c : Char) (i : Nat) (h : (c, i) ∈ size_units) :
    (i = 1 ∧ (c = 'k' ∨ c = 'K')) ∨ (i = 2 ∧ (c = 'm' ∨ c = 'M'))
    ∨ (i = 3 ∧ (c = 'g' ∨ c = 'G')) ∨ (i = 4 ∧ (c = 't' ∨ c = 'T')) := by
  simp only [size_units, List.mem_cons, Prod.mk.injEq, List.mem_singleton,
    List.not_mem_nil, or_false] at h
  tauto

/-- C13.  Size-unit parsing: for every natural number `n` written in decimal and every
suffix `k`, `m`, `g`, `t`, in lower or upper case, with exponent `i` = 1, 2, 3, 4 such
that `n * 1024 ^ i < 2 ^ 64`, `parse_max_size` of the digits followed by the suffix
returns exactly `n * 1024 ^ i`. -/
theorem parse_max_size_units (n : Nat) (c : Char) (i : Nat) (hunit : (c, i) ∈ size_units)
    (hrange : n * 1024 ^ i < 2 ^ 64) :
    parse_max_size (String.mk (Nat.toDigits 10 n ++ [c])) = .ok (n * 1024 ^ i) := by
  obtain ⟨ds, h1, h2, h3, h4⟩ := toDigits_digits n
  have hpow : 1 ≤ 1024 ^ i := Nat.one_le_pow _ _ (by decide)
  have hn : n < 2 ^ 64 := lt_of_le_of_lt (Nat.le_mul_of_pos_right n hpow) hrange
  have hcases := size_units_cases c i hunit
  have hc : digit_value c = none ∧ trim_space (String.mk [c]) = String.mk [c] := by
    rcases hcases with ⟨-, rfl | rfl⟩ | ⟨-, rfl | rfl⟩ | ⟨-, rfl | rfl⟩ | ⟨-, rfl | rfl⟩ <;>
      decide
  have hstoul : stoul (String.mk (ds.map Nat.digitChar ++ [c]))
      = .ok (decimal_value ds 0, ds.length) :=
    stoul_digits ds [c] h3 h2 (by simp [scan_digits, hc.1]) (by rw [h4]; exact hn)
  have hlen : (ds.map Nat.digitChar).length = ds.length := List.length_map _ _
  have hsub := substr_after (ds.map Nat.digitChar) [c]
  rw [hlen] at hsub
  rw [h1]
  simp only [parse_max_size, hstoul, hsub, hc.2, h4]
  rcases hcases with ⟨rfl, rfl | rfl⟩ | ⟨rfl, rfl | rfl⟩ | ⟨rfl, rfl | rfl⟩
    | ⟨rfl, rfl | rfl⟩ <;>
    simp only [UINT64_RANGE] at * <;>
    simp +decide only [if_true, if_false, or_true, true_or, or_self, or_false,
      false_or, Except.ok.injEq] <;>
    omega

/-- Witness of C13: `10k` gives 10240, `2m` gives 2097152, `1g` gives 1073741824. -/
theorem parse_max_size_units_witness :
    parse_max_size "10k" = .ok 10240 ∧ parse_max_size "2m" = .ok 2097152
    ∧ parse_max_size "1g" = .ok 1073741824 :=
  ⟨parse_max_size_units 10 'k' 1 (by decide) (by decide),
   parse_max_size_units 2 'm' 2 (by decide) (by decide),
   parse_max_size_units 1 'g' 3 (by decide) (by decide)⟩


/-- C14.  `parse_max_size` fails for every string whose text after the leading number,
trimmed of white space, is not one of `k`, `m`, `g`, `t` in lower or upper case: it
fails when `stoul` finds no number, it fails with the unit-suffix error when the trimmed
text after the number is not a unit suffix, and whenever it returns, the trimmed text
after the number is a unit suffix. -/
theorem parse_max_size_rejects (max_size_str : String) :
    (∀ what, stoul max_size_str = .error what →
      parse_max_size max_size_str
        = .error ("Unexpected exception for max size parsing on string '" ++ max_size_str
            ++ "': " ++ what))
    ∧ (∀ base_val pos, stoul max_size_str = .ok (base_val, pos) →
        trim_space (substr max_size_str pos (max_size_str.length - pos)) ∉ unit_suffixes →
        parse_max_size max_size_str
          = .error ("Unexpected exception for max size parsing on string '" ++ max_size_str
              ++ "': " ++ "Unexpected unit suffix '"
              ++ trim_space (substr max_size_str pos (max_size_str.length - pos))
              ++ "' for max size parsing"))
    ∧ (∀ v, parse_max_size max_size_str = .ok v →
        ∃ base_val pos, stoul max_size_str = .ok (base_val, pos)
          ∧ trim_space (substr max_size_str pos (max_size_str.length - pos))
              ∈ unit_suffixes) := by
  refine ⟨?_, ?_, ?_⟩
  · intro what h
    simp only [parse_max_size, h]
  · intro base_val pos h hs
    simp only [unit_suffixes, List.mem_cons, List.mem_singleton, List.not_mem_nil,
      or_false, not_or] at hs
    obtain ⟨h1, h2, h3, h4, h5, h6, h7, h8⟩ := hs
    simp only [parse_max_size, h, h1, h2, h3, h4, h5, h6, h7, h8, or_self, if_false]
  · intro v h
    cases hst : stoul max_size_str with
    | error what => simp [parse_max_size, hst] at h
    | ok r =>
      obtain ⟨base_val, pos⟩ := r
      refine ⟨base_val, pos, rfl, ?_⟩
      by_contra hs
      simp only [unit_suffixes, List.mem_cons, List.mem_singleton, List.not_mem_nil,
        or_false, not_or] at hs
      obtain ⟨h1, h2, h3, h4, h5, h6, h7, h8⟩ := hs
      simp [parse_max_size, hst, h1, h2, h3, h4, h5, h6, h7, h8] at h

/-- Witness of C14: `10x` fails, and so does the bare number `10`. -/
theorem parse_max_size_rejects_witness :
    parse_max_size "10x"
      = .error ("Unexpected exception for max size parsing on string '10x': "
          ++ "Unexpected unit suffix 'x' for max size parsing")
    ∧ parse_max_size "10"
      = .error ("Unexpected exception for max size parsing on string '10': "
          ++ "Unexpected unit suffix '' for max size parsing") :=
  ⟨(parse_max_size_rejects "10x").2.1 10 2 rfl (by decide),
   (parse_max_size_rejects "10").2.1 10 2 rfl (by decide)⟩

/-! ## Theorems: the rotation invariant of the scheduled sink -/

namespace sinks

/-- The boundary after the period of an instant is the smallest aligned boundary that
is strictly greater than the instant. -/
theorem smallest_boundary_after (utc_offset : Int) (type : scheduled_type) (c : time_point) :
    aligned_boundary utc_offset type (period_start utc_offset type c + period_ticks type)
    ∧ c < period_start utc_offset type c + period_ticks type
    ∧ ∀ b, aligned_boundary utc_offset type b → c < b →
        period_start utc_offset type c + period_ticks type ≤ b := by
  refine ⟨?_, (period_start_bounds utc_offset type c).2, ?_⟩
  · refine ⟨(c / ticks_per_second + utc_offset) / period_seconds type + 1, ?_⟩
    cases type <;>
      simp only [period_start, period_ticks, period_seconds, ticks_per_second] <;>
      (unfold time_point at *) <;> omega
  · rintro b ⟨k, rfl⟩ hlt
    cases type <;>
      simp only [period_start, period_ticks, period_seconds, ticks_per_second] at hlt ⊢ <;>
      (unfold time_point at *) <;> omega

theorem sink_it_fields (env : Env) (s s1 : scheduled_rolling_file_sink) (msg : log_msg)
    (clock_now : time_point) (h : sink_it_ env s msg clock_now = .ok s1) :
    s1.scheduled_type_ = s.scheduled_type_
    ∧ (msg.time < s.rotation_tp_ → s1.rotation_tp_ = s.rotation_tp_)
    ∧ (msg.time ≥ s.rotation_tp_ →
        s1.rotation_tp_ = next_rotation_tp_ env s.scheduled_type_ clock_now) := by
  unfold sink_it_ at h
  by_cases hge : msg.time ≥ s.rotation_tp_
  · simp only [hge, if_true] at h
    cases ho : file_helper.open env s.file_helper_
        (calc_filename s.base_filename_ (now_tm env msg.time) s.scheduled_type_)
        s.truncate_ with
    | error e => simp [ho] at h
    | ok fh =>
      simp only [ho, Except.ok.injEq] at h
      subst h
      exact ⟨rfl, fun hlt => absurd hge (not_le.mpr hlt), fun _ => rfl⟩
  · simp only [hge, if_false, Except.ok.injEq] at h
    subst h
    exact ⟨rfl, fun _ => rfl, fun h' => absurd h' hge⟩

theorem create_fields (env : Env) (files : String → List String) (base_filename : String)
    (sch : scheduled_type) (truncate : Bool) (now clock_now : time_point)
    (s : scheduled_rolling_file_sink)
    (h : scheduled_rolling_file_sink.create env files base_filename sch truncate now clock_now
      = .ok s) :
    s.scheduled_type_ = sch ∧ s.rotation_tp_ = next_rotation_tp_ env sch clock_now := by
  unfold scheduled_rolling_file_sink.create at h
  cases ho : file_helper.open env { filename_ := "", files := files }
      (calc_filename base_filename (now_tm env now) sch) truncate with
  | error e => simp [ho] at h
  | ok fh =>
    simp only [ho, Except.ok.injEq] at h
    subst h
    exact ⟨rfl, rfl⟩

/-- In a reachable state, on a host at a fixed offset, the boundary is the one after the
period of the clock reading taken when the open file was opened. -/
theorem reachable_rotation_tp (env : Env) (utc_offset : Int)
    (hzone : fixed_offset_zone env utc_offset) (s : scheduled_rolling_file_sink)
    (opened : time_point) (h : Reachable env s opened) :
    clock_in_range s.scheduled_type_ opened ∧ s.rotation_tp_
      = period_start utc_offset s.scheduled_type_ opened + period_ticks s.scheduled_type_ := by
  induction h with
  | construct files base_filename sch truncate now clock_now s hc hs =>
    obtain ⟨h1, h2⟩ := create_fields env files base_filename sch truncate now clock_now s hs
    rw [h1, h2]
    exact ⟨hc, next_rotation_tp_eq env utc_offset sch clock_now hzone hc⟩
  | write_without_rotation s s1 opened msg clock_now _ hlt hs ih =>
    obtain ⟨h1, h2, -⟩ := sink_it_fields env s s1 msg clock_now hs
    rw [h1, h2 hlt]
    exact ih
  | write_with_rotation s s1 opened msg clock_now _ hge hc hs _ =>
    obtain ⟨h1, -, h3⟩ := sink_it_fields env s s1 msg clock_now hs
    rw [h1, h3 hge]
    exact ⟨hc, next_rotation_tp_eq env utc_offset s.scheduled_type_ clock_now hzone hc⟩
  | flush s opened _ ih => exact ih

/-- C15 (as amended).  Rotation state invariant, on a host whose local time is at a
fixed UTC offset and with every reading of the clock from the epoch on and at least one
period before the end of the range of the 64-bit count of nanoseconds: in every state
of the sink reachable from construction by writes and flushes, `rotation_tp_` is
strictly greater than the reading of the clock taken when the open file was opened (in
the constructor, or in the write that last rotated), it is a boundary aligned to the
granularity, and it is the smallest aligned boundary strictly greater than that
reading. -/
theorem rotation_state_invariant (env : Env) (utc_offset : Int)
    (s : scheduled_rolling_file_sink) (opened : time_point)
    (hzone : fixed_offset_zone env utc_offset) (h : Reachable env s opened) :
    opened < s.rotation_tp_
    ∧ aligned_boundary utc_offset s.scheduled_type_ s.rotation_tp_
    ∧ ∀ b, aligned_boundary utc_offset s.scheduled_type_ b → opened < b →
        s.rotation_tp_ ≤ b := by
  obtain ⟨-, heq⟩ := reachable_rotation_tp env utc_offset hzone s opened h
  obtain ⟨h1, h2, h3⟩ := smallest_boundary_after utc_offset s.scheduled_type_ opened
  rw [heq]
  exact ⟨h2, h1, h3⟩

/-- Witness of C15 as amended: the Daily sink constructed at 2024-03-05 23:59:50 UTC. -/
theorem rotation_state_invariant_witness :
    fixed_offset_zone utc_env 0
    ∧ Reachable utc_env daily_sink_2024_03_05 t_2024_03_05_23_59_50
    ∧ t_2024_03_05_23_59_50 < daily_sink_2024_03_05.rotation_tp_
    ∧ aligned_boundary 0 .DAILY daily_sink_2024_03_05.rotation_tp_ := by
  have hr : Reachable utc_env daily_sink_2024_03_05 t_2024_03_05_23_59_50 :=
    Reachable.construct no_files "app.log" .DAILY false t_2024_03_05_23_59_50
      t_2024_03_05_23_59_50 daily_sink_2024_03_05 (by decide) rfl
  obtain ⟨h1, h2, -⟩ := rotation_state_invariant utc_env 0 daily_sink_2024_03_05
    t_2024_03_05_23_59_50 ⟨fun _ => rfl, fun _ _ => rfl⟩ hr
  exact ⟨⟨fun _ => rfl, fun _ _ => rfl⟩, hr, h1, h2⟩

/-- C15 (counterexample).  In UTC, a sink constructed exactly at the midnight 2024-03-06
00:00:00 gets the boundary 2024-03-07 00:00:00, although the midnight of construction
is itself an aligned boundary at or after the construction instant.  And a write
stamped 2024-03-06 00:00:01 that is handled when the clock reads 2024-03-07 00:00:05
opens the file of 2024-03-06 and sets the boundary 2024-03-08 00:00:00, although
2024-03-07 00:00:00 is an aligned boundary after the time stamp of the write. -/
theorem rotation_not_smallest_boundary_from_open_instant :
    (scheduled_rolling_file_sink.create utc_env no_files "app.log" .DAILY false
        t_2024_03_06_00_00_00 t_2024_03_06_00_00_00 = .ok daily_sink_2024_03_06
      ∧ aligned_boundary 0 .DAILY t_2024_03_06_00_00_00
      ∧ t_2024_03_06_00_00_00 < daily_sink_2024_03_06.rotation_tp_)
    ∧ (∃ s1, sink_it_ utc_env daily_sink_2024_03_05 ⟨t_2024_03_06_00_00_01, "early"⟩
          t_2024_03_07_00_00_05 = .ok s1
        ∧ s1.file_helper_.filename_ = "app_2024-03-06.log"
        ∧ aligned_boundary 0 .DAILY t_2024_03_07_00_00_00
        ∧ t_2024_03_06_00_00_01 ≤ t_2024_03_07_00_00_00
        ∧ t_2024_03_07_00_00_00 < s1.rotation_tp_) := by
  refine ⟨⟨rfl, ⟨19788, by decide⟩, by decide⟩, ?_⟩
  refine ⟨_, rfl, by decide, ⟨19789, by decide⟩, by decide, by decide⟩

end sinks

/-! ## Theorems: directories -/

theorem find_last_of_from_bound (c : Char) :
    ∀ (cs : List Char) (i : Nat) (last : Option Nat) (j : Nat),
      find_last_of_from c cs i last = some j → last = some j ∨ (i ≤ j ∧ j < i + cs.length) := by
  intro cs
  induction cs with
  | nil => intro i last j h; exact Or.inl h
  | cons d rest ih =>
    intro i last j h
    simp only [find_last_of_from] at h
    rcases ih (i + 1) _ j h with h1 | ⟨h1, h2⟩
    · by_cases hd : d = c
      · simp only [hd, if_true, Option.some.injEq] at h1
        right
        simp only [List.length_cons]
        omega
      · simp only [hd, if_false] at h1
        exact Or.inl h1
    · right
      simp only [List.length_cons]
      omega

/-- The parent path is shorter than a path that is not empty. -/
theorem get_parent_path_length (file_path : String) (h : file_path ≠ "") :
    (get_parent_path file_path).length < file_path.length := by
  have hpos : 0 < file_path.length := by
    rcases file_path with ⟨cs⟩
    cases cs with
    | nil => exact absurd rfl h
    | cons c rest => simp [String.length]
  unfold get_parent_path
  cases hf : find_last_of_from '/' file_path.data 0 none with
  | none => simpa using hpos
  | some j =>
    rcases find_last_of_from_bound '/' file_path.data 0 none j hf with h1 | ⟨-, h2⟩
    · simp at h1
    · simp only [substr, List.drop_zero, String.length, List.length_take]
      simp only [Nat.zero_add] at h2
      omega

/-- The recursion of `create_dirs_impl` returns within a depth of one more than the
length of the path. -/
theorem create_dirs_impl_returns (env : SetupEnv) :
    ∀ (fuel : Nat) (w : World) (dir_path : String), dir_path.length < fuel →
      ∃ r, create_dirs_impl env fuel w dir_path = some r := by
  intro fuel
  induction fuel with
  | zero => intro w p h; omega
  | succ n ih =>
    intro w p h
    unfold create_dirs_impl
    by_cases hp : p = ""
    · exact ⟨(.ok (), w), by simp [hp]⟩
    · simp only [hp, if_false]
      by_cases he : file_exists w p = true
      · exact ⟨(.ok (), w), by simp [he]⟩
      · simp only [he, Bool.not_false, if_true, Bool.false_eq_true, Bool.not_eq_true] 
        have hlt := get_parent_path_length p hp
        obtain ⟨r, hr⟩ := ih w (get_parent_path p) (by omega)
        rw [hr]
        obtain ⟨res, w1⟩ := r
        cases res with
        | error e => exact ⟨_, rfl⟩
        | ok u =>
          simp only []
          cases hn : native_create_dir env w1 p with
          | mk b w2 => cases b <;> exact ⟨_, rfl⟩

/-! ## Theorems: sink construction -/

theorem Map.find_eq_none_of_not_mem {β : Type} (m : Map β) (key : String)
    (h : key ∉ m.map Prod.fst) : Map.find m key = none := by
  induction m with
  | nil => rfl
  | cons kv rest ih =>
    obtain ⟨k, v⟩ := kv
    simp only [List.map_cons, List.mem_cons, not_or] at h
    have hk : ¬ k = key := fun h3 => h.1 h3.symm
    simp only [Map.find, hk, if_false]
    exact ih h.2

theorem Map.mem_of_find {β : Type} (m : Map β) (key : String) (v : β)
    (h : Map.find m key = some v) : (key, v) ∈ m := by
  induction m with
  | nil => simp [Map.find] at h
  | cons kv rest ih =>
    obtain ⟨k, v0⟩ := kv
    by_cases hk : k = key
    · simp only [Map.find, hk, if_true, Option.some.injEq] at h
      rw [hk, h]
      exact List.mem_cons_self _ _
    · simp only [Map.find, hk, if_false] at h
      exact List.mem_cons_of_mem _ (ih h)

theorem Map.find_of_mem {β : Type} (m : Map β) (key : String) (v : β)
    (hnodup : (m.map Prod.fst).Nodup) (h : (key, v) ∈ m) : Map.find m key = some v := by
  induction m with
  | nil => simp at h
  | cons kv rest ih =>
    obtain ⟨k, v0⟩ := kv
    simp only [List.map_cons, List.nodup_cons] at hnodup
    rcases List.mem_cons.mp h with h1 | h1
    · simp only [Prod.mk.injEq] at h1
      simp [Map.find, h1.1, h1.2]
    · have hk : ¬ k = key := by
        intro h3
        apply hnodup.1
        rw [h3]
        exact List.mem_map.mpr ⟨(key, v), h1, rfl⟩
      simp only [Map.find, hk, if_false]
      exact ih hnodup.2 h1

theorem sink_type_mapping_eq (enable_syslog : Bool) :
    sink_type_mapping enable_syslog
      = List.zip fixed_sink_type_names fixed_sink_type_variants
        ++ (if enable_syslog then [("syslog_sink", .SyslogSink)] else []) := by
  cases enable_syslog <;> decide

theorem sink_type_mapping_keys (enable_syslog : Bool) :
    (sink_type_mapping enable_syslog).map Prod.fst
      = fixed_sink_type_names ++ (if enable_syslog then ["syslog_sink"] else []) := by
  cases enable_syslog <;> decide

theorem sink_type_mapping_nodup (enable_syslog : Bool) :
    ((sink_type_mapping enable_syslog).map Prod.fst).Nodup
    ∧ ((sink_type_mapping enable_syslog).map Prod.snd).Nodup := by
  cases enable_syslog <;> decide

theorem sink_type_from_str_ok_iff (enable_syslog : Bool) (type : String) (v : sink_type) :
    sink_type_from_str enable_syslog type = .ok v ↔ (type, v) ∈ sink_type_mapping enable_syslog := by
  unfold sink_type_from_str find_value_from_map
  constructor
  · intro h
    cases hf : Map.find (sink_type_mapping enable_syslog) type with
    | none => simp [hf] at h
    | some v0 =>
      simp only [hf, Except.ok.injEq] at h
      subst h
      exact Map.mem_of_find _ _ _ hf
  · intro h
    rw [Map.find_of_mem _ _ _ (sink_type_mapping_nodup enable_syslog).1 h]

/-- C18.  Sink type dispatch: `sink_type_from_str` succeeds exactly on the twelve fixed
type names, and on `syslog_sink` when the build has syslog support; it maps each name
to its own variant (the name at a position of `fixed_sink_type_names` to the variant at
that position, different names to different variants); on every other string it fails
with a message that contains the string. -/
theorem sink_type_dispatch (enable_syslog : Bool) (type : String) :
    ((∃ v, sink_type_from_str enable_syslog type = .ok v)
        ↔ type ∈ fixed_sink_type_names ∨ (enable_syslog = true ∧ type = "syslog_sink"))
    ∧ (∀ v, sink_type_from_str enable_syslog type = .ok v
        ↔ (type, v) ∈ List.zip fixed_sink_type_names fixed_sink_type_variants
          ∨ (enable_syslog = true ∧ type = "syslog_sink" ∧ v = .SyslogSink))
    ∧ (∀ type2 v, sink_type_from_str enable_syslog type = .ok v →
        sink_type_from_str enable_syslog type2 = .ok v → type = type2)
    ∧ (type ∉ fixed_sink_type_names → ¬ (enable_syslog = true ∧ type = "syslog_sink") →
        sink_type_from_str enable_syslog type
          = .error ("Invalid sink type '" ++ type ++ "' found")) := by
  have hiff : ∀ v, sink_type_from_str enable_syslog type = .ok v
      ↔ (type, v) ∈ List.zip fixed_sink_type_names fixed_sink_type_variants
        ∨ (enable_syslog = true ∧ type = "syslog_sink" ∧ v = .SyslogSink) := by
    intro v
    rw [sink_type_from_str_ok_iff, sink_type_mapping_eq, List.mem_append]
    cases enable_syslog <;> simp
  have hkeys : type ∈ (sink_type_mapping enable_syslog).map Prod.fst
      ↔ type ∈ fixed_sink_type_names ∨ (enable_syslog = true ∧ type = "syslog_sink") := by
    rw [sink_type_mapping_keys, List.mem_append]
    cases enable_syslog <;> simp
  refine ⟨?_, hiff, ?_, ?_⟩
  · rw [← hkeys]
    constructor
    · rintro ⟨v, hv⟩
      exact List.mem_map.mpr ⟨(type, v), (sink_type_from_str_ok_iff _ _ _).mp hv, rfl⟩
    · intro h
      obtain ⟨⟨k, v⟩, hm, hk⟩ := List.mem_map.mp h
      simp only at hk
      subst hk
      exact ⟨v, (sink_type_from_str_ok_iff _ _ _).mpr hm⟩
  · intro type2 v h1 h2
    have m1 := (sink_type_from_str_ok_iff _ _ _).mp h1
    have m2 := (sink_type_from_str_ok_iff _ _ _).mp h2
    have hn := (sink_type_mapping_nodup enable_syslog).2
    have hinj := List.inj_on_of_nodup_map hn m1 m2 rfl
    exact (Prod.mk.inj hinj).1
  · intro h1 h2
    have hnot : type ∉ (sink_type_mapping enable_syslog).map Prod.fst := by
      rw [hkeys]
      exact fun h => h.elim h1 h2
    unfold sink_type_from_str find_value_from_map
    rw [Map.find_eq_none_of_not_mem _ _ hnot]

/-- Witness of C18: `scheduled_file_sink_mt` is dispatched, `syslog_sink` only in a
build with syslog support, `udp_sink` never. -/
theorem sink_type_dispatch_witness :
    sink_type_from_str false "scheduled_file_sink_mt" = .ok .ScheduledFileSinkMt
    ∧ sink_type_from_str false "syslog_sink" = .error "Invalid sink type 'syslog_sink' found"
    ∧ sink_type_from_str true "syslog_sink" = .ok .SyslogSink
    ∧ sink_type_from_str true "udp_sink" = .error "Invalid sink type 'udp_sink' found" :=
  ⟨((sink_type_dispatch false "scheduled_file_sink_mt").2.1 _).mpr (Or.inl (by decide)),
   (sink_type_dispatch false "syslog_sink").2.2.2 (by decide) (by decide),
   ((sink_type_dispatch true "syslog_sink").2.1 _).mpr (Or.inr ⟨rfl, rfl, rfl⟩),
   (sink_type_dispatch true "udp_sink").2.2.2 (by decide) (by decide)⟩

theorem scheduled_from_str_of_name (s : String) (g : sinks.scheduled_type)
    (h : (s, g) ∈ granularity_names) : scheduled_from_str s = .ok g := by
  simp only [granularity_names, List.mem_cons, Prod.mk.injEq, List.mem_singleton,
    List.not_mem_nil, or_false] at h
  rcases h with ⟨rfl, rfl⟩ | ⟨rfl, rfl⟩ | ⟨rfl, rfl⟩ <;> rfl

theorem scheduled_from_str_invalid (s : String) (h : ∀ g, (s, g) ∉ granularity_names) :
    scheduled_from_str s = .error ("Invalid scheduled_type string '" ++ s ++ "' provided") := by
  have h1 : s ≠ "daily" := fun e => h .DAILY (by simp [granularity_names, e])
  have h2 : s ≠ "hourly" := fun e => h .HOURLY (by simp [granularity_names, e])
  have h3 : s ≠ "minutely" := fun e => h .MINUTELY (by simp [granularity_names, e])
  simp only [scheduled_from_str, h1, h2, h3, if_false]

theorem sink_from_sink_type_scheduled (env : SetupEnv) (w : World) (ty : sink_type)
    (sink_table : Table) (hty : ty = .ScheduledFileSinkSt ∨ ty = .ScheduledFileSinkMt) :
    sink_from_sink_type env w ty sink_table
      = scheduled_file_sink_from_table env w ty sink_table := by
  rcases hty with rfl | rfl <;> rfl

/-- C19.  Scheduled-file sink validation: for a descriptor dispatched to the scheduled
file sink (either threading variant), construction fails with the missing-field error
when `base_filename` is not a string; once the parent directory step went through it
fails with the missing-field error when `scheduled_type` is not a string, and with the
invalid-granularity error when it is a string other than `daily`, `hourly` and
`minutely`; otherwise, when the file of the current period can be opened, the sink is
the object the constructor of the scheduled sink builds on `base_filename`: its
granularity is the Daily, Hourly or Minutely named by `scheduled_type`, it does not
truncate, it has the file of the current period open and its `rotation_tp_` is the
boundary computed for that granularity; the file exists afterwards and the clock has
been read twice.  In each of the three failing cases construction fails whatever the
directory step does. -/
theorem scheduled_file_sink_validation (env : SetupEnv) (w : World) (ty : sink_type)
    (sink_table : Table) (hty : ty = .ScheduledFileSinkSt ∨ ty = .ScheduledFileSinkMt) :
    (Table.get_as_string sink_table names.BASE_FILENAME = none →
      sink_from_sink_type env w ty sink_table
        = (.error "Missing 'base_filename' field of string value for scheduled_file_sink", w))
    ∧ (∀ base_filename w1,
        Table.get_as_string sink_table names.BASE_FILENAME = some base_filename →
        create_parent_dir_if_present env w sink_table base_filename = (.ok (), w1) →
        (Table.get_as_string sink_table names.SCHEDULED_TYPE = none →
          sink_from_sink_type env w ty sink_table
            = (.error "Missing 'scheduled_type' field of string value for scheudled_file_sink",
               w1))
        ∧ (∀ s, Table.get_as_string sink_table names.SCHEDULED_TYPE = some s →
            (∀ g, (s, g) ∉ granularity_names) →
            sink_from_sink_type env w ty sink_table
              = (.error ("Invalid scheduled_type string '" ++ s ++ "' provided"), w1))
        ∧ (∀ s g, Table.get_as_string sink_table names.SCHEDULED_TYPE = some s →
            (s, g) ∈ granularity_names →
            env.sink_env.can_open (sinks.calc_filename base_filename
              (sinks.now_tm env.sink_env (env.clock w1.clock_reads)) g) = true →
            sink_from_sink_type env w ty sink_table
              = (.ok { type := ty, filename := base_filename, level := none,
                       truncate := false, scheduled := some g,
                       open_filename := sinks.calc_filename base_filename
                         (sinks.now_tm env.sink_env (env.clock w1.clock_reads)) g,
                       rotation_tp := some (sinks.next_rotation_tp_ env.sink_env g
                         (env.clock (w1.clock_reads + 1))) },
                 { paths := sinks.calc_filename base_filename
                     (sinks.now_tm env.sink_env (env.clock w1.clock_reads)) g :: w1.paths,
                   files := w1.files, clock_reads := w1.clock_reads + 2 })))
    ∧ ((Table.get_as_string sink_table names.BASE_FILENAME = none
        ∨ Table.get_as_string sink_table names.SCHEDULED_TYPE = none
        ∨ ∃ s, Table.get_as_string sink_table names.SCHEDULED_TYPE = some s
            ∧ ∀ g, (s, g) ∉ granularity_names) →
      ∃ e w1, sink_from_sink_type env w ty sink_table = (.error e, w1)) := by
  rw [sink_from_sink_type_scheduled env w ty sink_table hty]
  refine ⟨?_, ?_, ?_⟩
  · intro hb
    simp only [scheduled_file_sink_from_table, value_from_table_string, hb]
    rfl
  · intro base_filename w1 hb hdir
    refine ⟨?_, ?_, ?_⟩
    · intro hs
      simp only [scheduled_file_sink_from_table, value_from_table_string, hb, hdir, hs]
      rfl
    · intro s hs hbad
      simp only [scheduled_file_sink_from_table, value_from_table_string, hb, hdir, hs,
        scheduled_from_str_invalid s hbad]
    · intro s g hs hg hopen
      simp only [scheduled_file_sink_from_table, value_from_table_string, hb, hdir, hs,
        scheduled_from_str_of_name s g hg, make_scheduled_file_sink,
        sinks.scheduled_rolling_file_sink.create, sinks.file_helper.open, hopen, if_true]
      rfl
  · intro hbad
    unfold scheduled_file_sink_from_table
    cases hb : Table.get_as_string sink_table names.BASE_FILENAME with
    | none =>
      simp only [value_from_table_string, hb]
      exact ⟨_, _, rfl⟩
    | some base_filename =>
      simp only [value_from_table_string, hb]
      cases hdir : create_parent_dir_if_present env w sink_table base_filename with
      | mk res w1 =>
        cases res with
        | error e => exact ⟨_, _, rfl⟩
        | ok u =>
          simp only []
          cases hs : Table.get_as_string sink_table names.SCHEDULED_TYPE with
          | none => exact ⟨_, _, rfl⟩
          | some s =>
            simp only []
            rcases hbad with h1 | h1 | ⟨s1, h1, h2⟩
            · rw [hb] at h1; simp at h1
            · rw [hs] at h1; simp at h1
            · rw [hs] at h1
              simp only [Option.some.injEq] at h1
              subst h1
              rw [scheduled_from_str_invalid s h2]
              exact ⟨_, _, rfl⟩

/-- Witness of C19: at 2024-03-05 23:59:50 UTC a `daily` descriptor is built with the
granularity Daily, the file `app_2024-03-05.log` open and the boundary 2024-03-06
00:00:00; a `weekly` descriptor is rejected. -/
theorem scheduled_file_sink_validation_witness :
    sink_from_sink_type example_setup_env empty_world .ScheduledFileSinkMt daily_sink_table
      = (.ok { type := .ScheduledFileSinkMt, filename := "app.log", level := none,
               truncate := false, scheduled := some .DAILY,
               open_filename := "app_2024-03-05.log",
               rotation_tp := some 1709683200000000000 },
         { paths := ["app_2024-03-05.log"], files := sinks.no_files, clock_reads := 2 })
    ∧ sink_from_sink_type example_setup_env empty_world .ScheduledFileSinkSt weekly_sink_table
      = (.error "Invalid scheduled_type string 'weekly' provided", empty_world) :=
  ⟨(((scheduled_file_sink_validation example_setup_env empty_world .ScheduledFileSinkMt
      daily_sink_table (Or.inr rfl)).2.1 "app.log" empty_world rfl rfl).2.2
      "daily" .DAILY rfl (by decide) rfl).trans rfl,
   ((scheduled_file_sink_validation example_setup_env empty_world .ScheduledFileSinkSt
      weekly_sink_table (Or.inl rfl)).2.1 "app.log" empty_world rfl rfl).2.1
      "weekly" rfl (fun g => by cases g <;> decide)⟩

/-! ## Theorems: pattern registry -/

theorem Map.find_emplace {β : Type} (m : Map β) (key : String) (value : β) (n : String) :
    Map.find (Map.emplace m key value) n
      = match Map.find m n with
        | some x => some x
        | none => if key = n then some value else none := by
  unfold Map.emplace
  cases hk : Map.find m key with
  | some x0 =>
    simp only []
    cases hn : Map.find m n with
    | some x => rfl
    | none =>
      by_cases hkn : key = n
      · rw [hkn, hn] at hk; simp at hk
      · simp [hkn]
  | none =>
    simp only [Map.find_append]
    cases hn : Map.find m n with
    | some x => rfl
    | none => simp [Map.find]

/-- What the loop of `setup_formats_impl` does on one entry. -/
theorem setup_formats_loop_cons (m0 : Map String) (f : Table) (rest : List Table) :
    setup_formats_loop m0 (f :: rest)
      = match Table.get_as_string f "name" with
        | none => .error "One of the formats does not have a 'name' field"
        | some name =>
          match Table.get_as_string f "value" with
          | none => .error ("Format '" ++ name ++ "' does not have 'value' field")
          | some value => setup_formats_loop (Map.emplace m0 name value) rest := by
  simp only [setup_formats_loop, value_from_table_string, names.NAME, names.VALUE]
  cases h1 : Table.get_as_string f "name" with
  | none => rfl
  | some name =>
    simp only []
    cases h2 : Table.get_as_string f "value" with
    | none =>
      simp only [String.append_assoc]
      rfl
    | some value => rfl

theorem setup_formats_loop_ok :
    ∀ (formats : List Table) (m0 : Map String), (∀ f ∈ formats, format_entry f ≠ none) →
      ∃ m, setup_formats_loop m0 formats = .ok m
        ∧ ∀ n, Map.find m n = match Map.find m0 n with
            | some v => some v
            | none => first_declared formats n := by
  intro formats
  induction formats with
  | nil =>
    intro m0 _
    refine ⟨m0, rfl, fun n => ?_⟩
    cases Map.find m0 n <;> rfl
  | cons f rest ih =>
    intro m0 hall
    have hf := hall f (List.mem_cons_self _ _)
    rw [setup_formats_loop_cons]
    unfold format_entry at hf
    cases h1 : Table.get_as_string f "name" with
    | none => simp [h1] at hf
    | some name =>
      cases h2 : Table.get_as_string f "value" with
      | none => simp [h1, h2] at hf
      | some value =>
        simp only []
        obtain ⟨m, hm, hfind⟩ := ih (Map.emplace m0 name value)
          (fun g hg => hall g (List.mem_cons_of_mem _ hg))
        refine ⟨m, hm, fun n => ?_⟩
        rw [hfind n, Map.find_emplace]
        have hfe : format_entry f = some (name, value) := by simp [format_entry, h1, h2]
        cases hn : Map.find m0 n with
        | some v => rfl
        | none =>
          simp only [first_declared, List.filterMap_cons, hfe, List.find?_cons]
          by_cases hk : name = n
          · simp [hk]
          · simp [hk]

theorem setup_formats_loop_error :
    ∀ (formats : List Table) (m0 : Map String), (∃ f ∈ formats, format_entry f = none) →
      ∃ e, setup_formats_loop m0 formats = .error e
        ∧ (e = "One of the formats does not have a 'name' field"
          ∨ ∃ n, e = "Format '" ++ n ++ "' does not have 'value' field") := by
  intro formats
  induction formats with
  | nil => rintro m0 ⟨f, hf, -⟩; simp at hf
  | cons f rest ih =>
    rintro m0 ⟨g, hg, hnone⟩
    rw [setup_formats_loop_cons]
    cases h1 : Table.get_as_string f "name" with
    | none => exact ⟨_, rfl, Or.inl rfl⟩
    | some name =>
      cases h2 : Table.get_as_string f "value" with
      | none => exact ⟨_, rfl, Or.inr ⟨name, rfl⟩⟩
      | some value =>
        simp only []
        rcases List.mem_cons.mp hg with hgf | hgr
        · rw [hgf] at hnone
          simp [format_entry, h1, h2] at hnone
        · exact ih _ ⟨g, hgr, hnone⟩

theorem first_declared_some (formats : List Table) (n v : String) (f : Table)
    (hf : f ∈ formats) (he : format_entry f = some (n, v)) :
    ∃ v1, first_declared formats n = some v1
      ∧ ∃ f1 ∈ formats, format_entry f1 = some (n, v1) := by
  unfold first_declared
  have hmem : (n, v) ∈ formats.filterMap format_entry :=
    List.mem_filterMap.mpr ⟨f, hf, he⟩
  cases hfind : (formats.filterMap format_entry).find? (fun entry => entry.1 = n) with
  | none =>
    have := List.find?_eq_none.mp hfind (n, v) hmem
    simp at this
  | some entry =>
    obtain ⟨n1, v1⟩ := entry
    have hp := List.find?_some hfind
    have hm := List.mem_of_find?_eq_some hfind
    simp only [decide_eq_true_eq] at hp
    subst hp
    obtain ⟨f1, hf1, he1⟩ := List.mem_filterMap.mp hm
    exact ⟨v1, rfl, f1, hf1, he1⟩

/-- C20.  Pattern registry: `setup_formats_impl` returns the empty map when the document
has no pattern array; it fails, with the error for the missing `name` or for the
missing `value`, when some pattern entry lacks a string `name` or a string `value`; and
otherwise it returns a map that binds every declared name to the format string declared
first under that name, so that every declared entry's name is bound to a format string
declared under that name. -/
theorem pattern_registry (config : Table) :
    (Table.get_table_array config names.PATTERN_TABLE = none →
      setup_formats_impl config = .ok [])
    ∧ (∀ formats, Table.get_table_array config names.PATTERN_TABLE = some formats →
        ((∃ f ∈ formats, format_entry f = none) →
          ∃ e, setup_formats_impl config = .error e
            ∧ (e = "One of the formats does not have a 'name' field"
              ∨ ∃ n, e = "Format '" ++ n ++ "' does not have 'value' field"))
        ∧ ((∀ f ∈ formats, format_entry f ≠ none) →
          ∃ m, setup_formats_impl config = .ok m
            ∧ (∀ n, Map.find m n = first_declared formats n)
            ∧ (∀ f ∈ formats, ∀ n v, format_entry f = some (n, v) →
                ∃ v1, Map.find m n = some v1
                  ∧ ∃ f1 ∈ formats, format_entry f1 = some (n, v1)))) := by
  refine ⟨fun h => by simp [setup_formats_impl, h], fun formats h => ⟨fun hbad => ?_, fun hall => ?_⟩⟩
  · simp only [setup_formats_impl, h]
    exact setup_formats_loop_error formats [] hbad
  · simp only [setup_formats_impl, h]
    obtain ⟨m, hm, hfind⟩ := setup_formats_loop_ok formats [] hall
    refine ⟨m, hm, fun n => by rw [hfind n]; rfl, fun f hf n v he => ?_⟩
    rw [hfind n]
    exact first_declared_some formats n v f hf he

/-- Witness of C20: a document without patterns, a document that declares `brief`
twice, and a document whose entry `long` has no value. -/
theorem pattern_registry_witness :
    setup_formats_impl base_without_patterns = .ok []
    ∧ setup_formats_impl patterns_config = .ok [("brief", "%v"), ("long", "[%l] %v")]
    ∧ (∃ m, setup_formats_impl patterns_config = .ok m
        ∧ (∀ n, Map.find m n = first_declared
            [[("name", .str "brief"), ("value", .str "%v")],
             [("name", .str "long"), ("value", .str "[%l] %v")],
             [("name", .str "brief"), ("value", .str "%n")]] n)
        ∧ ∀ f ∈ [[("name", Value.str "brief"), ("value", Value.str "%v")],
             [("name", .str "long"), ("value", .str "[%l] %v")],
             [("name", .str "brief"), ("value", .str "%n")]], ∀ n v,
            format_entry f = some (n, v) →
            ∃ v1, Map.find m n = some v1
              ∧ ∃ f1 ∈ [[("name", Value.str "brief"), ("value", Value.str "%v")],
                  [("name", .str "long"), ("value", .str "[%l] %v")],
                  [("name", .str "brief"), ("value", .str "%n")]],
                format_entry f1 = some (n, v1))
    ∧ setup_formats_impl pattern_without_value_config
        = .error "Format 'long' does not have 'value' field" :=
  ⟨(pattern_registry base_without_patterns).1 rfl, rfl,
   ((pattern_registry patterns_config).2 _ rfl).2 (by decide), rfl⟩

/-! ## Theorems: unknown pattern names and failing set-up -/

theorem select_pattern_unknown (pm : Map String) (gp : Option String) (lt : Table)
    (name p : String) (hp : Table.get_as_string lt names.PATTERN = some p)
    (hmiss : Map.find pm p = none) :
    select_pattern pm gp lt name = .error (unknown_pattern_message p name) := by
  simp only [select_pattern, value_from_table_opt, hp, find_value_from_map, hmiss,
    unknown_pattern_message]

theorem set_logger_level_ok_of_valid (lt : Table) (name : String) (l0 : Logger)
    (hlevel : ∀ level, Table.get_as_string lt names.LEVEL = some level →
      ∃ v, level_from_str level = .ok v) :
    ∃ l1, set_logger_level_if_present lt name l0 = .ok l1 := by
  unfold set_logger_level_if_present
  cases hl : Table.get_as_string lt names.LEVEL with
  | none => exact ⟨_, rfl⟩
  | some level =>
    obtain ⟨v, hv⟩ := hlevel level hl
    simp only [hv]
    exact ⟨_, rfl⟩

/-- A descriptor with an unknown pattern name is never built. -/
theorem build_logger_unknown_pattern_fails (sm : Map Sink) (pm : Map String)
    (gp : Option String) (reg : Registry) (lt : Table) (p : String)
    (hp : Table.get_as_string lt names.PATTERN = some p) (hmiss : Map.find pm p = none) :
    ∃ e, (build_logger sm pm gp reg lt).1 = .error e := by
  cases hb : (build_logger sm pm gp reg lt).1 with
  | error e => exact ⟨e, rfl⟩
  | ok L =>
    obtain ⟨-, -, h3⟩ := build_logger_inv sm pm gp reg lt L hb
    rw [select_pattern_unknown pm gp lt L.name p hp hmiss] at h3
    simp at h3

/-- A descriptor with an unknown pattern name whose earlier fields are in order makes
the loop body throw the unknown-pattern error. -/
theorem build_logger_unknown_pattern (sm : Map Sink) (pm : Map String)
    (gp : Option String) (reg : Registry) (lt : Table) (name p : String)
    (sinks : List String) (logger_sinks : List Sink)
    (hn : Table.get_as_string lt names.NAME = some name)
    (hs : Table.get_array_of_string lt names.SINKS = some sinks)
    (hr : resolve_logger_sinks sm name sinks = .ok logger_sinks)
    (hlevel : ∀ level, Table.get_as_string lt names.LEVEL = some level →
      ∃ v, level_from_str level = .ok v)
    (hp : Table.get_as_string lt names.PATTERN = some p) (hmiss : Map.find pm p = none) :
    build_logger sm pm gp reg lt
      = (.error (unknown_pattern_message p name), (make_logger reg lt name logger_sinks).2) := by
  obtain ⟨l1, hl1⟩ := set_logger_level_ok_of_valid lt name
    (make_logger reg lt name logger_sinks).1 hlevel
  simp only [build_logger, value_from_table_string, hn, array_from_table_string, hs, hr, hl1,
    select_pattern_unknown pm gp lt name p hp hmiss]

theorem setup_logger_build_error (sm : Map Sink) (pm : Map String) (gp : Option String)
    (reg : Registry) (ds : Bool) (lt : Table) (e : String)
    (h : (build_logger sm pm gp reg lt).1 = .error e) :
    setup_logger sm pm gp reg ds lt
      = .thrown e ((build_logger sm pm gp reg lt).2, ds) := by
  unfold setup_logger
  cases hb : build_logger sm pm gp reg lt with
  | mk res reg1 =>
    rw [hb] at h
    simp only at h
    subst h
    rfl

/-- C17.  Unknown pattern reference: when a logger descriptor named `name` has a
`pattern` field that is not a key of the pattern map, `setup_loggers_impl` throws,
whatever the global pattern is: the selection of the pattern throws the error naming the
pattern and the logger instead of falling back to the global pattern.  When the sinks
of the descriptor resolve and its level is valid, this is the error of the loop body on
the descriptor, and the error of `setup_loggers_impl` when the descriptors before it
went through. -/
theorem unknown_pattern_reference (config : Table) (sm : Map Sink) (pm : Map String)
    (reg : Registry) (pre post : List Table) (lt : Table) (name p : String)
    (hl : Table.get_table_array config names.LOGGER_TABLE = some (pre ++ lt :: post))
    (hn : Table.get_as_string lt names.NAME = some name)
    (hp : Table.get_as_string lt names.PATTERN = some p)
    (hmiss : Map.find pm p = none) :
    (∃ e reg', setup_loggers_impl config sm pm reg = .thrown e reg')
    ∧ (∀ gp, select_pattern pm gp lt name
        = .error ("Pattern name '" ++ p ++ "' cannot be found for logger '" ++ name ++ "'"))
    ∧ (∀ sinks logger_sinks,
        Table.get_array_of_string lt names.SINKS = some sinks →
        resolve_logger_sinks sm name sinks = .ok logger_sinks →
        (∀ level, Table.get_as_string lt names.LEVEL = some level →
          ∃ v, level_from_str level = .ok v) →
        (∀ gp r, (build_logger sm pm gp r lt).1
          = .error ("Pattern name '" ++ p ++ "' cannot be found for logger '" ++ name ++ "'"))
        ∧ (∀ st, setup_loggers_loop sm pm (value_from_table_opt config names.GLOBAL_PATTERN)
              reg false pre = .returned st →
            ∃ reg', setup_loggers_impl config sm pm reg
              = .thrown ("Pattern name '" ++ p ++ "' cannot be found for logger '" ++ name
                  ++ "'") reg')) := by
  have himpl := setup_loggers_impl_unfold config sm pm reg _ hl
  rw [setup_loggers_loop_append] at himpl
  refine ⟨?_, fun gp => select_pattern_unknown pm gp lt name p hp hmiss, ?_⟩
  · rcases setup_loggers_loop_thrown_or_returned sm pm
      (value_from_table_opt config names.GLOBAL_PATTERN) reg false pre with
      ⟨e, st, hpre⟩ | ⟨st, hpre⟩
    · rw [hpre] at himpl
      exact ⟨e, st.1, himpl⟩
    · rw [hpre] at himpl
      obtain ⟨e, he⟩ := build_logger_unknown_pattern_fails sm pm
        (value_from_table_opt config names.GLOBAL_PATTERN) st.1 lt p hp hmiss
      simp only [setup_loggers_loop, setup_logger_build_error sm pm _ st.1 st.2 lt e he]
        at himpl
      exact ⟨_, _, himpl⟩
  · intro sinks logger_sinks hs hr hlevel
    have hbuild : ∀ gp r, build_logger sm pm gp r lt
        = (.error (unknown_pattern_message p name), (make_logger r lt name logger_sinks).2) :=
      fun gp r => build_logger_unknown_pattern sm pm gp r lt name p sinks logger_sinks
        hn hs hr hlevel hp hmiss
    refine ⟨fun gp r => by rw [hbuild gp r]; rfl, fun st hpre => ?_⟩
    rw [hpre] at himpl
    have he : (build_logger sm pm (value_from_table_opt config names.GLOBAL_PATTERN) st.1 lt).1
        = .error (unknown_pattern_message p name) := by rw [hbuild]
    simp only [setup_loggers_loop, setup_logger_build_error sm pm _ st.1 st.2 lt _ he]
      at himpl
    exact ⟨_, himpl⟩

/-- Witness of C17: under the global pattern `[%l] %v` the logger `net` names the
pattern `fancy`, which the pattern map lacks; set-up throws after `audit` has been
registered. -/
theorem unknown_pattern_reference_witness :
    setup_loggers_impl unknown_pattern_config example_sinks_map example_patterns_map
        empty_registry
      = .thrown "Pattern name 'fancy' cannot be found for logger 'net'"
          { default_logger := none, loggers := [("audit", built_audit)], tp := none }
    ∧ (∃ e reg', setup_loggers_impl unknown_pattern_config example_sinks_map
        example_patterns_map empty_registry = .thrown e reg')
    ∧ select_pattern example_patterns_map (some "[%l] %v") logger_unknown_pattern "net"
        = .error "Pattern name 'fancy' cannot be found for logger 'net'" :=
  ⟨rfl,
   (unknown_pattern_reference unknown_pattern_config example_sinks_map example_patterns_map
     empty_registry [logger_audit] [logger_root] logger_unknown_pattern "net" "fancy"
     rfl rfl rfl rfl).1,
   (unknown_pattern_reference unknown_pattern_config example_sinks_map example_patterns_map
     empty_registry [logger_audit] [logger_root] logger_unknown_pattern "net" "fancy"
     rfl rfl rfl rfl).2.1 (some "[%l] %v")⟩

/-- Where the loop over the logger descriptors throws: the descriptors before the
failing one went through. -/
theorem setup_loggers_loop_thrown (sm : Map Sink) (pm : Map String) (gp : Option String) :
    ∀ (ls : List Table) (reg : Registry) (ds : Bool) (e : String) (st : Registry × Bool),
      setup_loggers_loop sm pm gp reg ds ls = .thrown e st →
      ∃ pre lt post reg1 ds1, ls = pre ++ lt :: post
        ∧ setup_loggers_loop sm pm gp reg ds pre = .returned (reg1, ds1)
        ∧ setup_logger sm pm gp reg1 ds1 lt = .thrown e st := by
  intro ls
  induction ls with
  | nil => intro reg ds e st h; simp [setup_loggers_loop] at h
  | cons lt rest ih =>
    intro reg ds e st h
    simp only [setup_loggers_loop] at h
    cases hstep : setup_logger sm pm gp reg ds lt with
    | thrown e1 st1 =>
      simp only [hstep, Outcome.thrown.injEq] at h
      obtain ⟨h1, h2⟩ := h
      subst h1 h2
      exact ⟨[], lt, rest, reg, ds, rfl, rfl, hstep⟩
    | returned st1 =>
      obtain ⟨r1, d1⟩ := st1
      simp only [hstep] at h
      obtain ⟨pre, lt1, post, reg1, ds1, h1, h2, h3⟩ := ih r1 d1 e st h
      refine ⟨lt :: pre, lt1, post, reg1, ds1, by rw [h1]; rfl, ?_, h3⟩
      simp only [setup_loggers_loop, hstep]
      exact h2

/-- A loop body that throws leaves the default logger and the named loggers of the
registry as they were. -/
theorem setup_logger_thrown (sm : Map Sink) (pm : Map String) (gp : Option String)
    (reg : Registry) (ds : Bool) (lt : Table) (e : String) (st : Registry × Bool)
    (h : setup_logger sm pm gp reg ds lt = .thrown e st) :
    st.1.default_logger = reg.default_logger ∧ st.1.loggers = reg.loggers ∧ st.2 = ds := by
  obtain ⟨b1, b2⟩ := build_logger_registry sm pm gp reg lt
  unfold setup_logger at h
  cases hb : build_logger sm pm gp reg lt with
  | mk res reg1 =>
    rw [hb] at h b1 b2
    simp only at b1 b2
    cases res with
    | error e1 =>
      simp only [Outcome.thrown.injEq] at h
      rw [← h.2]
      exact ⟨b2, b1, rfl⟩
    | ok logger =>
      simp only [install_logger] at h
      by_cases hd : value_from_table_or_bool lt names.IS_DEFAULT false = true
      · simp only [hd, if_true] at h
        by_cases hds : ds = true
        · simp only [hds, if_true, Outcome.thrown.injEq] at h
          rw [← h.2]
          exact ⟨b2, b1, hds.symm⟩
        · simp [hds] at h
      · have hd2 : value_from_table_or_bool lt names.IS_DEFAULT false = false := by
          simpa using hd
        simp only [hd2, Bool.false_eq_true, if_false] at h
        cases hr : register_logger reg1 logger with
        | error e1 =>
          simp only [hr, Outcome.thrown.injEq] at h
          rw [← h.2]
          exact ⟨b2, b1, rfl⟩
        | ok reg2 => simp [hr] at h

/-- C16 (as amended).  A failing `setup_impl` rolls nothing back.  When it fails in the
sink stage, in the pattern stage or because the document has no logger array, the
registry is as it was before.  When it fails at a logger descriptor, the descriptors
before that one went through, and the default logger and the named loggers of the
registry are the ones they left: their loggers stay installed and registered. -/
theorem setup_failure_registry (env : SetupEnv) (config : Table) (w : World)
    (reg : Registry) (e : String) (st : Registry × World)
    (h : setup_impl env config w reg = .thrown e st) :
    ((setup_sinks_impl env w config).1 = .error e ∧ st.1 = reg)
    ∨ (setup_formats_impl config = .error e ∧ st.1 = reg)
    ∨ (Table.get_table_array config names.LOGGER_TABLE = none ∧ st.1 = reg)
    ∨ ∃ sinks_map patterns_map pre lt post reg1 ds,
        (setup_sinks_impl env w config).1 = .ok sinks_map
        ∧ setup_formats_impl config = .ok patterns_map
        ∧ Table.get_table_array config names.LOGGER_TABLE = some (pre ++ lt :: post)
        ∧ setup_loggers_loop sinks_map patterns_map
            (value_from_table_opt config names.GLOBAL_PATTERN) reg false pre
            = .returned (reg1, ds)
        ∧ setup_logger sinks_map patterns_map
            (value_from_table_opt config names.GLOBAL_PATTERN) reg1 ds lt
            = .thrown e (st.1, ds)
        ∧ st.1.default_logger = reg1.default_logger
        ∧ st.1.loggers = reg1.loggers := by
  unfold setup_impl at h
  cases hs : setup_sinks_impl env w config with
  | mk res w1 =>
    rw [hs] at h
    cases res with
    | error e1 =>
      simp only [Outcome.thrown.injEq] at h
      left
      rw [← h.1, ← h.2]
      exact ⟨rfl, rfl⟩
    | ok sinks_map =>
      simp only at h
      right
      cases hf : setup_formats_impl config with
      | error e1 =>
        simp only [hf, Outcome.thrown.injEq] at h
        left
        rw [← h.1, ← h.2]
        exact ⟨rfl, rfl⟩
      | ok patterns_map =>
        simp only [hf] at h
        right
        cases hl : Table.get_table_array config names.LOGGER_TABLE with
        | none =>
          simp only [setup_loggers_impl, hl, Outcome.thrown.injEq] at h
          left
          rw [← h.2]
          exact ⟨rfl, rfl⟩
        | some loggers =>
          right
          rw [setup_loggers_impl_unfold config sinks_map patterns_map reg loggers hl] at h
          cases hloop : setup_loggers_loop sinks_map patterns_map
              (value_from_table_opt config names.GLOBAL_PATTERN) reg false loggers with
          | returned st1 => simp [hloop] at h
          | thrown e1 st1 =>
            simp only [hloop, Outcome.thrown.injEq] at h
            obtain ⟨h1, h2⟩ := h
            subst h1
            obtain ⟨pre, lt, post, reg1, ds1, k1, k2, k3⟩ :=
              setup_loggers_loop_thrown sinks_map patterns_map _ loggers reg false e1 st1 hloop
            obtain ⟨t1, t2, t3⟩ := setup_logger_thrown sinks_map patterns_map _ reg1 ds1 lt
              e1 st1 k3
            have hst : st.1 = st1.1 := by rw [← h2]
            refine ⟨sinks_map, patterns_map, pre, lt, post, reg1, ds1, rfl, rfl, ?_, k2, ?_,
              ?_, ?_⟩
            · rw [k1]
            · rw [k3, hst, ← t3]
            · rw [hst, t1]
            · rw [hst, t2]

/-- C16 (counterexample).  On a document whose third logger names an undeclared sink
`setup_impl` fails, and the registry it leaves has the first logger installed as the
default logger and the second registered under `audit`. -/
theorem setup_partial_registration :
    setup_impl example_setup_env partial_setup_config empty_world empty_registry
      = .thrown "Unable to find sink 'udp' for logger 'net'"
          (registry_after_partial_setup, world_with_app_log)
    ∧ registry_after_partial_setup.default_logger = some built_root_plain
    ∧ Map.find registry_after_partial_setup.loggers "audit" = some built_audit :=
  ⟨rfl, rfl, rfl⟩

/-- Witness of C16: the failing run on `partial_setup_config`; the descriptors `root`
and `audit` went through before `net` failed. -/
theorem setup_failure_registry_witness :
    setup_impl example_setup_env partial_setup_config empty_world empty_registry
      = .thrown "Unable to find sink 'udp' for logger 'net'"
          (registry_after_partial_setup, world_with_app_log)
    ∧ (((setup_sinks_impl example_setup_env empty_world partial_setup_config).1
          = .error "Unable to find sink 'udp' for logger 'net'"
        ∧ registry_after_partial_setup = empty_registry)
      ∨ (setup_formats_impl partial_setup_config
          = .error "Unable to find sink 'udp' for logger 'net'"
        ∧ registry_after_partial_setup = empty_registry)
      ∨ (Table.get_table_array partial_setup_config names.LOGGER_TABLE = none
        ∧ registry_after_partial_setup = empty_registry)
      ∨ ∃ sinks_map patterns_map pre lt post reg1 ds,
          (setup_sinks_impl example_setup_env empty_world partial_setup_config).1
            = .ok sinks_map
          ∧ setup_formats_impl partial_setup_config = .ok patterns_map
          ∧ Table.get_table_array partial_setup_config names.LOGGER_TABLE
              = some (pre ++ lt :: post)
          ∧ setup_loggers_loop sinks_map patterns_map
              (value_from_table_opt partial_setup_config names.GLOBAL_PATTERN)
              empty_registry false pre = .returned (reg1, ds)
          ∧ setup_logger sinks_map patterns_map
              (value_from_table_opt partial_setup_config names.GLOBAL_PATTERN) reg1 ds lt
              = .thrown "Unable to find sink 'udp' for logger 'net'"
                  (registry_after_partial_setup, ds)
          ∧ registry_after_partial_setup.default_logger = reg1.default_logger
          ∧ registry_after_partial_setup.loggers = reg1.loggers) :=
  ⟨rfl,
   setup_failure_registry example_setup_env partial_setup_config empty_world
     empty_registry "Unable to find sink 'udp' for logger 'net'"
     (registry_after_partial_setup, world_with_app_log) rfl⟩

/-! ## Theorems: level names, sink levels and logger defaults -/

theorem level_from_str_of_name (s : String) (l : level_enum) (h : (s, l) ∈ level_names) :
    level_from_str s = .ok l := by
  simp only [level_names, List.mem_cons, Prod.mk.injEq, List.mem_singleton,
    List.not_mem_nil, or_false] at h
  rcases h with h | h | h | h | h | h | h <;> (obtain ⟨rfl, rfl⟩ := h; rfl)

theorem level_from_str_invalid (s : String) (h : ∀ l, (s, l) ∉ level_names) :
    level_from_str s = .error ("Invalid level string '" ++ s ++ "' provided") := by
  have h1 : s ≠ "trace" := fun e => h .trace (by simp [level_names, e])
  have h2 : s ≠ "debug" := fun e => h .debug (by simp [level_names, e])
  have h3 : s ≠ "info" := fun e => h .info (by simp [level_names, e])
  have h4 : s ≠ "warn" := fun e => h .warn (by simp [level_names, e])
  have h5 : s ≠ "error" := fun e => h .err (by simp [level_names, e])
  have h6 : s ≠ "critical" := fun e => h .critical (by simp [level_names, e])
  have h7 : s ≠ "off" := fun e => h .off (by simp [level_names, e])
  simp only [level_from_str, h1, h2, h3, h4, h5, h6, h7, if_false]

theorem level_from_str_ok_iff (s : String) (l : level_enum) :
    level_from_str s = .ok l ↔ (s, l) ∈ level_names := by
  constructor
  · intro h
    by_cases hs : ∃ l1, (s, l1) ∈ level_names
    · obtain ⟨l1, hl1⟩ := hs
      have := level_from_str_of_name s l1 hl1
      rw [h] at this
      rw [Except.ok.inj this]
      exact hl1
    · have hn : ∀ l1, (s, l1) ∉ level_names := fun l1 h1 => hs ⟨l1, h1⟩
      rw [level_from_str_invalid s hn] at h
      simp at h
  · exact level_from_str_of_name s l

theorem level_to_str_name (l : level_enum) :
    ∃ s, level_to_str l = .ok s ∧ (s, l) ∈ level_names := by
  cases l
  · exact ⟨"trace", rfl, by decide⟩
  · exact ⟨"debug", rfl, by decide⟩
  · exact ⟨"info", rfl, by decide⟩
  · exact ⟨"warn", rfl, by decide⟩
  · exact ⟨"error", rfl, by decide⟩
  · exact ⟨"critical", rfl, by decide⟩
  · exact ⟨"off", rfl, by decide⟩

theorem level_names_functional (s1 s2 : String) (l : level_enum)
    (h1 : (s1, l) ∈ level_names) (h2 : (s2, l) ∈ level_names) : s1 = s2 := by
  have hn : (level_names.map Prod.snd).Nodup := by decide
  exact (Prod.mk.inj (List.inj_on_of_nodup_map hn h1 h2 rfl)).1

/-- C30.  Level names round-trip: every level is written by `level_to_str` as a string
that `level_from_str` reads back as that level; every string `level_from_str` accepts is
what `level_to_str` writes for the level read; `level_from_str` accepts exactly `trace`,
`debug`, `info`, `warn`, `error`, `critical` and `off`, and fails with the invalid-level
error on every other string. -/
theorem level_names_round_trip :
    (∀ l : level_enum, ∃ s, level_to_str l = .ok s ∧ level_from_str s = .ok l)
    ∧ (∀ (s : String) (l : level_enum), level_from_str s = .ok l → level_to_str l = .ok s)
    ∧ (∀ s : String, (∃ l, level_from_str s = .ok l)
        ↔ s ∈ ["trace", "debug", "info", "warn", "error", "critical", "off"])
    ∧ (∀ s : String, s ∉ ["trace", "debug", "info", "warn", "error", "critical", "off"] →
        level_from_str s = .error ("Invalid level string '" ++ s ++ "' provided")) := by
  have hkeys : ∀ s : String, (∃ l, (s, l) ∈ level_names)
      ↔ s ∈ ["trace", "debug", "info", "warn", "error", "critical", "off"] := by
    intro s
    have hk : level_names.map Prod.fst
        = ["trace", "debug", "info", "warn", "error", "critical", "off"] := by decide
    rw [← hk, List.mem_map]
    constructor
    · rintro ⟨l, hl⟩; exact ⟨(s, l), hl, rfl⟩
    · rintro ⟨⟨s1, l⟩, hl, rfl⟩; exact ⟨l, hl⟩
  refine ⟨fun l => ?_, fun s l h => ?_, fun s => ?_, fun s hs => ?_⟩
  · obtain ⟨s, h1, h2⟩ := level_to_str_name l
    exact ⟨s, h1, level_from_str_of_name s l h2⟩
  · obtain ⟨s1, h1, h2⟩ := level_to_str_name l
    rw [h1, level_names_functional s1 s l h2 ((level_from_str_ok_iff s l).mp h)]
  · rw [← hkeys]
    constructor
    · rintro ⟨l, hl⟩; exact ⟨l, (level_from_str_ok_iff s l).mp hl⟩
    · rintro ⟨l, hl⟩; exact ⟨l, (level_from_str_ok_iff s l).mpr hl⟩
  · exact level_from_str_invalid s (fun l hl => hs ((hkeys s).mp ⟨l, hl⟩))

theorem basic_file_sink_level (env : SetupEnv) (w w1 : World) (ty : sink_type)
    (sink_table : Table) (sink : Sink)
    (h : basic_file_sink_from_table env w ty sink_table = (.ok sink, w1)) :
    sink.level = none := by
  unfold basic_file_sink_from_table at h
  repeat' (first | split at h | (dsimp only at h; split at h))
  all_goals first
    | (simp only [Prod.mk.injEq, Except.ok.injEq, reduceCtorEq, false_and] at h; done)
    | (simp only [Prod.mk.injEq, Except.ok.injEq] at h; rw [← h.1])

theorem rotating_file_sink_level (env : SetupEnv) (w w1 : World) (ty : sink_type)
    (sink_table : Table) (sink : Sink)
    (h : rotating_file_sink_from_table env w ty sink_table = (.ok sink, w1)) :
    sink.level = none := by
  unfold rotating_file_sink_from_table at h
  repeat' split at h
  all_goals first
    | (simp only [Prod.mk.injEq, Except.ok.injEq, reduceCtorEq, false_and] at h; done)
    | (simp only [Prod.mk.injEq, Except.ok.injEq] at h; rw [← h.1])

theorem scheduled_file_sink_level (env : SetupEnv) (w w1 : World) (ty : sink_type)
    (sink_table : Table) (sink : Sink)
    (h : scheduled_file_sink_from_table env w ty sink_table = (.ok sink, w1)) :
    sink.level = none := by
  unfold scheduled_file_sink_from_table make_scheduled_file_sink at h
  repeat' split at h
  all_goals first
    | (simp only [Prod.mk.injEq, Except.ok.injEq, reduceCtorEq, false_and] at h; done)
    | (simp only [Prod.mk.injEq, Except.ok.injEq] at h; rw [← h.1])

theorem syslog_sink_level (sink_table : Table) (sink : Sink)
    (h : syslog_sink_from_table sink_table = .ok sink) : sink.level = none := by
  unfold syslog_sink_from_table at h
  repeat' split at h
  all_goals first
    | (simp only [Except.ok.injEq, reduceCtorEq] at h; done)
    | (simp only [Except.ok.injEq] at h; rw [← h])

/-- Every sink is constructed without a level set on it. -/
theorem sink_from_sink_type_level (env : SetupEnv) (w w1 : World) (sink_val : sink_type)
    (sink_table : Table) (sink : Sink)
    (h : sink_from_sink_type env w sink_val sink_table = (.ok sink, w1)) :
    sink.level = none := by
  cases sink_val <;> simp only [sink_from_sink_type] at h
  case StdoutSinkSt => simp only [Prod.mk.injEq, Except.ok.injEq] at h; rw [← h.1]
  case StdoutSinkMt => simp only [Prod.mk.injEq, Except.ok.injEq] at h; rw [← h.1]
  case ColorStdoutSinkSt => simp only [Prod.mk.injEq, Except.ok.injEq] at h; rw [← h.1]
  case ColorStdoutSinkMt => simp only [Prod.mk.injEq, Except.ok.injEq] at h; rw [← h.1]
  case NullSinkSt => simp only [Prod.mk.injEq, Except.ok.injEq] at h; rw [← h.1]
  case NullSinkMt => simp only [Prod.mk.injEq, Except.ok.injEq] at h; rw [← h.1]
  case BasicFileSinkSt => exact basic_file_sink_level env w w1 _ sink_table sink h
  case BasicFileSinkMt => exact basic_file_sink_level env w w1 _ sink_table sink h
  case RotatingFileSinkSt => exact rotating_file_sink_level env w w1 _ sink_table sink h
  case RotatingFileSinkMt => exact rotating_file_sink_level env w w1 _ sink_table sink h
  case ScheduledFileSinkSt => exact scheduled_file_sink_level env w w1 _ sink_table sink h
  case ScheduledFileSinkMt => exact scheduled_file_sink_level env w w1 _ sink_table sink h
  case SyslogSink =>
    by_cases hs : env.enable_syslog = true
    · simp only [hs, if_true, Prod.mk.injEq] at h
      exact syslog_sink_level sink_table sink h.1
    · simp [hs] at h

/-- C21.  Per-sink level: whatever the sink type, once the sink has been constructed
`sink_from_table` applies the `level` field in the same way.  The sink is constructed
without a level set on it; when `level` is absent (or not a string) the sink is returned
as constructed; when `level` is one of the seven level names the sink is returned with
the matching level set; when `level` is any other string construction fails with the
invalid-level error. -/
theorem per_sink_level (env : SetupEnv) (w w1 : World) (sink_table : Table)
    (type_val : String) (sink_val : sink_type) (sink : Sink)
    (htype : Table.get_as_string sink_table names.TYPE = some type_val)
    (hval : sink_type_from_str env.enable_syslog type_val = .ok sink_val)
    (hsink : sink_from_sink_type env w sink_val sink_table = (.ok sink, w1)) :
    sink.level = none
    ∧ (Table.get_as_string sink_table names.LEVEL = none →
        sink_from_table env w sink_table = (.ok sink, w1))
    ∧ (∀ level l, Table.get_as_string sink_table names.LEVEL = some level →
        (level, l) ∈ level_names →
        sink_from_table env w sink_table = (.ok { sink with level := some l }, w1))
    ∧ (∀ level, Table.get_as_string sink_table names.LEVEL = some level →
        (∀ l, (level, l) ∉ level_names) →
        sink_from_table env w sink_table
          = (.error ("Invalid level string '" ++ level ++ "' provided"), w1)) := by
  have hrun : sink_from_table env w sink_table
      = (set_sink_level_if_present sink_table sink, w1) := by
    simp only [sink_from_table, value_from_table_string, htype, hval, hsink]
  refine ⟨sink_from_sink_type_level env w w1 sink_val sink_table sink hsink, ?_, ?_, ?_⟩
  · intro hl
    rw [hrun]
    simp only [set_sink_level_if_present, hl]
  · intro level l hl hmem
    rw [hrun]
    simp only [set_sink_level_if_present, hl, level_from_str_of_name level l hmem]
  · intro level hl hbad
    rw [hrun]
    simp only [set_sink_level_if_present, hl, level_from_str_invalid level hbad]

/-- Witness of C21: a console sink without a level, with the level `debug` and with the
level `verbose`. -/
theorem per_sink_level_witness :
    sink_from_table example_setup_env empty_world console_plain_table
      = (.ok { type := .StdoutSinkMt, filename := "", level := none }, empty_world)
    ∧ sink_from_table example_setup_env empty_world console_debug_table
      = (.ok { type := .StdoutSinkMt, filename := "", level := some .debug }, empty_world)
    ∧ sink_from_table example_setup_env empty_world console_verbose_table
      = (.error "Invalid level string 'verbose' provided", empty_world) :=
  ⟨(per_sink_level example_setup_env empty_world empty_world console_plain_table
      "stdout_sink_mt" .StdoutSinkMt _ rfl rfl rfl).2.1 rfl,
   (per_sink_level example_setup_env empty_world empty_world console_debug_table
      "stdout_sink_mt" .StdoutSinkMt _ rfl rfl rfl).2.2.1 "debug" .debug rfl (by decide),
   (per_sink_level example_setup_env empty_world empty_world console_verbose_table
      "stdout_sink_mt" .StdoutSinkMt _ rfl rfl rfl).2.2.2 "verbose" rfl
      (fun l => by cases l <;> decide)⟩

/-- C22.  Logger defaults: a logger descriptor with a name and a list of sinks that all
resolve, and without the fields `is_async`, `level`, `pattern`, `flush_level` and
`is_default`, in a document without a global pattern, is built as a synchronous logger
with no level and no pattern applied and the flush level `warn`; the loop body hands it
to `register_logger` and does not install it as the default logger, so that it enters
the named registry when its name is free. -/
theorem logger_defaults (sm : Map Sink) (pm : Map String) (reg : Registry)
    (default_set : Bool) (lt : Table) (name : String) (sinks : List String)
    (logger_sinks : List Sink)
    (hn : Table.get_as_string lt names.NAME = some name)
    (hs : Table.get_array_of_string lt names.SINKS = some sinks)
    (hr : resolve_logger_sinks sm name sinks = .ok logger_sinks)
    (hasync : Table.get lt names.IS_ASYNC = none)
    (hlevel : Table.get lt names.LEVEL = none)
    (hpattern : Table.get lt names.PATTERN = none)
    (hflush : Table.get lt names.FLUSH_LEVEL = none)
    (hdefault : Table.get lt names.IS_DEFAULT = none) :
    build_logger sm pm none reg lt
      = (.ok (plain_logger name logger_sinks), reg)
    ∧ setup_logger sm pm none reg default_set lt
      = (match register_logger reg (plain_logger name logger_sinks) with
         | .error e => .thrown e (reg, default_set)
         | .ok reg1 => .returned (reg1, default_set))
    ∧ (Map.find reg.loggers name = none →
        setup_logger sm pm none reg default_set lt
          = .returned ({ reg with loggers := reg.loggers ++ [(name, plain_logger name logger_sinks)] }, default_set)) := by
  have h1 : Table.get_as_bool lt names.IS_ASYNC = none := by
    simp only [Table.get_as_bool, hasync]
  have h2 : Table.get_as_string lt names.LEVEL = none := by
    simp only [Table.get_as_string, hlevel]
  have h3 : Table.get_as_string lt names.PATTERN = none := by
    simp only [Table.get_as_string, hpattern]
  have h4 : Table.get_as_string lt names.FLUSH_LEVEL = none := by
    simp only [Table.get_as_string, hflush]
  have h5 : Table.get_as_bool lt names.IS_DEFAULT = none := by
    simp only [Table.get_as_bool, hdefault]
  have hbuild : build_logger sm pm none reg lt
      = (.ok (plain_logger name logger_sinks), reg) := by
    simp only [build_logger, value_from_table_string, hn, array_from_table_string, hs, hr,
      make_logger, value_from_table_or_bool, h1, set_logger_level_if_present, h2,
      select_pattern, value_from_table_opt, h3, apply_pattern, value_from_table_or_string, h4]
    rfl
  have hstep : setup_logger sm pm none reg default_set lt
      = (match register_logger reg (plain_logger name logger_sinks) with
         | .error e => .thrown e (reg, default_set)
         | .ok reg1 => .returned (reg1, default_set)) := by
    simp only [setup_logger, hbuild, install_logger, value_from_table_or_bool, h5]
    rfl
  refine ⟨hbuild, hstep, fun hfree => ?_⟩
  rw [hstep]
  have hname : (plain_logger name logger_sinks).name = name := rfl
  simp only [register_logger, hname, hfree]

/-- Witness of C22: the descriptor `plain` with the sinks `console` and `file`. -/
theorem logger_defaults_witness :
    build_logger example_sinks_map example_patterns_map none empty_registry logger_plain
      = (.ok built_plain, empty_registry)
    ∧ setup_logger example_sinks_map example_patterns_map none empty_registry false
        logger_plain
      = .returned ({ default_logger := none, loggers := [("plain", built_plain)],
                     tp := none }, false) :=
  ⟨(logger_defaults example_sinks_map example_patterns_map empty_registry false logger_plain
      "plain" ["console", "file"] [console_sink, file_sink] rfl rfl rfl rfl rfl rfl rfl
      rfl).1,
   (logger_defaults example_sinks_map example_patterns_map empty_registry false logger_plain
      "plain" ["console", "file"] [console_sink, file_sink] rfl rfl rfl rfl rfl rfl rfl
      rfl).2.2 rfl⟩

/-! ## Theorems: flush of the scheduled sink, file names of different periods -/

namespace sinks

/-- C23.  Flush does not rotate: for every state of the sink, `flush_` leaves the base
file name, the granularity, the truncate flag, the name of the open file and
`rotation_tp_` unchanged.  It does not read the clock, so this holds whatever the
current time is, also past `rotation_tp_`; it leaves the records in the files alone,
and a write after the flush behaves as the write without it. -/
theorem flush_does_not_rotate (env : Env) (s : scheduled_rolling_file_sink) :
    (flush_ s).base_filename_ = s.base_filename_
    ∧ (flush_ s).scheduled_type_ = s.scheduled_type_
    ∧ (flush_ s).truncate_ = s.truncate_
    ∧ (flush_ s).file_helper_.filename_ = s.file_helper_.filename_
    ∧ (flush_ s).rotation_tp_ = s.rotation_tp_
    ∧ (flush_ s).file_helper_.files = s.file_helper_.files
    ∧ (∀ (msg : log_msg) (clock_now : time_point),
        sink_it_ env (flush_ s) msg clock_now = sink_it_ env s msg clock_now) :=
  ⟨rfl, rfl, rfl, rfl, rfl, rfl, fun _ _ => rfl⟩

theorem decimal_value_zeros (k : Nat) : decimal_value (List.replicate k 0) 0 = 0 := by
  induction k with
  | zero => rfl
  | succ k ih =>
    simp only [List.replicate_succ, decimal_value, List.foldl_cons] at ih ⊢
    exact ih

/-- The digits of a zero-padded numeral have the value of the number. -/
theorem scan_digits_zero_padded (width n : Nat) :
    (scan_digits (zero_padded width n).data 0 0).1 = n := by
  obtain ⟨ds, h1, h2, -, h4⟩ := toDigits_digits n
  simp only [zero_padded]
  generalize width - (Nat.toDigits 10 n).length = k
  have hz : List.replicate k '0' = (List.replicate k 0).map Nat.digitChar := by
    rw [List.map_replicate]; rfl
  have hall : ∀ d ∈ List.replicate k 0 ++ ds, d < 10 := by
    intro d hd
    rcases List.mem_append.mp hd with h | h
    · rw [List.eq_of_mem_replicate h]; decide
    · exact h2 d h
  have hscan := scan_digits_digits [] _ 0 0 hall
  rw [hz, h1, ← List.map_append, ← List.append_nil (List.map _ _), hscan]
  simp only [scan_digits, decimal_value, List.foldl_append]
  have hzero := decimal_value_zeros k
  simp only [decimal_value] at hzero h4
  rw [hzero, h4]

theorem zero_padded_inj (width n1 n2 : Nat) (h : zero_padded width n1 = zero_padded width n2) :
    n1 = n2 := by
  rw [← scan_digits_zero_padded width n1, ← scan_digits_zero_padded width n2, h]

/-- The rendering of a field that is not negative determines the field. -/
theorem format_0d_inj (width : Nat) (v1 v2 : Int) (h1 : 0 ≤ v1) (h2 : 0 ≤ v2)
    (h : format_0d width v1 = format_0d width v2) : v1 = v2 := by
  obtain ⟨n1, rfl⟩ := Int.eq_ofNat_of_zero_le h1
  obtain ⟨n2, rfl⟩ := Int.eq_ofNat_of_zero_le h2
  rw [format_0d_nonneg, format_0d_nonneg] at h
  rw [zero_padded_inj width n1 n2 h]

/-- The rendering of a field between 0 and 99 under `:02d` has two characters. -/
theorem format_0d_two_length (v : Int) (h1 : 0 ≤ v) (h2 : v ≤ 99) :
    (format_0d 2 v).data.length = 2 := by
  obtain ⟨n, rfl⟩ := Int.eq_ofNat_of_zero_le h1
  rw [format_0d_nonneg, zero_padded_two n (by omega)]
  rfl

/-- Two texts that end in a separator and a field of the same length are equal only
when the fields and what is before the separator are equal. -/
theorem append_field_inj (x1 x2 sep f1 f2 : List Char) (hl : f1.length = f2.length)
    (h : x1 ++ sep ++ f1 = x2 ++ sep ++ f2) : x1 = x2 ∧ f1 = f2 := by
  obtain ⟨h1, h2⟩ := List.append_inj' h hl
  exact ⟨List.append_cancel_right h1, h2⟩

theorem string_data_inj (a b : String) (h : a.data = b.data) : a = b := by
  cases a; cases b; simp only at h; rw [h]

/-- C28.  Rotation file names do not collide: for a fixed file name and granularity and
two local calendar times with valid field ranges and a year that is not negative,
`calc_filename` returns the same name if and only if the times fall in the same period:
the same year, month and day for Daily, also the same hour for Hourly, also the same
minute for Minutely. -/
theorem rotation_file_names_do_not_collide (filename : String) (type : scheduled_type)
    (a b : tm) (ha : valid_calendar_time a) (hb : valid_calendar_time b) :
    calc_filename filename a type = calc_filename filename b type ↔ same_period type a b := by
  obtain ⟨a1, a2, a3, a4, a5, a6, a7, a8, a9⟩ := ha
  obtain ⟨b1, b2, b3, b4, b5, b6, b7, b8, b9⟩ := hb
  have lmon : (format_0d 2 (a.tm_mon + 1)).data.length
      = (format_0d 2 (b.tm_mon + 1)).data.length := by
    rw [format_0d_two_length _ (by omega) (by omega),
      format_0d_two_length _ (by omega) (by omega)]
  have lday : (format_0d 2 a.tm_mday).data.length = (format_0d 2 b.tm_mday).data.length := by
    rw [format_0d_two_length _ (by omega) (by omega),
      format_0d_two_length _ (by omega) (by omega)]
  have lhour : (format_0d 2 a.tm_hour).data.length = (format_0d 2 b.tm_hour).data.length := by
    rw [format_0d_two_length _ (by omega) (by omega),
      format_0d_two_length _ (by omega) (by omega)]
  have lmin : (format_0d 2 a.tm_min).data.length = (format_0d 2 b.tm_min).data.length := by
    rw [format_0d_two_length _ (by omega) (by omega),
      format_0d_two_length _ (by omega) (by omega)]
  have iyear : format_0d 4 (a.tm_year + 1900) = format_0d 4 (b.tm_year + 1900) →
      a.tm_year = b.tm_year := fun h => by
    have := format_0d_inj 4 _ _ a1 b1 h
    omega
  have imon : format_0d 2 (a.tm_mon + 1) = format_0d 2 (b.tm_mon + 1) →
      a.tm_mon = b.tm_mon := fun h => by
    have := format_0d_inj 2 _ _ (by omega) (by omega) h
    omega
  have iday := format_0d_inj 2 a.tm_mday b.tm_mday (by omega) (by omega)
  have ihour := format_0d_inj 2 a.tm_hour b.tm_hour a6 b6
  have imin := format_0d_inj 2 a.tm_min b.tm_min a8 b8
  cases type
  · constructor
    · intro h
      have hd := congrArg String.data h
      simp only [calc_filename, String.data_append] at hd
      have h1 := List.append_cancel_right hd
      obtain ⟨h2, e3⟩ := append_field_inj _ _ _ _ _ lday h1
      obtain ⟨h3, e2⟩ := append_field_inj _ _ _ _ _ lmon h2
      have e1 := List.append_cancel_left h3
      exact ⟨iyear (string_data_inj _ _ e1), imon (string_data_inj _ _ e2),
        iday (string_data_inj _ _ e3)⟩
    · rintro ⟨e1, e2, e3⟩
      simp only [calc_filename, e1, e2, e3]
  · constructor
    · intro h
      have hd := congrArg String.data h
      simp only [calc_filename, String.data_append] at hd
      have h1 := List.append_cancel_right hd
      obtain ⟨h2, e4⟩ := append_field_inj _ _ _ _ _ lhour h1
      obtain ⟨h3, e3⟩ := append_field_inj _ _ _ _ _ lday h2
      obtain ⟨h4, e2⟩ := append_field_inj _ _ _ _ _ lmon h3
      have e1 := List.append_cancel_left h4
      exact ⟨iyear (string_data_inj _ _ e1), imon (string_data_inj _ _ e2),
        iday (string_data_inj _ _ e3), ihour (string_data_inj _ _ e4)⟩
    · rintro ⟨e1, e2, e3, e4⟩
      simp only [calc_filename, e1, e2, e3, e4]
  · constructor
    · intro h
      have hd := congrArg String.data h
      simp only [calc_filename, String.data_append] at hd
      have h1 := List.append_cancel_right hd
      obtain ⟨h2, e5⟩ := append_field_inj _ _ _ _ _ lmin h1
      obtain ⟨h3, e4⟩ := append_field_inj _ _ _ _ _ lhour h2
      obtain ⟨h4, e3⟩ := append_field_inj _ _ _ _ _ lday h3
      obtain ⟨h5, e2⟩ := append_field_inj _ _ _ _ _ lmon h4
      have e1 := List.append_cancel_left h5
      exact ⟨iyear (string_data_inj _ _ e1), imon (string_data_inj _ _ e2),
        iday (string_data_inj _ _ e3), ihour (string_data_inj _ _ e4),
        imin (string_data_inj _ _ e5)⟩
    · rintro ⟨e1, e2, e3, e4, e5⟩
      simp only [calc_filename, e1, e2, e3, e4, e5]

/-- Witness of C28: 14:07 and 23:30 of 2024-03-05 get the same Daily name and different
Hourly names. -/
theorem rotation_file_names_do_not_collide_witness :
    calc_filename "app.log" ⟨0, 7, 14, 5, 2, 124⟩ .DAILY
      = calc_filename "app.log" ⟨59, 30, 23, 5, 2, 124⟩ .DAILY
    ∧ calc_filename "app.log" ⟨0, 7, 14, 5, 2, 124⟩ .HOURLY
      ≠ calc_filename "app.log" ⟨59, 30, 23, 5, 2, 124⟩ .HOURLY :=
  ⟨(rotation_file_names_do_not_collide "app.log" .DAILY ⟨0, 7, 14, 5, 2, 124⟩
      ⟨59, 30, 23, 5, 2, 124⟩ (by decide) (by decide)).mpr (by decide),
   fun h => absurd ((rotation_file_names_do_not_collide "app.log" .HOURLY
      ⟨0, 7, 14, 5, 2, 124⟩ ⟨59, 30, 23, 5, 2, 124⟩ (by decide) (by decide)).mp h)
      (by decide)⟩

end sinks

/-! ## Theorems: duplicate sink names -/

theorem Map.find_isSome_of_mem {β : Type} (m : Map β) (key : String)
    (h : key ∈ m.map Prod.fst) : ∃ v, Map.find m key = some v := by
  induction m with
  | nil => simp at h
  | cons kv rest ih =>
    obtain ⟨k, v⟩ := kv
    by_cases hk : k = key
    · exact ⟨v, by simp [Map.find, hk]⟩
    · simp only [List.map_cons, List.mem_cons] at h
      rcases h with h | h
      · exact absurd h.symm hk
      · obtain ⟨v1, hv1⟩ := ih h
        exact ⟨v1, by simp [Map.find, hk, hv1]⟩

theorem Map.emplace_keys {β : Type} (m : Map β) (key : String) (value : β) :
    ((m.map Prod.fst).Nodup → ((Map.emplace m key value).map Prod.fst).Nodup)
    ∧ (∀ n, n ∈ (Map.emplace m key value).map Prod.fst ↔ n ∈ m.map Prod.fst ∨ n = key) := by
  unfold Map.emplace
  cases hf : Map.find m key with
  | some v =>
    have hmem : key ∈ m.map Prod.fst :=
      List.mem_map.mpr ⟨(key, v), Map.mem_of_find m key v hf, rfl⟩
    refine ⟨fun h => h, fun n => ⟨fun h => Or.inl h, fun h => ?_⟩⟩
    rcases h with h | h
    · exact h
    · rw [h]; exact hmem
  | none =>
    have hnot : key ∉ m.map Prod.fst := by
      intro hmem
      obtain ⟨v, hv⟩ := Map.find_isSome_of_mem m key hmem
      rw [hf] at hv
      simp at hv
    refine ⟨fun h => ?_, fun n => ?_⟩
    · simp only [List.map_append, List.map_cons, List.map_nil]
      rw [List.nodup_append]
      refine ⟨h, List.nodup_singleton _, ?_⟩
      intro x hx hx'
      rw [List.mem_singleton] at hx'
      exact hnot (hx' ▸ hx)
    · simp only [List.map_append, List.map_cons, List.map_nil, List.mem_append,
        List.mem_singleton]

/-- The map the loop of `setup_sinks_impl` builds from named sinks. -/
theorem emplace_all_spec :
    ∀ (pairs : List (String × Sink)) (m0 : Map Sink),
      (∀ n, Map.find (pairs.foldl (fun m p => Map.emplace m p.1 p.2) m0) n
          = match Map.find m0 n with
            | some v => some v
            | none => (pairs.find? (fun p => p.1 = n)).map Prod.snd)
      ∧ ((m0.map Prod.fst).Nodup →
          ((pairs.foldl (fun m p => Map.emplace m p.1 p.2) m0).map Prod.fst).Nodup)
      ∧ (∀ n, n ∈ (pairs.foldl (fun m p => Map.emplace m p.1 p.2) m0).map Prod.fst
          ↔ n ∈ m0.map Prod.fst ∨ n ∈ pairs.map Prod.fst) := by
  intro pairs
  induction pairs with
  | nil =>
    intro m0
    refine ⟨fun n => ?_, fun h => h, fun n => by simp⟩
    simp only [List.foldl_nil]
    cases hn : Map.find m0 n <;> rfl
  | cons p rest ih =>
    intro m0
    obtain ⟨k, v⟩ := p
    obtain ⟨i1, i2, i3⟩ := ih (Map.emplace m0 k v)
    obtain ⟨e1, e2⟩ := Map.emplace_keys m0 k v
    refine ⟨fun n => ?_, fun h => i2 (e1 h), fun n => ?_⟩
    · simp only [List.foldl_cons]
      rw [i1 n, Map.find_emplace]
      cases hn : Map.find m0 n with
      | some x => rfl
      | none =>
        by_cases hk : k = n
        · simp [hk]
        · simp [hk]
    · simp only [List.foldl_cons, List.map_cons, List.mem_cons]
      rw [i3 n, e2 n]
      constructor
      · rintro ((h | h) | h)
        · exact Or.inl h
        · exact Or.inr (Or.inl h)
        · exact Or.inr (Or.inr h)
      · rintro (h | h | h)
        · exact Or.inl (Or.inl h)
        · exact Or.inl (Or.inr h)
        · exact Or.inr h

theorem setup_sinks_loop_built (env : SetupEnv) :
    ∀ (sinks : List Table) (w : World) (m0 : Map Sink) (pairs : List (String × Sink))
      (w1 : World), built_sinks env w sinks = some (pairs, w1) →
      setup_sinks_loop env w m0 sinks
        = (.ok (pairs.foldl (fun m p => Map.emplace m p.1 p.2) m0), w1) := by
  intro sinks
  induction sinks with
  | nil =>
    intro w m0 pairs w1 h
    simp only [built_sinks, Option.some.injEq, Prod.mk.injEq] at h
    obtain ⟨h1, h2⟩ := h
    subst h1 h2
    rfl
  | cons t rest ih =>
    intro w m0 pairs w1 h
    unfold built_sinks at h
    cases hn : Table.get_as_string t "name" with
    | none => simp [hn] at h
    | some name =>
      cases hs : sink_from_table env w t with
      | mk res w2 =>
        cases res with
        | error e => simp [hn, hs] at h
        | ok sink =>
          simp only [hn, hs] at h
          cases hb : built_sinks env w2 rest with
          | none => simp [hb] at h
          | some r =>
            obtain ⟨pairs1, w3⟩ := r
            simp only [hb, Option.some.injEq, Prod.mk.injEq] at h
            obtain ⟨h1, h2⟩ := h
            subst h1 h2
            have hn2 : Table.get_as_string t names.NAME = some name := hn
            simp only [setup_sinks_loop, value_from_table_string, hn2, hs, List.foldl_cons]
            exact ih w2 (Map.emplace m0 name sink) pairs1 w3 hb

/-- C29.  Duplicate sink names are not rejected: when every sink descriptor of the
document has a name and constructs its sink, `setup_sinks_impl` returns a map, whether
or not names repeat; the map binds every name to the sink built from the first
descriptor of that name in document order, and has one entry for each distinct name. -/
theorem duplicate_sink_names_first_wins (env : SetupEnv) (w w1 : World) (config : Table)
    (sinks : List Table) (pairs : List (String × Sink))
    (hs : Table.get_table_array config names.SINK_TABLE = some sinks)
    (hb : built_sinks env w sinks = some (pairs, w1)) :
    ∃ m, setup_sinks_impl env w config = (.ok m, w1)
      ∧ (∀ n, Map.find m n = (pairs.find? (fun p => p.1 = n)).map Prod.snd)
      ∧ (m.map Prod.fst).Nodup
      ∧ (∀ n, n ∈ m.map Prod.fst ↔ n ∈ pairs.map Prod.fst) := by
  obtain ⟨i1, i2, i3⟩ := emplace_all_spec pairs []
  refine ⟨_, ?_, fun n => ?_, i2 List.nodup_nil, fun n => ?_⟩
  · simp only [setup_sinks_impl, hs]
    exact setup_sinks_loop_built env sinks w [] pairs w1 hb
  · rw [i1 n]; rfl
  · rw [i3 n]; simp

/-- Witness of C29: of two descriptors named `console` the first, a stdout sink, is the
one bound. -/
theorem duplicate_sink_names_first_wins_witness :
    setup_sinks_impl example_setup_env empty_world duplicate_sink_config
      = (.ok [("console", { type := .StdoutSinkMt, filename := "", level := none }),
              ("file", { type := .StdoutSinkSt, filename := "", level := none })],
         empty_world)
    ∧ ∃ m, setup_sinks_impl example_setup_env empty_world duplicate_sink_config
        = (.ok m, empty_world)
      ∧ (∀ n, Map.find m n
          = (List.find? (fun p => p.1 = n)
              [("console", ({ type := .StdoutSinkMt, filename := "", level := none } : Sink)),
               ("console", { type := .NullSinkMt, filename := "", level := none }),
               ("file", { type := .StdoutSinkSt, filename := "", level := none })]).map
              Prod.snd)
      ∧ (m.map Prod.fst).Nodup
      ∧ (∀ n, n ∈ m.map Prod.fst
          ↔ n ∈ List.map Prod.fst
              [("console", ({ type := .StdoutSinkMt, filename := "", level := none } : Sink)),
               ("console", { type := .NullSinkMt, filename := "", level := none }),
               ("file", { type := .StdoutSinkSt, filename := "", level := none })]) :=
  ⟨rfl,
   duplicate_sink_names_first_wins example_setup_env empty_world empty_world
     duplicate_sink_config _ _ rfl rfl⟩

/-! ## Theorems: the merge loop, uniqueness of names and idempotence -/

theorem has_name_eq_true (n : String) (x : Table) :
    has_name n x = true ↔ Table.get_as_string x names.NAME = some n := by
  simp [has_name, item_name]

theorem find_item_iter_by_name_length (items : List Table) (n : String) :
    find_item_iter_by_name items n = items.length ↔ items.any (has_name n) = false := by
  have h := find_item_by_name_none items n
  unfold find_item_by_name at h
  rw [← h]
  by_cases hl : find_item_iter_by_name items n = items.length <;> simp [hl]

theorem update_item_at_first (n : String) (f : Table → Table) :
    ∀ items : List Table,
      update_item_at items (find_item_iter_by_name items n) f = update_first n f items := by
  intro items
  induction items with
  | nil => rfl
  | cons x rest ih =>
    by_cases hx : Table.get_as_string x names.NAME = some n
    · have hx' : has_name n x = true := (has_name_eq_true n x).mpr hx
      simp [find_item_iter_by_name, hx, update_item_at, update_first, hx']
    · have hx' : has_name n x = false := by
        rw [← Bool.not_eq_true, has_name_eq_true]; exact hx
      simp only [find_item_iter_by_name, hx, if_false, update_item_at, update_first, hx',
        Bool.false_eq_true, ih]

/-- One round of the merge loop on a named override item: the first base item of that
name is merged with it in place, or the item is pushed to the end when there is none. -/
theorem merge_config_item_eq (items : List Table) (o : Table) (n : String)
    (hn : item_name o = some n) :
    merge_config_item items o
      = .ok (if items.any (has_name n) then
          update_first n (fun x => merge_item_fields x o) items else items ++ [o]) := by
  have hn' : Table.get_as_string o names.NAME = some n := hn
  simp only [merge_config_item, hn', find_item_by_name]
  by_cases hany : items.any (has_name n) = true
  · have hne : ¬ find_item_iter_by_name items n = items.length := by
      rw [find_item_iter_by_name_length, hany]; simp
    simp only [hne, if_false, hany, if_true, update_item_at_first]
  · have hany' : items.any (has_name n) = false := by simpa using hany
    have he : find_item_iter_by_name items n = items.length :=
      (find_item_iter_by_name_length items n).mpr hany'
    simp only [he, if_true, hany', Bool.false_eq_true, if_false]

theorem update_first_length (n : String) (f : Table → Table) (items : List Table) :
    (update_first n f items).length = items.length := by
  induction items with
  | nil => rfl
  | cons x rest ih =>
    by_cases hx : has_name n x = true
    · simp [update_first, hx]
    · simp [update_first, hx, ih]

theorem update_first_map_item_name (n : String) (f : Table → Table)
    (hf : ∀ x, item_name x = some n → item_name (f x) = some n) (items : List Table) :
    (update_first n f items).map item_name = items.map item_name := by
  induction items with
  | nil => rfl
  | cons x rest ih =>
    by_cases hx : has_name n x = true
    · have hxn := (has_name_iff n x).mp hx
      simp [update_first, hx, hf x hxn, hxn]
    · simp [update_first, hx, ih]

theorem has_name_congr (n : String) (x y : Table) (h : item_name x = item_name y) :
    has_name n x = has_name n y := by
  simp [has_name, h]

/-- The first item of a name after the first item of a different name was updated. -/
theorem find_update_first_ne (n m : String) (hnm : n ≠ m) (f : Table → Table)
    (hf : ∀ x, item_name x = some m → item_name (f x) = some m) (items : List Table) :
    (update_first m f items).find? (has_name n) = items.find? (has_name n) := by
  induction items with
  | nil => rfl
  | cons x rest ih =>
    by_cases hx : has_name m x = true
    · have hxm := (has_name_iff m x).mp hx
      have h1 : has_name n x = false := by
        rw [← Bool.not_eq_true, has_name_iff, hxm]
        intro e; exact hnm (Option.some.inj e).symm
      have h2 : has_name n (f x) = false := by
        rw [← Bool.not_eq_true, has_name_iff, hf x hxm]
        intro e; exact hnm (Option.some.inj e).symm
      simp [update_first, hx, List.find?_cons, h1, h2]
    · simp only [update_first, hx, Bool.false_eq_true, if_false, List.find?_cons, ih]

theorem find_update_first_eq (n : String) (f : Table → Table)
    (hf : ∀ x, item_name x = some n → item_name (f x) = some n) (items : List Table) :
    (update_first n f items).find? (has_name n) = (items.find? (has_name n)).map f := by
  induction items with
  | nil => rfl
  | cons x rest ih =>
    by_cases hx : has_name n x = true
    · have hxn := (has_name_iff n x).mp hx
      have h2 : has_name n (f x) = true := (has_name_iff n (f x)).mpr (hf x hxn)
      simp [update_first, hx, List.find?_cons, h2]
    · simp only [update_first, hx, Bool.false_eq_true, if_false, List.find?_cons, ih]

theorem update_first_eq_self (n : String) (f : Table → Table) :
    ∀ (items : List Table) (x : Table), items.find? (has_name n) = some x → f x = x →
      update_first n f items = items := by
  intro items
  induction items with
  | nil => intro x h; simp at h
  | cons y rest ih =>
    intro x h hfx
    by_cases hy : has_name n y = true
    · simp only [List.find?_cons, hy, Option.some.injEq] at h
      subst h
      simp [update_first, hy, hfx]
    · have hy' : has_name n y = false := by simpa using hy
      simp only [List.find?_cons, hy'] at h
      simp only [update_first, hy', Bool.false_eq_true, if_false, ih x h hfx]

theorem any_has_name_of_find (n : String) (items : List Table) (x : Table)
    (h : items.find? (has_name n) = some x) : items.any (has_name n) = true :=
  List.any_eq_true.mpr ⟨x, List.mem_of_find?_eq_some h, List.find?_some h⟩

theorem Table.insert_eq_self (t : Table) (k : String) (v : Value)
    (h : Table.get t k = some v) : Table.insert t k v = t := by
  induction t with
  | nil => simp [Table.get] at h
  | cons kv rest ih =>
    obtain ⟨k0, v0⟩ := kv
    by_cases hk : k0 = k
    · simp only [Table.get, hk, if_true, Option.some.injEq] at h
      simp [Table.insert, hk, h]
    · simp only [Table.get, hk, if_false] at h
      simp [Table.insert, hk, ih h]

theorem Table.insert_insert (t : Table) (k : String) (v1 v2 : Value) :
    Table.insert (Table.insert t k v1) k v2 = Table.insert t k v2 := by
  induction t with
  | nil => simp [Table.insert]
  | cons kv rest ih =>
    obtain ⟨k0, v0⟩ := kv
    by_cases hk : k0 = k
    · simp [Table.insert, hk]
    · simp [Table.insert, hk, ih]

theorem Table.get_of_mem (t : Table) (hwf : Table.wf t) (kv : String × Value) (h : kv ∈ t) :
    Table.get t kv.1 = some kv.2 := by
  induction t with
  | nil => simp at h
  | cons p rest ih =>
    obtain ⟨k0, v0⟩ := p
    have hnd : k0 ∉ Table.keys rest ∧ Table.wf rest := by
      simpa [Table.wf, Table.keys] using hwf
    rcases List.mem_cons.mp h with h1 | h1
    · rw [h1]; simp [Table.get]
    · have hne : ¬ k0 = kv.1 := by
        intro e
        apply hnd.1
        rw [e]
        exact List.mem_map.mpr ⟨kv, h1, rfl⟩
      simp only [Table.get, hne, if_false]
      exact ih hnd.2 h1

/-- Merging an item whose fields the base item already holds changes nothing. -/
theorem merge_item_fields_eq_self :
    ∀ (o : Table) (x : Table), (∀ kv ∈ o, Table.get x kv.1 = some kv.2) →
      merge_item_fields x o = x := by
  intro o
  induction o with
  | nil => intro x _; rfl
  | cons kv rest ih =>
    intro x h
    simp only [merge_item_fields]
    rw [Table.insert_eq_self x kv.1 kv.2 (h kv (List.mem_cons_self _ _))]
    exact ih x (fun kv' hkv' => h kv' (List.mem_cons_of_mem _ hkv'))

/-- After the merge the base item holds every field of the override item. -/
theorem merge_item_fields_holds (x o : Table) (hwf : Table.wf o) :
    ∀ kv ∈ o, Table.get (merge_item_fields x o) kv.1 = some kv.2 := by
  intro kv hkv
  rw [merge_item_fields_get o hwf, Table.get_of_mem o hwf kv hkv]

theorem merge_item_fields_name (o : Table) (n : String) (hwf : Table.wf o)
    (hn : item_name o = some n) :
    ∀ x, item_name x = some n → item_name (merge_item_fields x o) = some n :=
  fun x _ => item_name_merge_item_fields x o n hwf hn

theorem filterMap_item_name_eq (l1 l2 : List Table)
    (h : l1.map item_name = l2.map item_name) :
    l1.filterMap item_name = l2.filterMap item_name := by
  have e : ∀ l : List Table, l.filterMap item_name = (l.map item_name).filterMap id := by
    intro l; rw [List.filterMap_map]; rfl
  rw [e l1, e l2, h]

theorem any_has_name_iff_mem (items : List Table) (n : String) :
    items.any (has_name n) = true ↔ n ∈ items.filterMap item_name :=
  any_has_name_of_filterMap items n

/-- The names after one round of the merge loop: unchanged when the name is there,
with the new name at the end otherwise. -/
theorem merge_config_item_names (items : List Table) (o : Table) (n : String)
    (hwf : Table.wf o) (hn : item_name o = some n) :
    ∃ merged, merge_config_item items o = .ok merged
      ∧ merged.map item_name
          = (if items.any (has_name n) then items.map item_name
             else items.map item_name ++ [some n])
      ∧ merged.length = (if items.any (has_name n) then items.length else items.length + 1) := by
  rw [merge_config_item_eq items o n hn]
  by_cases hany : items.any (has_name n) = true
  · simp only [hany, if_true]
    exact ⟨_, rfl, update_first_map_item_name n _ (merge_item_fields_name o n hwf hn) items,
      update_first_length n _ items⟩
  · have hany' : items.any (has_name n) = false := by simpa using hany
    simp only [hany', Bool.false_eq_true, if_false]
    exact ⟨_, rfl, by simp [hn], by simp⟩

/-- The names of the merged array: pairwise distinct when the base names are, and
exactly the base names and the override names; the array grows by the number of
distinct override names that are not base names. -/
theorem merge_config_items_loop_names :
    ∀ (ovr base : List Table), (∀ o ∈ ovr, Table.wf o) → (∀ o ∈ ovr, item_name o ≠ none) →
      ∃ merged, merge_config_items_loop base ovr = .ok merged
        ∧ ((base.filterMap item_name).Nodup → (merged.filterMap item_name).Nodup)
        ∧ (∀ n, n ∈ merged.filterMap item_name
            ↔ n ∈ base.filterMap item_name ∨ n ∈ ovr.filterMap item_name)
        ∧ ((∀ b ∈ base, item_name b ≠ none) → ∀ x ∈ merged, item_name x ≠ none)
        ∧ merged.length = base.length
            + ((ovr.filterMap item_name).toFinset \ (base.filterMap item_name).toFinset).card := by
  intro ovr
  induction ovr with
  | nil =>
    intro base _ _
    exact ⟨base, rfl, fun h => h, fun n => by simp, fun h => h, by simp⟩
  | cons o rest ih =>
    intro base hwf hnamed
    have hwfo := hwf o (List.mem_cons_self _ _)
    obtain ⟨n, hn⟩ := Option.ne_none_iff_exists'.mp (hnamed o (List.mem_cons_self _ _))
    obtain ⟨b1, hstep, hmap, hlen⟩ := merge_config_item_names base o n hwfo hn
    obtain ⟨merged, hloop, i1, i2, i3, i4⟩ := ih b1
      (fun o' h => hwf o' (List.mem_cons_of_mem _ h))
      (fun o' h => hnamed o' (List.mem_cons_of_mem _ h))
    refine ⟨merged, by simp only [merge_config_items_loop, hstep, hloop], ?_, ?_, ?_, ?_⟩
    all_goals by_cases hany : base.any (has_name n) = true
    · -- nodup, name present
      simp only [hany, if_true] at hmap
      rw [filterMap_item_name_eq b1 base hmap] at i1
      exact i1
    · have hany' : base.any (has_name n) = false := by simpa using hany
      simp only [hany', Bool.false_eq_true, if_false] at hmap
      have hnot : n ∉ base.filterMap item_name := by
        rw [← any_has_name_iff_mem, hany']; simp
      have hb1 : b1.filterMap item_name = base.filterMap item_name ++ [n] := by
        have e : ∀ l : List Table, l.filterMap item_name = (l.map item_name).filterMap id := by
          intro l; rw [List.filterMap_map]; rfl
        rw [e b1, hmap, List.filterMap_append, ← e base]
        rfl
      intro hnd
      apply i1
      rw [hb1, List.nodup_append]
      refine ⟨hnd, List.nodup_singleton n, ?_⟩
      intro x hx hx'
      rw [List.mem_singleton] at hx'
      exact hnot (hx' ▸ hx)
    · -- members, name present
      simp only [hany, if_true] at hmap
      intro k
      rw [i2 k, filterMap_item_name_eq b1 base hmap]
      simp only [List.filterMap_cons, hn, List.mem_cons]
      have hmem := (any_has_name_iff_mem base n).mp hany
      constructor
      · rintro (h | h)
        · exact Or.inl h
        · exact Or.inr (Or.inr h)
      · rintro (h | h | h)
        · exact Or.inl h
        · exact Or.inl (h ▸ hmem)
        · exact Or.inr h
    · have hany' : base.any (has_name n) = false := by simpa using hany
      simp only [hany', Bool.false_eq_true, if_false] at hmap
      have hb1 : b1.filterMap item_name = base.filterMap item_name ++ [n] := by
        have e : ∀ l : List Table, l.filterMap item_name = (l.map item_name).filterMap id := by
          intro l; rw [List.filterMap_map]; rfl
        rw [e b1, hmap, List.filterMap_append, ← e base]
        rfl
      intro k
      rw [i2 k, hb1]
      simp only [List.filterMap_cons, hn, List.mem_cons, List.mem_append, List.mem_singleton]
      tauto
    · -- all named, name present
      simp only [hany, if_true] at hmap
      intro hall
      apply i3
      intro b hb hnone
      have : (none : Option String) ∈ b1.map item_name :=
        List.mem_map.mpr ⟨b, hb, hnone⟩
      rw [hmap] at this
      obtain ⟨b', hb', hb'n⟩ := List.mem_map.mp this
      exact hall b' hb' hb'n
    · have hany' : base.any (has_name n) = false := by simpa using hany
      simp only [hany', Bool.false_eq_true, if_false] at hmap
      intro hall
      apply i3
      intro b hb hnone
      have : (none : Option String) ∈ b1.map item_name :=
        List.mem_map.mpr ⟨b, hb, hnone⟩
      rw [hmap] at this
      rcases List.mem_append.mp this with h | h
      · obtain ⟨b', hb', hb'n⟩ := List.mem_map.mp h
        exact hall b' hb' hb'n
      · simp at h
    · -- length, name present
      simp only [hany, if_true] at hmap hlen
      rw [i4, hlen, filterMap_item_name_eq b1 base hmap]
      have hmem := (any_has_name_iff_mem base n).mp hany
      congr 2
      simp only [List.filterMap_cons, hn, List.toFinset_cons]
      ext k
      simp only [Finset.mem_sdiff, Finset.mem_insert, List.mem_toFinset]
      constructor
      · rintro ⟨h1, h2⟩; exact ⟨Or.inr h1, h2⟩
      · rintro ⟨h1 | h1, h2⟩
        · exact absurd (h1 ▸ hmem) h2
        · exact ⟨h1, h2⟩
    · have hany' : base.any (has_name n) = false := by simpa using hany
      simp only [hany', Bool.false_eq_true, if_false] at hmap hlen
      have hnot : n ∉ base.filterMap item_name := by
        rw [← any_has_name_iff_mem, hany']; simp
      have hb1 : b1.filterMap item_name = base.filterMap item_name ++ [n] := by
        have e : ∀ l : List Table, l.filterMap item_name = (l.map item_name).filterMap id := by
          intro l; rw [List.filterMap_map]; rfl
        rw [e b1, hmap, List.filterMap_append, ← e base]
        rfl
      rw [i4, hlen, hb1]
      simp only [List.filterMap_cons, hn, List.toFinset_cons, List.toFinset_append,
        List.toFinset_nil, insert_emptyc_eq]
      have hset : insert n (rest.filterMap item_name).toFinset
            \ (base.filterMap item_name).toFinset
          = insert n ((rest.filterMap item_name).toFinset
              \ ((base.filterMap item_name).toFinset ∪ {n})) := by
        ext k
        simp only [Finset.mem_sdiff, Finset.mem_insert, List.mem_toFinset, Finset.mem_union,
          Finset.mem_singleton]
        constructor
        · rintro ⟨h1 | h1, h2⟩
          · exact Or.inl h1
          · by_cases hk : k = n
            · exact Or.inl hk
            · exact Or.inr ⟨h1, fun h => h.elim h2 hk⟩
        · rintro (h1 | ⟨h1, h2⟩)
          · exact ⟨Or.inl h1, h1 ▸ hnot⟩
          · exact ⟨Or.inr h1, fun h => h2 (Or.inl h)⟩
      rw [hset, Finset.card_insert_of_not_mem]
      · omega
      · simp

/-- The three ways `merge_config_items` returns: the override has no array and nothing
changes; base has no array and the override's array is inserted under `LOGGER_TABLE`;
or both have one and the merged array is written back under the section's key. -/
theorem merge_config_items_cases (t : Table) (key : String)
    (base_items ovr_items : Option (List Table)) (r : Table)
    (h : merge_config_items t key base_items ovr_items = .ok r) :
    (ovr_items = none ∧ r = t)
    ∨ (∃ O, base_items = none ∧ ovr_items = some O
        ∧ r = Table.insert t names.LOGGER_TABLE (.tableArray O))
    ∨ (∃ B O M, base_items = some B ∧ ovr_items = some O
        ∧ merge_config_items_loop B O = .ok M ∧ r = Table.insert t key (.tableArray M)) := by
  cases base_items with
  | none =>
    cases ovr_items with
    | none =>
      simp only [merge_config_items, Except.ok.injEq] at h
      exact Or.inl ⟨rfl, h.symm⟩
    | some O =>
      simp only [merge_config_items, Except.ok.injEq] at h
      exact Or.inr (Or.inl ⟨O, rfl, rfl, h.symm⟩)
  | some B =>
    cases ovr_items with
    | none =>
      simp only [merge_config_items, Except.ok.injEq] at h
      exact Or.inl ⟨rfl, h.symm⟩
    | some O =>
      cases hloop : merge_config_items_loop B O with
      | error e => simp [merge_config_items, hloop] at h
      | ok M =>
        simp only [merge_config_items, hloop, Except.ok.injEq] at h
        exact Or.inr (Or.inr ⟨B, O, M, rfl, rfl, hloop, h.symm⟩)

theorem get_table_array_insert_self (t : Table) (key : String) (items : List Table) :
    Table.get_table_array (Table.insert t key (.tableArray items)) key = some items := by
  simp [Table.get_table_array, Table.get_insert]

/-- The three stages of `merge_config_root`. -/
theorem merge_config_root_stages (base ovr m : Table)
    (hm : merge_config_root (some base) (some ovr) = .ok m) :
    ∃ r1 r2,
      merge_config_items base names.SINK_TABLE
          (Table.get_table_array base names.SINK_TABLE)
          (Table.get_table_array ovr names.SINK_TABLE) = .ok r1
      ∧ merge_config_items r1 names.PATTERN_TABLE
          (Table.get_table_array r1 names.PATTERN_TABLE)
          (Table.get_table_array ovr names.PATTERN_TABLE) = .ok r2
      ∧ merge_config_items r2 names.LOGGER_TABLE
          (Table.get_table_array r2 names.LOGGER_TABLE)
          (Table.get_table_array ovr names.LOGGER_TABLE) = .ok m := by
  rw [merge_config_root_unfold] at hm
  cases h1 : merge_config_items base names.SINK_TABLE
      (Table.get_table_array base names.SINK_TABLE)
      (Table.get_table_array ovr names.SINK_TABLE) with
  | error e => simp [h1] at hm
  | ok r1 =>
    simp only [h1] at hm
    cases h2 : merge_config_items r1 names.PATTERN_TABLE
        (Table.get_table_array r1 names.PATTERN_TABLE)
        (Table.get_table_array ovr names.PATTERN_TABLE) with
    | error e => simp [h2] at hm
    | ok r2 =>
      simp only [h2] at hm
      exact ⟨r1, r2, rfl, h2, hm⟩

/-- The array of a section that base and the override both have, after
`merge_config_root`: the merged array of the loop.  For the logger section this needs
that no sink or pattern array was adopted before, since an adopted array is stored under
the logger key. -/
theorem merge_config_root_section (base ovr m : Table) (key : String)
    (base_items ovr_items : List Table)
    (hkey : key = names.SINK_TABLE ∨ key = names.PATTERN_TABLE ∨ key = names.LOGGER_TABLE)
    (hm : merge_config_root (some base) (some ovr) = .ok m)
    (hb : Table.get_table_array base key = some base_items)
    (ho : Table.get_table_array ovr key = some ovr_items)
    (hno : key = names.LOGGER_TABLE →
      (Table.get_table_array ovr names.SINK_TABLE ≠ none →
        Table.get_table_array base names.SINK_TABLE ≠ none)
      ∧ (Table.get_table_array ovr names.PATTERN_TABLE ≠ none →
        Table.get_table_array base names.PATTERN_TABLE ≠ none)) :
    ∃ merged, merge_config_items_loop base_items ovr_items = .ok merged
      ∧ Table.get_table_array m key = some merged := by
  have nsp : names.SINK_TABLE ≠ names.PATTERN_TABLE := by decide
  have nsl : names.SINK_TABLE ≠ names.LOGGER_TABLE := by decide
  have npl : names.PATTERN_TABLE ≠ names.LOGGER_TABLE := by decide
  obtain ⟨r1, r2, h1, h2, h3⟩ := merge_config_root_stages base ovr m hm
  have f1 := ((merge_config_items_frame _ _ _ _).2 r1 h1).1
  have f2 := ((merge_config_items_frame _ _ _ _).2 r2 h2).1
  have f3 := ((merge_config_items_frame _ _ _ _).2 m h3).1
  rcases hkey with rfl | rfl | rfl
  · -- sink
    rw [hb, ho] at h1
    rcases merge_config_items_cases _ _ _ _ _ h1 with ⟨h, -⟩ | ⟨O, h, -⟩ | ⟨B, O, M, e1, e2, hl, hr⟩
    · simp at h
    · simp at h
    · rw [Option.some.inj e1, Option.some.inj e2]
      refine ⟨M, hl, ?_⟩
      rw [get_table_array_congr m r1 _ ((f3 _ nsl nsl).trans (f2 _ nsp nsl)), hr]
      exact get_table_array_insert_self _ _ _
  · -- pattern
    have hb1 : Table.get_table_array r1 names.PATTERN_TABLE = some base_items := by
      rw [get_table_array_congr r1 base _ (f1 _ nsp.symm npl)]; exact hb
    rw [hb1, ho] at h2
    rcases merge_config_items_cases _ _ _ _ _ h2 with ⟨h, -⟩ | ⟨O, h, -⟩ | ⟨B, O, M, e1, e2, hl, hr⟩
    · simp at h
    · simp at h
    · rw [Option.some.inj e1, Option.some.inj e2]
      refine ⟨M, hl, ?_⟩
      rw [get_table_array_congr m r2 _ (f3 _ npl npl), hr]
      exact get_table_array_insert_self _ _ _
  · -- logger
    obtain ⟨hs, hp⟩ := hno rfl
    have e1 : Table.get r1 names.LOGGER_TABLE = Table.get base names.LOGGER_TABLE := by
      rcases merge_config_items_cases _ _ _ _ _ h1 with ⟨-, hr⟩ | ⟨O, hbn, hon, -⟩
        | ⟨B, O, M, -, -, -, hr⟩
      · rw [hr]
      · exact absurd hbn (hs (by rw [hon]; simp))
      · rw [hr, Table.get_insert]; simp [nsl]
    have e1p : Table.get r1 names.PATTERN_TABLE = Table.get base names.PATTERN_TABLE :=
      f1 _ nsp.symm npl
    have e2 : Table.get r2 names.LOGGER_TABLE = Table.get r1 names.LOGGER_TABLE := by
      rcases merge_config_items_cases _ _ _ _ _ h2 with ⟨-, hr⟩ | ⟨O, hbn, hon, -⟩
        | ⟨B, O, M, -, -, -, hr⟩
      · rw [hr]
      · rw [get_table_array_congr r1 base _ e1p] at hbn
        exact absurd hbn (hp (by rw [hon]; simp))
      · rw [hr, Table.get_insert]; simp [npl]
    have hb2 : Table.get_table_array r2 names.LOGGER_TABLE = some base_items := by
      rw [get_table_array_congr r2 base _ (e2.trans e1)]; exact hb
    rw [hb2, ho] at h3
    rcases merge_config_items_cases _ _ _ _ _ h3 with ⟨h, -⟩ | ⟨O, h, -⟩ | ⟨B, O, M, e1, e2, hl, hr⟩
    · simp at h
    · simp at h
    · rw [Option.some.inj e1, Option.some.inj e2]
      refine ⟨M, hl, ?_⟩
      rw [hr]
      exact get_table_array_insert_self _ _ _

theorem merge_config_items_no_override (t : Table) (key : String)
    (base_items : Option (List Table)) :
    merge_config_items t key base_items none = .ok t := by
  cases base_items <;> rfl

theorem get_table_array_of_get (t : Table) (key : String) (items : List Table)
    (h : Table.get t key = some (.tableArray items)) :
    Table.get_table_array t key = some items := by
  simp only [Table.get_table_array, h]

/-- C26.  Merge preserves name uniqueness: when the base items of a section all have
names, pairwise distinct, and the override items all have names (duplicates allowed),
the merge of the section returns an array whose items all have names, the names being
pairwise distinct and exactly the base names and the override names.  This is the array
`merge_config_items` stores under the section's key, and the array of the section after
`merge_config_root`, for the logger section provided no sink or pattern array was
adopted before (an adopted array is stored under the logger key). -/
theorem merge_preserves_name_uniqueness (base_items ovr_items : List Table)
    (hbase : ∀ b ∈ base_items, item_name b ≠ none)
    (hnd : (base_items.filterMap item_name).Nodup)
    (hwf : ∀ o ∈ ovr_items, Table.wf o)
    (hnamed : ∀ o ∈ ovr_items, item_name o ≠ none) :
    ∃ merged, merge_config_items_loop base_items ovr_items = .ok merged
      ∧ (∀ x ∈ merged, item_name x ≠ none)
      ∧ (merged.filterMap item_name).Nodup
      ∧ (∀ n, n ∈ merged.filterMap item_name
          ↔ n ∈ base_items.filterMap item_name ∨ n ∈ ovr_items.filterMap item_name)
      ∧ (∀ (base_ref : Table) (key : String),
          merge_config_items base_ref key (some base_items) (some ovr_items)
            = .ok (Table.insert base_ref key (.tableArray merged))
          ∧ Table.get_table_array (Table.insert base_ref key (.tableArray merged)) key
            = some merged)
      ∧ (∀ (base ovr m : Table) (key : String),
          key = names.SINK_TABLE ∨ key = names.PATTERN_TABLE ∨ key = names.LOGGER_TABLE →
          merge_config_root (some base) (some ovr) = .ok m →
          Table.get_table_array base key = some base_items →
          Table.get_table_array ovr key = some ovr_items →
          (key = names.LOGGER_TABLE →
            (Table.get_table_array ovr names.SINK_TABLE ≠ none →
              Table.get_table_array base names.SINK_TABLE ≠ none)
            ∧ (Table.get_table_array ovr names.PATTERN_TABLE ≠ none →
              Table.get_table_array base names.PATTERN_TABLE ≠ none)) →
          Table.get_table_array m key = some merged) := by
  obtain ⟨merged, hloop, i1, i2, i3, -⟩ :=
    merge_config_items_loop_names ovr_items base_items hwf hnamed
  refine ⟨merged, hloop, i3 hbase, i1 hnd, i2, fun base_ref key => ?_, ?_⟩
  · exact ⟨by simp only [merge_config_items, hloop], get_table_array_insert_self _ _ _⟩
  · intro base ovr m key hkey hm hb ho hno
    obtain ⟨merged1, hl1, hg⟩ :=
      merge_config_root_section base ovr m key base_items ovr_items hkey hm hb ho hno
    rw [hloop] at hl1
    rw [hg, ← Except.ok.inj hl1]

/-- Witness of C26: base items `root` and `net`, override items `audit`, `root` and
`audit` again. -/
theorem merge_preserves_name_uniqueness_witness :
    merge_config_items_loop
        [[("name", .str "root"), ("level", .str "info")],
         [("name", .str "net"), ("level", .str "warn")]]
        [[("name", .str "audit"), ("level", .str "debug")],
         [("name", .str "root"), ("level", .str "error")],
         [("name", .str "audit"), ("pattern", .str "brief")]]
      = .ok [[("name", .str "root"), ("level", .str "error")],
             [("name", .str "net"), ("level", .str "warn")],
             [("name", .str "audit"), ("level", .str "debug"), ("pattern", .str "brief")]]
    ∧ ∃ merged, merge_config_items_loop
        [[("name", .str "root"), ("level", .str "info")],
         [("name", .str "net"), ("level", .str "warn")]]
        [[("name", .str "audit"), ("level", .str "debug")],
         [("name", .str "root"), ("level", .str "error")],
         [("name", .str "audit"), ("pattern", .str "brief")]] = .ok merged
      ∧ (merged.filterMap item_name).Nodup
      ∧ ∀ n, n ∈ merged.filterMap item_name ↔ n ∈ ["root", "net"] ∨ n ∈ ["audit", "root", "audit"] := by
  obtain ⟨merged, h1, -, h3, h4, -⟩ := merge_preserves_name_uniqueness
    [[("name", .str "root"), ("level", .str "info")],
     [("name", .str "net"), ("level", .str "warn")]]
    [[("name", .str "audit"), ("level", .str "debug")],
     [("name", .str "root"), ("level", .str "error")],
     [("name", .str "audit"), ("pattern", .str "brief")]]
    (by decide) (by decide) (by decide) (by decide)
  exact ⟨rfl, merged, h1, h3, h4⟩

/-- Merging an absorbed item changes nothing. -/
theorem merge_config_item_absorbed (X : List Table) (o : Table) (h : absorbed X o) :
    merge_config_item X o = .ok X := by
  obtain ⟨n, x, hn, hfind, hget⟩ := h
  rw [merge_config_item_eq X o n hn, any_has_name_of_find n X x hfind]
  simp only [if_true]
  rw [update_first_eq_self n _ X x hfind (merge_item_fields_eq_self o x hget)]

/-- After one round of the merge loop the item is absorbed. -/
theorem absorbed_after_merge (X : List Table) (o : Table) (n : String) (hwf : Table.wf o)
    (hn : item_name o = some n) :
    absorbed (if X.any (has_name n) then update_first n (fun x => merge_item_fields x o) X
      else X ++ [o]) o := by
  by_cases hany : X.any (has_name n) = true
  · simp only [hany, if_true]
    obtain ⟨x, hx, hxn⟩ := List.any_eq_true.mp hany
    cases hfind : X.find? (has_name n) with
    | none =>
      have := List.find?_eq_none.mp hfind x hx
      exact absurd hxn this
    | some y =>
      refine ⟨n, merge_item_fields y o, hn, ?_, merge_item_fields_holds y o hwf⟩
      rw [find_update_first_eq n _ (merge_item_fields_name o n hwf hn) X, hfind]
      rfl
  · have hany' : X.any (has_name n) = false := by simpa using hany
    simp only [hany', Bool.false_eq_true, if_false]
    refine ⟨n, o, hn, ?_, fun kv hkv => Table.get_of_mem o hwf kv hkv⟩
    rw [List.find?_append, find_has_name_none X n hany']
    simp [List.find?_cons, (has_name_iff n o).mpr hn]

/-- A round of the merge loop on an item of another name keeps an item absorbed. -/
theorem absorbed_preserved (X : List Table) (o o1 : Table) (m : String)
    (hwf1 : Table.wf o1) (hm : item_name o1 = some m) (hne : item_name o ≠ some m)
    (h : absorbed X o) :
    absorbed (if X.any (has_name m) then update_first m (fun x => merge_item_fields x o1) X
      else X ++ [o1]) o := by
  obtain ⟨n, x, hn, hfind, hget⟩ := h
  have hnm : n ≠ m := fun e => hne (by rw [hn, e])
  refine ⟨n, x, hn, ?_, hget⟩
  by_cases hany : X.any (has_name m) = true
  · simp only [hany, if_true]
    rw [find_update_first_ne n m hnm _ (merge_item_fields_name o1 m hwf1 hm) X, hfind]
  · have hany' : X.any (has_name m) = false := by simpa using hany
    simp only [hany', Bool.false_eq_true, if_false]
    rw [List.find?_append, hfind]
    rfl

theorem absorbed_preserved_loop (o : Table) :
    ∀ (os X M : List Table), (∀ o1 ∈ os, Table.wf o1) →
      (∀ o1 ∈ os, item_name o1 ≠ item_name o) →
      merge_config_items_loop X os = .ok M → absorbed X o → absorbed M o := by
  intro os
  induction os with
  | nil =>
    intro X M _ _ h ha
    simp only [merge_config_items_loop, Except.ok.injEq] at h
    rw [← h]; exact ha
  | cons o1 rest ih =>
    intro X M hwf hne h ha
    simp only [merge_config_items_loop] at h
    cases hn1 : item_name o1 with
    | none =>
      rw [(merge_config_item_error X o1).1 hn1] at h
      simp at h
    | some m =>
      rw [merge_config_item_eq X o1 m hn1] at h
      simp only at h
      have hne1 : item_name o ≠ some m := by
        intro e
        exact hne o1 (List.mem_cons_self _ _) (by rw [hn1, e])
      exact ih _ M (fun o' h' => hwf o' (List.mem_cons_of_mem _ h'))
        (fun o' h' => hne o' (List.mem_cons_of_mem _ h')) h
        (absorbed_preserved X o o1 m (hwf o1 (List.mem_cons_self _ _)) hn1 hne1 ha)

/-- After the merge loop every override item is absorbed in the merged array. -/
theorem absorbed_after_loop :
    ∀ (os X M : List Table), (∀ o ∈ os, Table.wf o) → (os.filterMap item_name).Nodup →
      merge_config_items_loop X os = .ok M → ∀ o ∈ os, absorbed M o := by
  intro os
  induction os with
  | nil => intro X M _ _ _ o ho; simp at ho
  | cons o1 rest ih =>
    intro X M hwf hnd h o ho
    simp only [merge_config_items_loop] at h
    cases hn1 : item_name o1 with
    | none =>
      rw [(merge_config_item_error X o1).1 hn1] at h
      simp at h
    | some m =>
      rw [merge_config_item_eq X o1 m hn1] at h
      simp only at h
      simp only [List.filterMap_cons, hn1, List.nodup_cons] at hnd
      have hwf' : ∀ o' ∈ rest, Table.wf o' := fun o' h' => hwf o' (List.mem_cons_of_mem _ h')
      rcases List.mem_cons.mp ho with rfl | hmem
      · refine absorbed_preserved_loop o rest _ M hwf' ?_ h
          (absorbed_after_merge X o m (hwf o (List.mem_cons_self _ _)) hn1)
        intro o' ho' e
        apply hnd.1
        rw [List.mem_filterMap]
        exact ⟨o', ho', by rw [e, hn1]⟩
      · exact ih _ M hwf' hnd.2 h o hmem

/-- Merging items that are all absorbed changes nothing. -/
theorem merge_config_items_loop_absorbed :
    ∀ (os M : List Table), (∀ o ∈ os, absorbed M o) → merge_config_items_loop M os = .ok M := by
  intro os
  induction os with
  | nil => intro M _; rfl
  | cons o rest ih =>
    intro M h
    simp only [merge_config_items_loop,
      merge_config_item_absorbed M o (h o (List.mem_cons_self _ _))]
    exact ih M (fun o' h' => h o' (List.mem_cons_of_mem _ h'))

/-- The merge loop is idempotent on override items with pairwise distinct names. -/
theorem merge_config_items_loop_idempotent (os X M : List Table)
    (hwf : ∀ o ∈ os, Table.wf o) (hnd : (os.filterMap item_name).Nodup)
    (h : merge_config_items_loop X os = .ok M) : merge_config_items_loop M os = .ok M :=
  merge_config_items_loop_absorbed os M (absorbed_after_loop os X M hwf hnd h)

/-- An array with names that are all there and pairwise distinct absorbs its own items. -/
theorem absorbed_self :
    ∀ (os : List Table), (∀ o ∈ os, Table.wf o) → (∀ o ∈ os, item_name o ≠ none) →
      (os.filterMap item_name).Nodup → ∀ o ∈ os, absorbed os o := by
  intro os hwf hnamed hnd o ho
  obtain ⟨M, hM, -⟩ := merge_config_items_loop_names os [] hwf hnamed
  have hM2 : M = os := by
    have hspec := merge_config_items_loop_spec os [] hwf hnamed hnd List.nodup_nil
    rw [hM] at hspec
    have := Except.ok.inj hspec
    rw [this]
    simp only [List.map_nil, List.nil_append, unmatched_items, List.any_nil, Bool.not_false]
    rw [List.filter_eq_self]
    intro a _
    cases item_name a <;> rfl
  rw [hM2] at hM
  exact absorbed_after_loop os [] os hwf hnd hM o ho

/-- A sink or pattern stage of the merge run a second time, on a document `t1` that
holds under the section's key what the first run left there: it changes nothing, or it
adopts the override's array under the logger key as the first run did. -/
theorem merge_config_items_again (ovr t r t1 : Table) (key : String)
    (hk : key ≠ names.LOGGER_TABLE)
    (hw : ∀ items, Table.get_table_array ovr key = some items →
      (∀ o ∈ items, Table.wf o) ∧ (items.filterMap item_name).Nodup)
    (h : merge_config_items t key (Table.get_table_array t key)
      (Table.get_table_array ovr key) = .ok r)
    (hget : Table.get t1 key = Table.get r key) :
    (merge_config_items t1 key (Table.get_table_array t1 key)
        (Table.get_table_array ovr key) = .ok t1
      ∧ Table.get r names.LOGGER_TABLE = Table.get t names.LOGGER_TABLE)
    ∨ (∃ O, merge_config_items t1 key (Table.get_table_array t1 key)
          (Table.get_table_array ovr key)
          = .ok (Table.insert t1 names.LOGGER_TABLE (.tableArray O))
        ∧ r = Table.insert t names.LOGGER_TABLE (.tableArray O)) := by
  rcases merge_config_items_cases _ _ _ _ _ h with ⟨ho, hr⟩ | ⟨O, hb, ho, hr⟩
    | ⟨B, O, M, hb, ho, hl, hr⟩
  · left
    rw [ho, hr]
    exact ⟨merge_config_items_no_override _ _ _, rfl⟩
  · right
    refine ⟨O, ?_, hr⟩
    have hrk : Table.get r key = Table.get t key := by
      rw [hr, Table.get_insert]; simp [Ne.symm hk]
    have hb1 : Table.get_table_array t1 key = none := by
      rw [get_table_array_congr t1 t key (hget.trans hrk)]; exact hb
    rw [hb1, ho]
    rfl
  · left
    have hrk : Table.get r key = some (.tableArray M) := by
      rw [hr, Table.get_insert]; simp
    have hb1 : Table.get_table_array t1 key = some M :=
      get_table_array_of_get t1 key M (hget.trans hrk)
    obtain ⟨hwf, hnd⟩ := hw O ho
    refine ⟨?_, ?_⟩
    · rw [hb1, ho]
      simp only [merge_config_items, merge_config_items_loop_idempotent O B M hwf hnd hl]
      rw [Table.insert_eq_self t1 key _ (hget.trans hrk)]
    · rw [hr, Table.get_insert]; simp [hk]

/-- C25 (as amended).  Merge is idempotent for overrides whose items are named
uniquely: when `merge_config_root` succeeds on base and override, and every item of the
override's sink, pattern and logger arrays has a name, the names within each array
being pairwise distinct, then merging the same override into the merged document
returns the merged document. -/
theorem merge_idempotent (base ovr m : Table)
    (hm : merge_config_root (some base) (some ovr) = .ok m)
    (hw : override_well_named ovr) :
    merge_config_root (some m) (some ovr) = .ok m := by
  have nsp : names.SINK_TABLE ≠ names.PATTERN_TABLE := by decide
  have nsl : names.SINK_TABLE ≠ names.LOGGER_TABLE := by decide
  have npl : names.PATTERN_TABLE ≠ names.LOGGER_TABLE := by decide
  obtain ⟨r1, r2, h1, h2, h3⟩ := merge_config_root_stages base ovr m hm
  have f2 := ((merge_config_items_frame _ _ _ _).2 r2 h2).1
  have f3 := ((merge_config_items_frame _ _ _ _).2 m h3).1
  have hws : ∀ items, Table.get_table_array ovr names.SINK_TABLE = some items →
      (∀ o ∈ items, Table.wf o) ∧ (items.filterMap item_name).Nodup :=
    fun items h => ⟨(hw _ items (Or.inl rfl) h).1, (hw _ items (Or.inl rfl) h).2.2⟩
  have hwp : ∀ items, Table.get_table_array ovr names.PATTERN_TABLE = some items →
      (∀ o ∈ items, Table.wf o) ∧ (items.filterMap item_name).Nodup :=
    fun items h => ⟨(hw _ items (Or.inr (Or.inl rfl)) h).1,
      (hw _ items (Or.inr (Or.inl rfl)) h).2.2⟩
  -- the sink stage of the second run
  have hget1 : Table.get m names.SINK_TABLE = Table.get r1 names.SINK_TABLE :=
    (f3 _ nsl nsl).trans (f2 _ nsp nsl)
  have inv1 : ∃ t1, merge_config_items m names.SINK_TABLE
        (Table.get_table_array m names.SINK_TABLE)
        (Table.get_table_array ovr names.SINK_TABLE) = .ok t1
      ∧ (t1 = m ∨ ∃ X, t1 = Table.insert m names.LOGGER_TABLE (.tableArray X)
          ∧ Table.get r1 names.LOGGER_TABLE = some (.tableArray X)) := by
    rcases merge_config_items_again ovr base r1 m _ nsl hws h1 hget1 with ⟨hs, -⟩ | ⟨O, hs, hr⟩
    · exact ⟨m, hs, Or.inl rfl⟩
    · refine ⟨_, hs, Or.inr ⟨O, rfl, ?_⟩⟩
      rw [hr, Table.get_insert]; simp
  obtain ⟨t1, s1, i1⟩ := inv1
  -- the pattern stage of the second run
  have hget2 : Table.get t1 names.PATTERN_TABLE = Table.get r2 names.PATTERN_TABLE := by
    rcases i1 with rfl | ⟨X, rfl, -⟩
    · exact f3 _ npl npl
    · rw [Table.get_insert]
      simp only [Ne.symm npl, if_false]
      exact f3 _ npl npl
  have inv2 : ∃ t2, merge_config_items t1 names.PATTERN_TABLE
        (Table.get_table_array t1 names.PATTERN_TABLE)
        (Table.get_table_array ovr names.PATTERN_TABLE) = .ok t2
      ∧ (t2 = m ∨ ∃ X, t2 = Table.insert m names.LOGGER_TABLE (.tableArray X)
          ∧ Table.get r2 names.LOGGER_TABLE = some (.tableArray X)) := by
    rcases merge_config_items_again ovr r1 r2 t1 _ npl hwp h2 hget2 with ⟨hs, hl⟩ | ⟨O, hs, hr⟩
    · refine ⟨t1, hs, ?_⟩
      rcases i1 with h | ⟨X, hX, hg⟩
      · exact Or.inl h
      · exact Or.inr ⟨X, hX, by rw [hl]; exact hg⟩
    · refine ⟨_, hs, Or.inr ⟨O, ?_, ?_⟩⟩
      · rcases i1 with rfl | ⟨X, rfl, -⟩
        · rfl
        · exact Table.insert_insert _ _ _ _
      · rw [hr, Table.get_insert]; simp
  obtain ⟨t2, s2, i2⟩ := inv2
  -- the logger stage of the second run
  have s3 : merge_config_items t2 names.LOGGER_TABLE
      (Table.get_table_array t2 names.LOGGER_TABLE)
      (Table.get_table_array ovr names.LOGGER_TABLE) = .ok m := by
    rcases merge_config_items_cases _ _ _ _ _ h3 with ⟨ho, hr⟩ | ⟨O, hb, ho, hr⟩
      | ⟨B, O, M, hb, ho, hl, hr⟩
    · -- the override has no logger array
      have ht2 : t2 = m := by
        rcases i2 with h | ⟨X, hX, hg⟩
        · exact h
        · rw [hX, Table.insert_eq_self]
          rw [hr]; exact hg
      rw [ht2, ho]
      exact merge_config_items_no_override _ _ _
    · -- the first run adopted the logger array
      have ht2 : t2 = m := by
        rcases i2 with h | ⟨X, -, hg⟩
        · exact h
        · rw [get_table_array_of_get r2 _ X hg] at hb
          simp at hb
      have hgm : Table.get m names.LOGGER_TABLE = some (.tableArray O) := by
        rw [hr, Table.get_insert]; simp
      obtain ⟨hwf, hnamed, hnd⟩ := hw _ O (Or.inr (Or.inr rfl)) ho
      rw [ht2, get_table_array_of_get m _ O hgm, ho]
      simp only [merge_config_items,
        merge_config_items_loop_absorbed O O (absorbed_self O hwf hnamed hnd)]
      rw [Table.insert_eq_self m _ _ hgm]
    · -- the first run merged the logger arrays
      have hgm : Table.get m names.LOGGER_TABLE = some (.tableArray M) := by
        rw [hr, Table.get_insert]; simp
      obtain ⟨hwf, -, hnd⟩ := hw _ O (Or.inr (Or.inr rfl)) ho
      rcases i2 with h | ⟨X, hX, hg⟩
      · rw [h, get_table_array_of_get m _ M hgm, ho]
        simp only [merge_config_items, merge_config_items_loop_idempotent O B M hwf hnd hl]
        rw [Table.insert_eq_self m _ _ hgm]
      · have hXB : X = B := by
          rw [get_table_array_of_get r2 _ X hg] at hb
          exact Option.some.inj hb
        have hgt : Table.get t2 names.LOGGER_TABLE = some (.tableArray B) := by
          rw [hX, Table.get_insert, hXB]; simp
        rw [get_table_array_of_get t2 _ B hgt, ho]
        simp only [merge_config_items, hl]
        rw [hX, Table.insert_insert, Table.insert_eq_self m _ _ hgm]
  rw [merge_config_root_unfold, s1]
  simp only [s2]
  exact s3

/-- C25 (counterexample).  Base has sinks and no logger array, the override has a
logger item without a name: the first merge adopts the override's logger array without
a check and succeeds; the second merge finds a logger array in base, checks the names
and fails. -/
theorem merge_twice_fails_after_adoption :
    merge_config_root (some base_only_sinks) (some override_nameless_logger)
      = .ok [("sink", .tableArray
                [[("name", .str "console"), ("type", .str "stdout_sink_mt")]]),
             ("logger", .tableArray [[("level", .str "debug")]])]
    ∧ merge_config_root
        (some [("sink", .tableArray
                  [[("name", .str "console"), ("type", .str "stdout_sink_mt")]]),
               ("logger", .tableArray [[("level", .str "debug")]])])
        (some override_nameless_logger)
      = .error "One of the items in override does not have a name" :=
  ⟨rfl, rfl⟩

/-- Witness of C25 as amended: `override_with_new_logger` merged twice into
`base_without_patterns`. -/
theorem merge_idempotent_witness :
    merge_config_root (some base_without_patterns) (some override_with_new_logger)
      = .ok merged_with_new_logger
    ∧ merge_config_root (some merged_with_new_logger) (some override_with_new_logger)
      = .ok merged_with_new_logger :=
  ⟨rfl,
   merge_idempotent base_without_patterns override_with_new_logger merged_with_new_logger
     rfl (by
       intro key items hkey h
       rcases hkey with rfl | rfl | rfl
       · exact absurd h (by simp [override_with_new_logger, Table.get_table_array, Table.get,
           names.SINK_TABLE])
       · have e : Table.get_table_array override_with_new_logger names.PATTERN_TABLE
             = some [[("name", .str "brief"), ("value", .str "%v")]] := rfl
         rw [e] at h
         rw [← Option.some.inj h]
         exact ⟨by decide, by decide, by decide⟩
       · have e : Table.get_table_array override_with_new_logger names.LOGGER_TABLE
             = some [[("name", .str "audit"), ("sinks", .array [.str "console"])]] := rfl
         rw [e] at h
         rw [← Option.some.inj h]
         exact ⟨by decide, by decide, by decide⟩)⟩

/-- What `merge_config_root` leaves alone: every root key other than the three section
keys; the sink and pattern keys when the override has no array of the section; and the
logger key when the override has no logger array and no sink or pattern array is
adopted. -/
theorem merge_config_root_frame (base ovr m : Table)
    (hm : merge_config_root (some base) (some ovr) = .ok m) :
    (∀ k, k ≠ names.SINK_TABLE → k ≠ names.PATTERN_TABLE → k ≠ names.LOGGER_TABLE →
      Table.get m k = Table.get base k)
    ∧ (Table.get_table_array ovr names.SINK_TABLE = none →
        Table.get m names.SINK_TABLE = Table.get base names.SINK_TABLE)
    ∧ (Table.get_table_array ovr names.PATTERN_TABLE = none →
        Table.get m names.PATTERN_TABLE = Table.get base names.PATTERN_TABLE)
    ∧ (Table.get_table_array ovr names.LOGGER_TABLE = none →
        (Table.get_table_array ovr names.SINK_TABLE ≠ none →
          Table.get_table_array base names.SINK_TABLE ≠ none) →
        (Table.get_table_array ovr names.PATTERN_TABLE ≠ none →
          Table.get_table_array base names.PATTERN_TABLE ≠ none) →
        Table.get m names.LOGGER_TABLE = Table.get base names.LOGGER_TABLE) := by
  have nsp : names.SINK_TABLE ≠ names.PATTERN_TABLE := by decide
  have nsl : names.SINK_TABLE ≠ names.LOGGER_TABLE := by decide
  have npl : names.PATTERN_TABLE ≠ names.LOGGER_TABLE := by decide
  obtain ⟨r1, r2, h1, h2, h3⟩ := merge_config_root_stages base ovr m hm
  have f1 := ((merge_config_items_frame _ _ _ _).2 r1 h1).1
  have f2 := ((merge_config_items_frame _ _ _ _).2 r2 h2).1
  have f3 := ((merge_config_items_frame _ _ _ _).2 m h3).1
  refine ⟨fun k ks kp kl => ?_, fun ho => ?_, fun ho => ?_, fun ho hs hp => ?_⟩
  · rw [f3 k kl kl, f2 k kp kl, f1 k ks kl]
  · rw [f3 _ nsl nsl, f2 _ nsp nsl]
    rw [ho] at h1
    rw [merge_config_items_no_override] at h1
    rw [← Except.ok.inj h1]
  · rw [f3 _ npl npl]
    rw [ho] at h2
    rw [merge_config_items_no_override] at h2
    rw [← Except.ok.inj h2]
    exact f1 _ nsp.symm npl
  · rw [ho, merge_config_items_no_override] at h3
    rw [← Except.ok.inj h3]
    have e1 : Table.get r1 names.LOGGER_TABLE = Table.get base names.LOGGER_TABLE := by
      rcases merge_config_items_cases _ _ _ _ _ h1 with ⟨-, hr⟩ | ⟨O, hbn, hon, -⟩
        | ⟨B, O, M, -, -, -, hr⟩
      · rw [hr]
      · exact absurd hbn (hs (by rw [hon]; simp))
      · rw [hr, Table.get_insert]; simp [nsl]
    have e1p : Table.get r1 names.PATTERN_TABLE = Table.get base names.PATTERN_TABLE :=
      f1 _ nsp.symm npl
    have e2 : Table.get r2 names.LOGGER_TABLE = Table.get r1 names.LOGGER_TABLE := by
      rcases merge_config_items_cases _ _ _ _ _ h2 with ⟨-, hr⟩ | ⟨O, hbn, hon, -⟩
        | ⟨B, O, M, -, -, -, hr⟩
      · rw [hr]
      · rw [get_table_array_congr r1 base _ e1p] at hbn
        exact absurd hbn (hp (by rw [hon]; simp))
      · rw [hr, Table.get_insert]; simp [npl]
    exact e2.trans e1

/-- C27 (evaluation at the failing input).  The override has a pattern array and no
logger array, base has a logger array and no pattern array: after `merge_config_root`
the logger array is not as it was in base, it has been replaced by the override's
pattern array (the insertion at line 338 names `LOGGER_TABLE` for every section).
What the merge does leave alone is stated in `merge_config_root_frame`. -/
theorem merge_frame_logger_section_replaced :
    Table.get_table_array override_only_patterns names.LOGGER_TABLE = none
    ∧ Table.get_table_array base_without_patterns names.LOGGER_TABLE
      = some [[("name", .str "root"), ("sinks", .array [.str "console"]),
               ("level", .str "info")]]
    ∧ merge_config_root (some base_without_patterns) (some override_only_patterns)
      = .ok [("sink", .tableArray
                [[("name", .str "console"), ("type", .str "stdout_sink_mt")]]),
             ("logger", .tableArray [[("name", .str "brief"), ("value", .str "%v")]])] :=
  ⟨rfl, rfl, rfl⟩

/-! ## Theorems: when the names of override items are checked -/

/-- The merge loop returns when every override item has a name. -/
theorem merge_config_items_loop_returns :
    ∀ (ovr_items base_items : List Table), (∀ o ∈ ovr_items, item_name o ≠ none) →
      ∃ merged, merge_config_items_loop base_items ovr_items = .ok merged := by
  intro ovr_items
  induction ovr_items with
  | nil => intro base_items _; exact ⟨base_items, rfl⟩
  | cons o rest ih =>
    intro base_items h
    obtain ⟨m1, h1⟩ := (merge_config_item_error base_items o).2.1 (h o (List.mem_cons_self _ _))
    obtain ⟨m2, h2⟩ := ih m1 (fun x hx => h x (List.mem_cons_of_mem _ hx))
    exact ⟨m2, by simp only [merge_config_items_loop, h1, h2]⟩

/-- One section merged without adoption and with named override items: the merge
returns and every other key of the document keeps its value. -/
theorem merge_config_items_named_stage (t ovr : Table) (key : String)
    (hno : Table.get_table_array ovr key ≠ none → Table.get_table_array t key ≠ none)
    (hnamed : ∀ items, Table.get_table_array ovr key = some items →
      ∀ o ∈ items, item_name o ≠ none) :
    ∃ r, merge_config_items t key (Table.get_table_array t key)
          (Table.get_table_array ovr key) = .ok r
      ∧ ∀ k, k ≠ key → Table.get r k = Table.get t k := by
  cases ho : Table.get_table_array ovr key with
  | none => exact ⟨t, merge_config_items_no_override t key _, fun _ _ => rfl⟩
  | some O =>
    obtain ⟨B, hB⟩ := Option.ne_none_iff_exists'.mp (hno (by rw [ho]; simp))
    obtain ⟨M, hM⟩ := merge_config_items_loop_returns O B (hnamed O ho)
    refine ⟨Table.insert t key (.tableArray M), by simp only [hB, merge_config_items, hM], ?_⟩
    intro k hk
    rw [Table.get_insert]
    simp [Ne.symm hk]

/-- A logger array that only the override has is adopted as it is when no sink or
pattern array is adopted before it and the override's sink and pattern items have
names. -/
theorem merge_config_root_logger_adopted (base ovr : Table) (ovr_items : List Table)
    (hb : Table.get_table_array base names.LOGGER_TABLE = none)
    (ho : Table.get_table_array ovr names.LOGGER_TABLE = some ovr_items)
    (hs : Table.get_table_array ovr names.SINK_TABLE ≠ none →
      Table.get_table_array base names.SINK_TABLE ≠ none)
    (hp : Table.get_table_array ovr names.PATTERN_TABLE ≠ none →
      Table.get_table_array base names.PATTERN_TABLE ≠ none)
    (hnamed : ∀ key items, key = names.SINK_TABLE ∨ key = names.PATTERN_TABLE →
      Table.get_table_array ovr key = some items → ∀ o ∈ items, item_name o ≠ none) :
    ∃ m, merge_config_root (some base) (some ovr) = .ok m
      ∧ Table.get_table_array m names.LOGGER_TABLE = some ovr_items := by
  have nsp : names.SINK_TABLE ≠ names.PATTERN_TABLE := by decide
  have nsl : names.SINK_TABLE ≠ names.LOGGER_TABLE := by decide
  have npl : names.PATTERN_TABLE ≠ names.LOGGER_TABLE := by decide
  obtain ⟨r1, h1, f1⟩ := merge_config_items_named_stage base ovr names.SINK_TABLE hs
    (fun items => hnamed _ items (Or.inl rfl))
  have hp1 : Table.get_table_array ovr names.PATTERN_TABLE ≠ none →
      Table.get_table_array r1 names.PATTERN_TABLE ≠ none := by
    intro h
    rw [get_table_array_congr r1 base _ (f1 _ nsp.symm)]
    exact hp h
  obtain ⟨r2, h2, f2⟩ := merge_config_items_named_stage r1 ovr names.PATTERN_TABLE hp1
    (fun items => hnamed _ items (Or.inr rfl))
  have hl2 : Table.get_table_array r2 names.LOGGER_TABLE = none := by
    rw [get_table_array_congr r2 base _ ((f2 _ npl.symm).trans (f1 _ nsl.symm))]
    exact hb
  refine ⟨Table.insert r2 names.LOGGER_TABLE (.tableArray ovr_items), ?_,
    get_table_array_insert_self _ _ _⟩
  rw [merge_config_root_unfold, h1]
  simp only [h2, hl2, ho]
  rfl

/-- After a sink or pattern array has been adopted the logger items are checked: the
adopted array lies under the logger key, so the logger section is merged into it. -/
theorem merge_config_root_checked_after_adoption (base ovr : Table)
    (ovr_items : List Table)
    (ho : Table.get_table_array ovr names.LOGGER_TABLE = some ovr_items)
    (hnameless : ∃ o ∈ ovr_items, item_name o = none)
    (hadopt : (Table.get_table_array base names.SINK_TABLE = none
        ∧ Table.get_table_array ovr names.SINK_TABLE ≠ none)
      ∨ (Table.get_table_array base names.PATTERN_TABLE = none
        ∧ Table.get_table_array ovr names.PATTERN_TABLE ≠ none)) :
    merge_config_root (some base) (some ovr) = .error missing_name_message := by
  have nsp : names.PATTERN_TABLE ≠ names.SINK_TABLE := by decide
  have npl : names.PATTERN_TABLE ≠ names.LOGGER_TABLE := by decide
  rw [merge_config_root_unfold]
  cases h1 : merge_config_items base names.SINK_TABLE
      (Table.get_table_array base names.SINK_TABLE)
      (Table.get_table_array ovr names.SINK_TABLE) with
  | error e => rw [(merge_config_items_frame _ _ _ _).1 e h1]
  | ok r1 =>
    simp only []
    cases h2 : merge_config_items r1 names.PATTERN_TABLE
        (Table.get_table_array r1 names.PATTERN_TABLE)
        (Table.get_table_array ovr names.PATTERN_TABLE) with
    | error e => rw [(merge_config_items_frame _ _ _ _).1 e h2]
    | ok r2 =>
      simp only []
      have hl2 : Table.get_table_array r2 names.LOGGER_TABLE ≠ none := by
        rcases hadopt with ⟨hbs, hos⟩ | ⟨hbp, hop⟩
        · obtain ⟨S, hS⟩ := Option.ne_none_iff_exists'.mp hos
          rw [hbs, hS] at h1
          simp only [merge_config_items, Except.ok.injEq] at h1
          have hl1 : Table.get_table_array r1 names.LOGGER_TABLE ≠ none := by
            rw [← h1, get_table_array_insert_self]; simp
          exact ((merge_config_items_frame _ _ _ _).2 r2 h2).2.1 hl1
        · obtain ⟨P, hP⟩ := Option.ne_none_iff_exists'.mp hop
          have hf := ((merge_config_items_frame _ _ _ _).2 r1 h1).1 names.PATTERN_TABLE nsp npl
          rw [get_table_array_congr r1 base _ hf, hbp, hP] at h2
          simp only [merge_config_items, Except.ok.injEq] at h2
          rw [← h2, get_table_array_insert_self]; simp
      obtain ⟨b2, hb2⟩ := Option.ne_none_iff_exists'.mp hl2
      rw [hb2, ho, merge_config_items_nameless r2 _ b2 ovr_items hnameless]

/-- C12 (as amended).  Missing identity key: when base has an array of one of the
sections sink, pattern and logger, and some item of the override's array of that section
has no string `name`, `merge_config_root` fails with the missing-name error.  The names
are checked only then: `merge_config_items`, handed no array of base, inserts the
override array as it is, whatever its items.  So a logger array that only the override
has is adopted without a check, and the merge returns, when no sink or pattern array is
adopted before it and the override's sink and pattern items have names; when a sink or
pattern array is adopted before it, that array lies under the logger key, the logger
items are merged into it and an item without a name makes the merge fail. -/
theorem merge_missing_name_rejected (base ovr : Table) :
    (∀ (key : String) (base_items ovr_items : List Table),
      key = names.SINK_TABLE ∨ key = names.PATTERN_TABLE ∨ key = names.LOGGER_TABLE →
      Table.get_table_array base key = some base_items →
      Table.get_table_array ovr key = some ovr_items →
      (∃ o ∈ ovr_items, item_name o = none) →
      merge_config_root (some base) (some ovr)
        = .error "One of the items in override does not have a name")
    ∧ (∀ (base_ref : Table) (key : String) (ovr_items : List Table),
        merge_config_items base_ref key none (some ovr_items)
          = .ok (Table.insert base_ref names.LOGGER_TABLE (.tableArray ovr_items)))
    ∧ (∀ ovr_items : List Table,
        Table.get_table_array base names.LOGGER_TABLE = none →
        Table.get_table_array ovr names.LOGGER_TABLE = some ovr_items →
        (Table.get_table_array ovr names.SINK_TABLE ≠ none →
          Table.get_table_array base names.SINK_TABLE ≠ none) →
        (Table.get_table_array ovr names.PATTERN_TABLE ≠ none →
          Table.get_table_array base names.PATTERN_TABLE ≠ none) →
        (∀ key items, key = names.SINK_TABLE ∨ key = names.PATTERN_TABLE →
          Table.get_table_array ovr key = some items → ∀ o ∈ items, item_name o ≠ none) →
        ∃ m, merge_config_root (some base) (some ovr) = .ok m
          ∧ Table.get_table_array m names.LOGGER_TABLE = some ovr_items)
    ∧ (∀ ovr_items : List Table,
        Table.get_table_array ovr names.LOGGER_TABLE = some ovr_items →
        (∃ o ∈ ovr_items, item_name o = none) →
        (Table.get_table_array base names.SINK_TABLE = none
            ∧ Table.get_table_array ovr names.SINK_TABLE ≠ none)
          ∨ (Table.get_table_array base names.PATTERN_TABLE = none
            ∧ Table.get_table_array ovr names.PATTERN_TABLE ≠ none) →
        merge_config_root (some base) (some ovr)
          = .error "One of the items in override does not have a name") :=
  ⟨fun key base_items ovr_items hkey hb ho hn =>
      merge_config_root_nameless base ovr key base_items ovr_items hkey hb ho hn,
   fun _ _ _ => rfl,
   fun ovr_items hb ho hs hp hn =>
      merge_config_root_logger_adopted base ovr ovr_items hb ho hs hp hn,
   fun ovr_items ho hn ha =>
      merge_config_root_checked_after_adoption base ovr ovr_items ho hn ha⟩

/-- Witness of C12 as amended: base has a logger array and the override's logger item
has only a `level`, and the merge fails; base has sinks only and the same override's
logger array is adopted; base is empty and the override brings a sink array with the
same logger array, and the merge fails. -/
theorem merge_missing_name_rejected_witness :
    merge_config_root (some base_without_patterns) (some override_nameless_logger)
      = .error "One of the items in override does not have a name"
    ∧ (∃ m, merge_config_root (some base_only_sinks) (some override_nameless_logger) = .ok m
        ∧ Table.get_table_array m names.LOGGER_TABLE = some [[("level", .str "debug")]])
    ∧ merge_config_root (some []) (some override_sink_and_nameless_logger)
      = .error "One of the items in override does not have a name" :=
  ⟨(merge_missing_name_rejected base_without_patterns override_nameless_logger).1
      names.LOGGER_TABLE
      [[("name", .str "root"), ("sinks", .array [.str "console"]), ("level", .str "info")]]
      [[("level", .str "debug")]] (Or.inr (Or.inr rfl)) rfl rfl
      ⟨[("level", .str "debug")], List.mem_cons_self _ _, rfl⟩,
   (merge_missing_name_rejected base_only_sinks override_nameless_logger).2.2.1
      [[("level", .str "debug")]] rfl rfl (fun h => absurd rfl h) (fun h => absurd rfl h)
      (fun key items hkey h => by
        rcases hkey with rfl | rfl <;>
          exact Option.noConfusion (show (none : Option (List Table)) = some items from h)),
   (merge_missing_name_rejected [] override_sink_and_nameless_logger).2.2.2
      [[("level", .str "debug")]] rfl
      ⟨[("level", .str "debug")], List.mem_cons_self _ _, rfl⟩
      (Or.inl ⟨rfl, fun h => Option.noConfusion
        (show some [[("name", .str "console"), ("type", .str "stdout_sink_mt")]]
          = (none : Option (List Table)) from h)⟩)⟩

/-! ## Theorems: size strings beyond the range of 64 bits -/

/-- The products of `parse_max_size`, each reduced to the range of `uint64_t`, are the
product by the power of 1024 reduced once. -/
theorem wrapped_products (n : Nat) :
    n * 1024 % UINT64_RANGE = n * 1024 ^ 1 % 2 ^ 64
    ∧ n * 1024 % UINT64_RANGE * 1024 % UINT64_RANGE = n * 1024 ^ 2 % 2 ^ 64
    ∧ n * 1024 % UINT64_RANGE * 1024 % UINT64_RANGE * 1024 % UINT64_RANGE
        = n * 1024 ^ 3 % 2 ^ 64
    ∧ n * 1024 % UINT64_RANGE * 1024 % UINT64_RANGE * 1024 % UINT64_RANGE * 1024
        % UINT64_RANGE = n * 1024 ^ 4 % 2 ^ 64 := by
  simp only [UINT64_RANGE]
  refine ⟨by omega, by omega, by omega, by omega⟩

/-- C31.  Size overflow is silent: for every number `n` below `2 ^ 64` written in
decimal and every unit suffix `k`, `m`, `g`, `t`, in lower or upper case, with exponent
`i` = 1, 2, 3, 4 such that `n * 1024 ^ i` is at least `2 ^ 64`, `parse_max_size` of the
digits followed by the suffix does not fail: it returns `n * 1024 ^ i` modulo `2 ^ 64`,
which is less than the product. -/
theorem parse_max_size_overflow_silent (n : Nat) (c : Char) (i : Nat)
    (hunit : (c, i) ∈ size_units) (hn : n < 2 ^ 64) (hover : 2 ^ 64 ≤ n * 1024 ^ i) :
    parse_max_size (String.mk (Nat.toDigits 10 n ++ [c])) = .ok (n * 1024 ^ i % 2 ^ 64)
    ∧ n * 1024 ^ i % 2 ^ 64 < n * 1024 ^ i := by
  obtain ⟨ds, h1, h2, h3, h4⟩ := toDigits_digits n
  have hcases := size_units_cases c i hunit
  have hc : digit_value c = none ∧ trim_space (String.mk [c]) = String.mk [c] := by
    rcases hcases with ⟨-, rfl | rfl⟩ | ⟨-, rfl | rfl⟩ | ⟨-, rfl | rfl⟩ | ⟨-, rfl | rfl⟩ <;>
      decide
  have hstoul : stoul (String.mk (ds.map Nat.digitChar ++ [c]))
      = .ok (decimal_value ds 0, ds.length) :=
    stoul_digits ds [c] h3 h2 (by simp [scan_digits, hc.1]) (by rw [h4]; exact hn)
  have hlen : (ds.map Nat.digitChar).length = ds.length := List.length_map _ _
  have hsub := substr_after (ds.map Nat.digitChar) [c]
  rw [hlen] at hsub
  obtain ⟨w1, w2, w3, w4⟩ := wrapped_products n
  refine ⟨?_, lt_of_lt_of_le (Nat.mod_lt _ (by decide)) hover⟩
  rw [h1]
  simp only [parse_max_size, hstoul, hsub, hc.2, h4]
  rcases hcases with ⟨rfl, rfl | rfl⟩ | ⟨rfl, rfl | rfl⟩ | ⟨rfl, rfl | rfl⟩
    | ⟨rfl, rfl | rfl⟩ <;>
    simp +decide only [if_true, if_false, or_true, true_or, or_self, or_false,
      false_or] <;>
    first | rw [w4] | rw [w3] | rw [w2] | rw [w1]

/-- Witness of C31: `16777216t` gives 0, and the largest number with the suffix `k`
gives `2 ^ 64 - 1024`. -/
theorem parse_max_size_overflow_silent_witness :
    parse_max_size "16777216t" = .ok 0
    ∧ parse_max_size "18446744073709551615k" = .ok 18446744073709550592 := by
  have ht := (parse_max_size_overflow_silent 16777216 't' 4 (by decide) (by decide)
    (by decide)).1
  have hk := (parse_max_size_overflow_silent 18446744073709551615 'k' 1 (by decide)
    (by decide) (by decide)).1
  have hts : String.mk (Nat.toDigits 10 16777216 ++ ['t']) = "16777216t" := by decide
  have hks : String.mk (Nat.toDigits 10 18446744073709551615 ++ ['k'])
      = "18446744073709551615k" := by decide
  have htv : 16777216 * 1024 ^ 4 % 2 ^ 64 = 0 := by decide
  have hkv : 18446744073709551615 * 1024 ^ 1 % 2 ^ 64 = 18446744073709550592 := by decide
  rw [hts, htv] at ht
  rw [hks, hkv] at hk
  exact ⟨ht, hk⟩

/-! ## Theorems: creation of directories, ancestors first -/

/-- The parent path is a prefix that ends at the last slash. -/
theorem get_parent_path_prefix (file_path : String) :
    get_parent_path file_path = ""
    ∨ ∃ rest, rest ≠ [] ∧ file_path.data = (get_parent_path file_path).data ++ rest := by
  unfold get_parent_path
  cases hf : find_last_of_from '/' file_path.data 0 none with
  | none => exact Or.inl rfl
  | some j =>
    right
    rcases find_last_of_from_bound '/' file_path.data 0 none j hf with h1 | ⟨-, h2⟩
    · simp at h1
    · refine ⟨file_path.data.drop j, ?_, ?_⟩
      · intro h
        have := congrArg List.length h
        simp only [List.length_drop, List.length_nil] at this
        omega
      · simp only [substr, List.drop_zero]
        exact (List.take_append_drop j file_path.data).symm

/-- With a bound above the length of the path the result of `create_dirs_impl` does not
depend on the bound. -/
theorem create_dirs_impl_fuel (env : SetupEnv) :
    ∀ (fuel1 fuel2 : Nat) (w : World) (dir_path : String),
      dir_path.length < fuel1 → dir_path.length < fuel2 →
      create_dirs_impl env fuel1 w dir_path = create_dirs_impl env fuel2 w dir_path := by
  intro fuel1
  induction fuel1 with
  | zero => intro fuel2 w p h; omega
  | succ n ih =>
    intro fuel2 w p h1 h2
    cases fuel2 with
    | zero => omega
    | succ m =>
      unfold create_dirs_impl
      by_cases hp : p = ""
      · simp [hp]
      · have hlt := get_parent_path_length p hp
        rw [ih m w (get_parent_path p) (by omega) (by omega)]

/-- With a bound above the length of the path the walk does not depend on the bound. -/
theorem missing_chain_fuel (w : World) :
    ∀ (fuel1 fuel2 : Nat) (dir_path : String),
      dir_path.length < fuel1 → dir_path.length < fuel2 →
      missing_chain w fuel1 dir_path = missing_chain w fuel2 dir_path := by
  intro fuel1
  induction fuel1 with
  | zero => intro fuel2 p h; omega
  | succ n ih =>
    intro fuel2 p h1 h2
    cases fuel2 with
    | zero => omega
    | succ m =>
      unfold missing_chain
      by_cases hp : p = ""
      · simp [hp]
      · have hlt := get_parent_path_length p hp
        rw [ih m (get_parent_path p) (by omega) (by omega)]

/-- Creating the paths of two lists in order: the second list is reached when the first
went through. -/
theorem create_in_order_append (env : SetupEnv) :
    ∀ (xs ys : List String) (w : World),
      create_in_order env w (xs ++ ys)
        = match create_in_order env w xs with
          | (.error e, w1) => (.error e, w1)
          | (.ok _, w1) => create_in_order env w1 ys := by
  intro xs
  induction xs with
  | nil => intro ys w; rfl
  | cons x rest ih =>
    intro ys w
    simp only [List.cons_append, create_in_order]
    cases hn : native_create_dir env w x with
    | mk b w1 =>
      cases b with
      | false => rfl
      | true => exact ih ys w1

/-- The run of `create_dirs_impl` creates the paths of the walk, topmost first. -/
theorem create_dirs_impl_chain (env : SetupEnv) :
    ∀ (fuel : Nat) (w : World) (dir_path : String), dir_path.length < fuel →
      create_dirs_impl env fuel w dir_path
        = some (create_in_order env w (missing_chain w fuel dir_path)) := by
  intro fuel
  induction fuel with
  | zero => intro w p h; omega
  | succ n ih =>
    intro w p h
    unfold create_dirs_impl missing_chain
    by_cases hp : p = ""
    · simp [hp, create_in_order]
    · simp only [hp, if_false]
      by_cases he : file_exists w p = true
      · simp [he, create_in_order]
      · have hlt := get_parent_path_length p hp
        simp only [he, Bool.not_false, if_true, Bool.false_eq_true, Bool.not_eq_true,
          if_false]
        rw [ih w (get_parent_path p) (by omega), create_in_order_append]
        cases hc : create_in_order env w (missing_chain w n (get_parent_path p)) with
        | mk res w1 =>
          cases res with
          | error e => rfl
          | ok u =>
            simp only [create_in_order]
            cases hn : native_create_dir env w1 p with
            | mk b w2 => cases b <;> rfl

/-- The run of `create_directories` creates the missing ancestors, topmost first. -/
theorem create_directories_eq (env : SetupEnv) (w : World) (dir_path : String) :
    create_directories env w dir_path
      = create_in_order env w (missing_ancestors w dir_path) := by
  unfold create_directories missing_ancestors
  rw [create_dirs_impl_chain env _ w dir_path (Nat.lt_succ_self _)]

/-- A missing path comes last, after the missing ancestors of its parent. -/
theorem missing_ancestors_step (w : World) (dir_path : String) (hp : dir_path ≠ "")
    (he : file_exists w dir_path = false) :
    missing_ancestors w dir_path
      = missing_ancestors w (get_parent_path dir_path) ++ [dir_path] := by
  have hlt := get_parent_path_length dir_path hp
  unfold missing_ancestors
  rw [missing_chain_fuel w ((get_parent_path dir_path).length + 1) dir_path.length
    (get_parent_path dir_path) (by omega) (by omega)]
  simp [missing_chain, hp, he]

/-- The walk stops at the empty path and at a path that exists. -/
theorem missing_ancestors_nil (w : World) (dir_path : String)
    (h : dir_path = "" ∨ file_exists w dir_path = true) :
    missing_ancestors w dir_path = [] := by
  unfold missing_ancestors missing_chain
  rcases h with h | h
  · simp [h]
  · simp [h]

/-- A run of `create_in_order` that fails has failed at a path of the list, with the
creations before it done. -/
theorem create_in_order_error (env : SetupEnv) :
    ∀ (xs : List String) (w w2 : World) (e : String),
      create_in_order env w xs = (.error e, w2) →
      ∃ pre q post w1, xs = pre ++ q :: post
        ∧ create_in_order env w pre = (.ok (), w1)
        ∧ env.mkdir_ok w1.paths q = false
        ∧ e = "Unable to create directory at '" ++ q ++ "'" ∧ w2 = w1 := by
  intro xs
  induction xs with
  | nil => intro w w2 e h; simp [create_in_order] at h
  | cons x rest ih =>
    intro w w2 e h
    simp only [create_in_order, native_create_dir] at h
    by_cases hm : env.mkdir_ok w.paths x = true
    · simp only [hm, if_true] at h
      obtain ⟨pre, q, post, w1, h1, h2, h3, h4, h5⟩ := ih _ w2 e h
      refine ⟨x :: pre, q, post, w1, by simp [h1], ?_, h3, h4, h5⟩
      simp only [create_in_order, native_create_dir, hm, if_true]
      exact h2
    · simp only [hm, if_false, Bool.false_eq_true, Prod.mk.injEq, Except.error.injEq] at h
      refine ⟨[], x, rest, w, rfl, rfl, by simpa using hm, h.1.symm, h.2.symm⟩

/-- The paths of the walk are not empty and do not exist in the world. -/
theorem missing_chain_missing (w : World) :
    ∀ (fuel : Nat) (dir_path : String), ∀ q ∈ missing_chain w fuel dir_path,
      q ≠ "" ∧ file_exists w q = false := by
  intro fuel
  induction fuel with
  | zero => intro p q hq; simp [missing_chain] at hq
  | succ n ih =>
    intro p q hq
    unfold missing_chain at hq
    by_cases hp : p = ""
    · simp [hp] at hq
    · by_cases he : file_exists w p = true
      · simp [hp, he] at hq
      · simp only [hp, he, if_false, Bool.false_eq_true, List.mem_append,
          List.mem_singleton] at hq
        rcases hq with hq | rfl
        · exact ih _ q hq
        · exact ⟨hp, by simpa using he⟩

/-- C32.  Recursive directory creation terminates and creates ancestors first.  For
every path, `get_parent_path` returns the empty string or a proper prefix, strictly
shorter than the path; hence `create_dirs_impl` returns within a depth of one more than
the length of the path, with the result of `create_directories`.  On the empty path and
on a path that exists it returns at once and leaves the world as it is; on a missing
path it first runs on the parent, passes on an error of that run without a creation,
and only after that run has returned creates the path itself, failing when the creation
fails.  Altogether it creates the missing ancestors, topmost first, up to the first
ancestor that exists or is empty; it fails at the first creation that fails, and fails
in no other way. -/
theorem create_directories_ancestors_first (env : SetupEnv) (w : World)
    (dir_path : String) :
    (get_parent_path dir_path = ""
      ∨ ∃ rest, rest ≠ [] ∧ dir_path.data = (get_parent_path dir_path).data ++ rest
          ∧ (get_parent_path dir_path).length < dir_path.length)
    ∧ (∀ fuel, dir_path.length < fuel →
        create_dirs_impl env fuel w dir_path = some (create_directories env w dir_path))
    ∧ (dir_path = "" ∨ file_exists w dir_path = true →
        create_directories env w dir_path = (.ok (), w))
    ∧ (dir_path ≠ "" → file_exists w dir_path = false →
        create_directories env w dir_path
          = match create_directories env w (get_parent_path dir_path) with
            | (.error e, w1) => (.error e, w1)
            | (.ok _, w1) =>
              match native_create_dir env w1 dir_path with
              | (false, w2) =>
                (.error ("Unable to create directory at '" ++ dir_path ++ "'"), w2)
              | (true, w2) => (.ok (), w2))
    ∧ create_directories env w dir_path
        = create_in_order env w (missing_ancestors w dir_path)
    ∧ (dir_path = "" ∨ file_exists w dir_path = true → missing_ancestors w dir_path = [])
    ∧ (dir_path ≠ "" → file_exists w dir_path = false →
        missing_ancestors w dir_path
          = missing_ancestors w (get_parent_path dir_path) ++ [dir_path])
    ∧ (∀ q ∈ missing_ancestors w dir_path, q ≠ "" ∧ file_exists w q = false)
    ∧ (∀ pre q post w1, missing_ancestors w dir_path = pre ++ q :: post →
        create_in_order env w pre = (.ok (), w1) → env.mkdir_ok w1.paths q = false →
        create_directories env w dir_path
          = (.error ("Unable to create directory at '" ++ q ++ "'"), w1))
    ∧ (∀ e w2, create_directories env w dir_path = (.error e, w2) →
        ∃ pre q post w1, missing_ancestors w dir_path = pre ++ q :: post
          ∧ create_in_order env w pre = (.ok (), w1)
          ∧ env.mkdir_ok w1.paths q = false
          ∧ e = "Unable to create directory at '" ++ q ++ "'" ∧ w2 = w1) := by
  refine ⟨?_, ?_, ?_, ?_, create_directories_eq env w dir_path, missing_ancestors_nil w dir_path,
    missing_ancestors_step w dir_path, missing_chain_missing w _ dir_path, ?_, ?_⟩
  · rcases get_parent_path_prefix dir_path with h | ⟨rest, h1, h2⟩
    · exact Or.inl h
    · refine Or.inr ⟨rest, h1, h2, ?_⟩
      have hl := congrArg List.length h2
      have hr : 0 < rest.length := List.length_pos.mpr h1
      simp only [List.length_append] at hl
      simp only [String.length]
      omega
  · intro fuel hf
    rw [create_dirs_impl_fuel env fuel (dir_path.length + 1) w dir_path hf
      (Nat.lt_succ_self _)]
    obtain ⟨r, hr⟩ := create_dirs_impl_returns env (dir_path.length + 1) w dir_path
      (Nat.lt_succ_self _)
    simp only [create_directories, hr]
  · intro h
    rw [create_directories_eq, missing_ancestors_nil w dir_path h]
    rfl
  · intro hp he
    rw [create_directories_eq, missing_ancestors_step w dir_path hp he,
      create_in_order_append, create_directories_eq]
    cases hc : create_in_order env w (missing_ancestors w (get_parent_path dir_path)) with
    | mk res w1 =>
      cases res with
      | error e => rfl
      | ok u => simp only [create_in_order]
  · intro pre q post w1 hsplit hpre hfail
    rw [create_directories_eq, hsplit, create_in_order_append, hpre]
    simp only [create_in_order, native_create_dir, hfail, Bool.false_eq_true, if_false]
  · intro e w2 h
    rw [create_directories_eq] at h
    exact create_in_order_error env _ w w2 e h

/-- Witness of C32: with `/var` in place, `/var/log` is created before `/var/log/app`;
when `/var/log` cannot be created the run fails there and creates nothing. -/
theorem create_directories_ancestors_first_witness :
    missing_ancestors world_with_var "/var/log/app" = ["/var/log", "/var/log/app"]
    ∧ create_directories example_setup_env world_with_var "/var/log/app"
      = (.ok (), { world_with_var with paths := ["/var/log/app", "/var/log", "/var"] })
    ∧ create_directories no_var_log_env world_with_var "/var/log/app"
      = (.error "Unable to create directory at '/var/log'", world_with_var) :=
  ⟨by decide,
   (create_directories_ancestors_first example_setup_env world_with_var
      "/var/log/app").2.2.2.2.1.trans rfl,
   (create_directories_ancestors_first no_var_log_env world_with_var
      "/var/log/app").2.2.2.2.2.2.2.2.1 [] "/var/log" ["/var/log/app"] world_with_var
      (by decide) rfl rfl⟩

end spdlog
